import Mathlib

/-!
# Card verifiable certificates (src/common/cvc.c)

A shallow embedding of the certificate decoder `cvcDecode`, of the curve
table lookups `cvcGetCurveForOID` and `cvcDetermineCurveOID`, of the reader of
explicit domain parameters `cvcDetermineCurveFromECParam` and of the signature
encoder `cvcWrapECDSASignature`.

Conventions of the embedding.

* A byte is a natural number; buffers are lists of bytes.
* A `struct bytestring_s` (pointer `val`, length `len`) is an optional list:
  `none` is the zeroed view (`val == NULL`, `len == 0`), `some bs` is a view
  whose `val` points at the bytes `bs` and whose `len` is `bs.length`.
* A cursor of the C code is a pair (pointer, remaining length) such as
  `(po, rlen)` or `(children, childrenlen)`.  It is embedded as the list of
  the `rlen` bytes that start at `po`; `rlen > 0` becomes `po ≠ []`.
* The `int` and `size_t` quantities of the decoder are lengths of parts of
  the input buffer.  They are embedded as natural numbers, which is exact for
  buffers shorter than `2^31` bytes; the one explicit cast of the source,
  `(int)certlen`, is kept as `toInt32`.
* `return -1` is `none`.
* `cvcDecodeViews` repeats `cvcDecode` with the fields `val` and `len` of every
  view written apart, as the C code does through the out-parameters of
  `asn1Next`; `recordOf` maps its record to the record of `cvcDecode`.
-/

namespace CVC

/-! ## Data model -/

/-- Modelled from the spec: `struct bytestring_s` of the header files, which are not
under src/.  Spec section 3 (Byte View): a non-owning pointer plus length;
`none` is the absent view, `some bs` a view onto the bytes `bs`. -/
abbrev bytestring_s := Option (List Nat)

/-- Modelled from the spec: `struct ec_curve` (cvc.h is not under src/), with the seven
views in the order of the initialisers of the table `curves` in cvc.c. -/
structure ec_curve where
  oid : bytestring_s := none
  prime : bytestring_s := none
  coefficientA : bytestring_s := none
  coefficientB : bytestring_s := none
  basePointG : bytestring_s := none
  order : bytestring_s := none
  coFactor : bytestring_s := none
deriving DecidableEq, Repr

/-- Modelled from the spec: `struct cvc` (cvc.h is not under src/): the seventeen views
that `cvcDecode` writes.  The default value of every field is the zeroed
view, which is what `memset(cvc, 0, sizeof(struct cvc))` leaves. -/
structure cvc where
  car : bytestring_s := none
  chr : bytestring_s := none
  chat : bytestring_s := none
  ced : bytestring_s := none
  cxd : bytestring_s := none
  extensions : bytestring_s := none
  pukoid : bytestring_s := none
  primeOrModulus : bytestring_s := none
  coefficientAorExponent : bytestring_s := none
  coefficientB : bytestring_s := none
  basePointG : bytestring_s := none
  order : bytestring_s := none
  publicPoint : bytestring_s := none
  cofactor : bytestring_s := none
  signature : bytestring_s := none
  outer_car : bytestring_s := none
  outerSignature : bytestring_s := none
deriving DecidableEq, Repr

/-! ## The TLV engine (asn1.c, not under src/) -/

/-- Modelled from the spec: the loop of `asn1Tag` for a tag of several bytes (asn1.c is
not under src/).  The tag constants of cvc.c (0x7F21, 0x5F37, 0x7F4E ...) are
the big-endian value of all tag bytes; a further tag byte follows while the
byte just read has its bit 0x80 set. -/
def asn1TagLoop (rc : Nat) : List Nat → Nat × List Nat
  | [] => (rc, [])
  | b :: bs => if 128 ≤ b then asn1TagLoop (rc * 256 + b) bs else (rc * 256 + b, bs)

/-- Modelled from the spec: `asn1Tag` (asn1.c is not under src/), spec section 6
`peekTag(cursor) -> tag`.  Returns the tag and the cursor behind it; the
callers in cvc.c pass a copy `ppo` of the cursor, so they use the tag only.
A first byte whose low five bits are all set (0x7F, 0x5F) opens a tag of
several bytes. -/
def asn1Tag : List Nat → Nat × List Nat
  | [] => (0, [])
  | b :: bs => if b % 32 = 31 then asn1TagLoop b bs else (b, bs)

/-- Big-endian value of a list of bytes. -/
def beValue (bs : List Nat) : Nat := bs.foldl (fun acc b => acc * 256 + b) 0

/-- Modelled from the spec: the length field of an element (asn1.c is not under src/):
one byte below 0x80, or 0x81 .. 0x84 followed by that many length bytes. -/
def asn1Length : List Nat → Option (Nat × List Nat)
  | [] => none
  | l :: bs =>
    if l < 128 then some (l, bs)
    else if l - 128 = 0 ∨ 4 < l - 128 then none
    else if bs.length < l - 128 then none
    else some (beValue (bs.take (l - 128)), bs.drop (l - 128))

/-- The result of `asn1Next`: the out-parameters `*tag` and `(*value, *length)`
(the content, `*length = value.length`) and the advanced cursor
`(*ref, *reflen)`. -/
structure Asn1Elem where
  tag : Nat
  value : List Nat
  rest : List Nat
deriving DecidableEq, Repr

/-- Modelled from the spec: `asn1Next` (asn1.c is not under src/), spec section 6
`next(cursor, remainingLength) -> (tag, contentLength, contentView) | failure`:
the cursor must point at the start of a complete element within the
remaining bytes, else failure (`none`, the C function returns 0); on success
the cursor is advanced past the element. -/
def asn1Next (ref : List Nat) : Option Asn1Elem :=
  match ref with
  | [] => none
  | _ =>
    match asn1Length (asn1Tag ref).2 with
    | none => none
    | some (len, r) =>
      if r.length < len then none else some ⟨(asn1Tag ref).1, r.take len, r.drop len⟩

/-- Modelled from the spec: the recursion of `asn1Validate` (asn1.c is not under src/).
The buffer is a sequence of complete elements, and the content of every
constructed element (bit 0x20 of its first tag byte) is such a sequence
again.  The first argument bounds the recursion; `asn1Validate` starts it
with the length of the buffer, which is never used up because every element
has at least two bytes. -/
def asn1ValidateAux : Nat → List Nat → Bool
  | 0, buf => buf.isEmpty
  | fuel + 1, buf =>
    match buf with
    | [] => true
    | b :: _ =>
      match asn1Next buf with
      | none => false
      | some e =>
        (if b / 32 % 2 = 1 then asn1ValidateAux fuel e.value else true)
          && asn1ValidateAux fuel e.rest

/-- Modelled from the spec: `asn1Validate` (asn1.c is not under src/), spec section 6
`validateStructure(buffer) -> success|failure`: confirms that the entire
buffer is well-formed tag/length/value encoding with no overruns.  The
result is 0 for a valid buffer, as `cvcDecode` tests `rc != 0`. -/
def asn1Validate (data : List Nat) : Nat :=
  if asn1ValidateAux data.length data then 0 else 1

/-- Modelled from the spec: `bsCompare` (not under src/), spec section 3: equality of
byte views is byte-wise content comparison.  The result is 0 exactly for
equal content; cvc.c only tests the result against 0. -/
def bsCompare (s1 s2 : bytestring_s) : Nat :=
  if s1.getD [] = s2.getD [] then 0 else 1

/-! ## cvcDecode (cvc.c lines 383-540) -/

/-- The local variables of `cvcDecode` that are live between its stages:
the record being filled, `certlen` after line 401, the cursor `(po, rlen)`
and the cursor `(children, childrenlen)`. -/
structure DecodeState where
  cvc : cvc
  certlen : Nat
  po : List Nat
  children : List Nat
deriving DecidableEq, Repr

/-- Lines 388-429 of `cvcDecode`: validation, the outer element, the unwrapping
of a request (tag 0x67) and the test for the outer tag 0x7F21; ends with
`po = children; rlen = childrenlen`. -/
def cvcDecodeOuter (cert : List Nat) : Option DecodeState :=
  if asn1Validate cert ≠ 0 then none
  else
    match asn1Next cert with
    | none => none
    | some e0 =>
      if e0.tag = 0x67 then
        match asn1Next e0.value with
        | none => none
        | some e1 =>
          match asn1Next e1.rest with
          | none => none
          | some e2 =>
            if e2.tag ≠ 0x42 then none
            else
              match asn1Next e2.rest with
              | none => none
              | some e3 =>
                if e3.tag ≠ 0x5F37 then none
                else if e3.rest ≠ [] then none
                else if e1.tag ≠ 0x7F21 then none
                else some
                  { cvc := { outer_car := some e2.value, outerSignature := some e3.value }
                    certlen := cert.length - e0.rest.length
                    po := e1.value
                    children := e1.value }
      else if e0.tag ≠ 0x7F21 then none
      else some
        { cvc := {}
          certlen := cert.length - e0.rest.length
          po := e0.value
          children := e0.value }

/-- Lines 431-444 of `cvcDecode`: inside 0x7F21 the certificate body 0x7F4E
and the signature 0x5F37, nothing behind them; ends with
`po = children; rlen = childrenlen`. -/
def cvcDecodeContainer (s : DecodeState) : Option DecodeState :=
  match asn1Next s.po with
  | none => none
  | some e1 =>
    if e1.tag ≠ 0x7F4E then none
    else
      match asn1Next e1.rest with
      | none => none
      | some e2 =>
        if e2.tag ≠ 0x5F37 then none
        else if e2.rest ≠ [] then none
        else some
          { s with
            cvc := { s.cvc with signature := some e2.value }
            po := e1.value
            children := e1.value }

/-- Lines 446-459 of `cvcDecode`: the profile identifier 0x5F29 with `*val == 0`,
the optional authority reference 0x42 and the public key container 0x7F49.

`*val` is the first byte at the content pointer: the first content byte, or,
for an empty content, the byte that follows the element.  When nothing
follows within `rlen`, the byte read is the first byte of the signature
element behind the body (0x5F, tested at line 435), so line 447 returns -1;
the embedding fails there at once.  The look-ahead of line 451 is not guarded
by `rlen`; at `rlen == 0` the reads of lines 452 and 457 fail for every
value it can give, and the embedding peeks into the empty cursor. -/
def cvcDecodeProfile (s : DecodeState) : Option DecodeState :=
  match asn1Next s.po with
  | none => none
  | some e =>
    if e.tag ≠ 0x5F29 then none
    else
      match e.value ++ e.rest with
      | [] => none
      | v :: _ =>
        if v ≠ 0 then none
        else
          let afterCar : Option (cvc × List Nat) :=
            if (asn1Tag e.rest).1 = 0x42 then
              match asn1Next e.rest with
              | none => none
              | some c => some ({ s.cvc with car := some c.value }, c.rest)
            else some (s.cvc, e.rest)
          match afterCar with
          | none => none
          | some (r, po) =>
            match asn1Next po with
            | none => none
            | some k =>
              if k.tag ≠ 0x7F49 then none
              else some { s with cvc := r, po := k.rest, children := k.value }

/-- The idiom of lines 465-484: `ppo = po; if ((rlen > 0) && (asn1Tag(&ppo) == T))`
followed by an `asn1Next` whose tag is not tested again.  Returns the
content read (or `none` inside when the element is not there) and the
cursor; the outer `none` is `return -1`. -/
def cvcOptional (T : Nat) (po : List Nat) : Option (bytestring_s × List Nat) :=
  if po ≠ [] ∧ (asn1Tag po).1 = T then
    match asn1Next po with
    | none => none
    | some e => some (some e.value, e.rest)
  else some (none, po)

/-- Lines 461-484 of `cvcDecode`: the holder reference 0x5F20 and the optional
elements 0x7F4C (chat), 0x5F25 (ced) and 0x5F24 (cxd), in this order.  A
field whose element is not there keeps its zeroed value. -/
def cvcDecodeHolder (s : DecodeState) : Option DecodeState :=
  match asn1Next s.po with
  | none => none
  | some h =>
    if h.tag ≠ 0x5F20 then none
    else
      match cvcOptional 0x7F4C h.rest with
      | none => none
      | some (chat, po1) =>
        match cvcOptional 0x5F25 po1 with
        | none => none
        | some (ced, po2) =>
          match cvcOptional 0x5F24 po2 with
          | none => none
          | some (cxd, po3) =>
            some
              { s with
                cvc :=
                  { s.cvc with
                    chr := some h.value
                    chat := if chat.isSome then chat else s.cvc.chat
                    ced := if ced.isSome then ced else s.cvc.ced
                    cxd := if cxd.isSome then cxd else s.cvc.cxd }
                po := po3 }

/-- Lines 486-496 of `cvcDecode`: if bytes remain, the extensions 0x65 and
nothing behind them; ends with `po = children; rlen = childrenlen`, the
cursor into the public key container. -/
def cvcDecodeExtensions (s : DecodeState) : Option DecodeState :=
  if s.po ≠ [] then
    match asn1Next s.po with
    | none => none
    | some x =>
      if x.tag ≠ 0x65 then none
      else if x.rest ≠ [] then none
      else some { s with cvc := { s.cvc with extensions := some x.value }, po := s.children }
  else some { s with po := s.children }

/-- The idiom `!asn1Next(&po, &rlen, &tag, &len, &val) || (tag != T)` of
lines 498-535. -/
def asn1NextTag (T : Nat) (po : List Nat) : Option Asn1Elem :=
  match asn1Next po with
  | none => none
  | some e => if e.tag ≠ T then none else some e

/-- Lines 498-537 of `cvcDecode`: the public key.  The algorithm identifier
0x06, then either the public point 0x86 alone, or 0x81 and 0x82 followed,
if bytes remain, by 0x83, 0x84, 0x85, 0x86 and 0x87.  The cursor is not
tested after the last element. -/
def cvcDecodePublicKey (s : DecodeState) : Option DecodeState :=
  match asn1NextTag 0x06 s.po with
  | none => none
  | some o =>
    if o.rest ≠ [] ∧ (asn1Tag o.rest).1 = 0x86 then
      match asn1NextTag 0x86 o.rest with
      | none => none
      | some p =>
        some
          { s with
            cvc := { s.cvc with pukoid := some o.value, publicPoint := some p.value }
            po := p.rest }
    else
      match asn1NextTag 0x81 o.rest with
      | none => none
      | some e81 =>
        match asn1NextTag 0x82 e81.rest with
        | none => none
        | some e82 =>
          if e82.rest ≠ [] then
            match asn1NextTag 0x83 e82.rest with
            | none => none
            | some e83 =>
              match asn1NextTag 0x84 e83.rest with
              | none => none
              | some e84 =>
                match asn1NextTag 0x85 e84.rest with
                | none => none
                | some e85 =>
                  match asn1NextTag 0x86 e85.rest with
                  | none => none
                  | some e86 =>
                    match asn1NextTag 0x87 e86.rest with
                    | none => none
                    | some e87 =>
                      some
                        { s with
                          cvc :=
                            { s.cvc with
                              pukoid := some o.value
                              primeOrModulus := some e81.value
                              coefficientAorExponent := some e82.value
                              coefficientB := some e83.value
                              basePointG := some e84.value
                              order := some e85.value
                              publicPoint := some e86.value
                              cofactor := some e87.value }
                          po := e87.rest }
          else
            some
              { s with
                cvc :=
                  { s.cvc with
                    pukoid := some o.value
                    primeOrModulus := some e81.value
                    coefficientAorExponent := some e82.value }
                po := e82.rest }

/-- The stages of `cvcDecode` up to line 459: the state in which the cursor
`po` stands behind the public key container 0x7F49 and `children` is the
content of that container. -/
def cvcDecodeToKey (cert : List Nat) : Option DecodeState :=
  ((cvcDecodeOuter cert).bind cvcDecodeContainer).bind cvcDecodeProfile

/-- The stages of `cvcDecode` up to line 484: the holder reference and the
optional elements 0x7F4C, 0x5F25, 0x5F24 are read and `po` stands where the
extensions 0x65 may follow. -/
def cvcDecodeToExtensions (cert : List Nat) : Option DecodeState :=
  (cvcDecodeToKey cert).bind cvcDecodeHolder

/-- The stages of `cvcDecode` up to line 496: all of the certificate body is
read and `po` is the cursor into the public key container. -/
def cvcDecodeToPublicKey (cert : List Nat) : Option DecodeState :=
  (cvcDecodeToExtensions cert).bind cvcDecodeExtensions

/-- The function `cvcDecode` (cvc.c lines 383-540).  `some (n, r)` is the
return of `certlen = n` at line 539 with the record `r` filled; `none` is
`return -1`. -/
def cvcDecode (cert : List Nat) : Option (Nat × cvc) :=
  ((cvcDecodeToPublicKey cert).bind cvcDecodePublicKey).map fun s => (s.certlen, s.cvc)

/-- The cast `(int)` of a length to a 32-bit `int`. -/
def toInt32 (n : Nat) : Int :=
  if n % 2 ^ 32 < 2 ^ 31 then (n % 2 ^ 32 : Nat) else (n % 2 ^ 32 : Nat) - 2 ^ 32

/-- The `int` that `cvcDecode` returns: -1, or `(int)certlen` at line 539. -/
def cvcDecodeReturn (cert : List Nat) : Int :=
  match cvcDecode cert with
  | none => -1
  | some (n, _) => toInt32 n

/-! ## The encoding of elements, used to write down certificates -/

/-- The tags that `asn1Tag` reads back: one byte whose low five bits are not
all set, or two bytes, the first with its low five bits all set and the
second below 0x80.  Every tag constant of cvc.c is of this kind. -/
def validTag (t : Nat) : Prop :=
  (t < 256 ∧ t % 32 ≠ 31) ∨ (256 ≤ t ∧ t < 65536 ∧ t / 256 % 32 = 31 ∧ t % 256 < 128)

instance (t : Nat) : Decidable (validTag t) := by
  unfold validTag
  infer_instance

/-- The bytes of a tag of one or two bytes. -/
def encodeTag (t : Nat) : List Nat := if t < 256 then [t] else [t / 256, t % 256]

/-- The shortest length field for a content of `n` bytes, `n < 2^32`. -/
def encodeLength (n : Nat) : List Nat :=
  if n < 128 then [n]
  else if n < 256 then [0x81, n]
  else if n < 65536 then [0x82, n / 256, n % 256]
  else if n < 16777216 then [0x83, n / 65536, n / 256 % 256, n % 256]
  else [0x84, n / 16777216 % 256, n / 65536 % 256, n / 256 % 256, n % 256]

/-- The element `t{ c }`: tag bytes, length bytes, content bytes. -/
def tlv (t : Nat) (c : List Nat) : List Nat := encodeTag t ++ encodeLength c.length ++ c

/-- The bare certificate
`7F21{ 7F4E{ 5F29{00}, 7F49{ 06 o, 86 p }, 5F20 h }, 5F37 s }`. -/
def bareCertificate (o p h s : List Nat) : List Nat :=
  tlv 0x7F21
    (tlv 0x7F4E (tlv 0x5F29 [0] ++ (tlv 0x7F49 (tlv 0x06 o ++ tlv 0x86 p) ++ tlv 0x5F20 h))
      ++ tlv 0x5F37 s)

/-- The request `67{ B, 42 c, 5F37 s }` around a certificate `B`. -/
def requestOf (B c s : List Nat) : List Nat :=
  tlv 0x67 (B ++ (tlv 0x42 c ++ tlv 0x5F37 s))

/-- The holder reference "HOLDER01" in ASCII. -/
def holder01 : List Nat := [0x48, 0x4F, 0x4C, 0x44, 0x45, 0x52, 0x30, 0x31]

/-! ## The curve table and its lookups (cvc.c lines 43-164) -/

/-- Table entry for secp192r1 (cvc.c, static array curves). -/
def secp192r1 : ec_curve where
  oid := some
      [0x2A, 0x86, 0x48, 0xCE, 0x3D, 0x03, 0x01, 0x01]
  prime := some
      [0xFF, 0xFF, 0xFF, 0xFF, 0xFF, 0xFF, 0xFF, 0xFF, 0xFF, 0xFF, 0xFF, 0xFF, 0xFF, 0xFF, 0xFF, 0xFE,
       0xFF, 0xFF, 0xFF, 0xFF, 0xFF, 0xFF, 0xFF, 0xFF]
  coefficientA := some
      [0xFF, 0xFF, 0xFF, 0xFF, 0xFF, 0xFF, 0xFF, 0xFF, 0xFF, 0xFF, 0xFF, 0xFF, 0xFF, 0xFF, 0xFF, 0xFE,
       0xFF, 0xFF, 0xFF, 0xFF, 0xFF, 0xFF, 0xFF, 0xFC]
  coefficientB := some
      [0x64, 0x21, 0x05, 0x19, 0xE5, 0x9C, 0x80, 0xE7, 0x0F, 0xA7, 0xE9, 0xAB, 0x72, 0x24, 0x30, 0x49,
       0xFE, 0xB8, 0xDE, 0xEC, 0xC1, 0x46, 0xB9, 0xB1]
  basePointG := some
      [0x04, 0x18, 0x8D, 0xA8, 0x0E, 0xB0, 0x30, 0x90, 0xF6, 0x7C, 0xBF, 0x20, 0xEB, 0x43, 0xA1, 0x88,
       0x00, 0xF4, 0xFF, 0x0A, 0xFD, 0x82, 0xFF, 0x10, 0x12, 0x07, 0x19, 0x2B, 0x95, 0xFF, 0xC8, 0xDA,
       0x78, 0x63, 0x10, 0x11, 0xED, 0x6B, 0x24, 0xCD, 0xD5, 0x73, 0xF9, 0x77, 0xA1, 0x1E, 0x79, 0x48,
       0x11]
  order := some
      [0xFF, 0xFF, 0xFF, 0xFF, 0xFF, 0xFF, 0xFF, 0xFF, 0xFF, 0xFF, 0xFF, 0xFF, 0x99, 0xDE, 0xF8, 0x36,
       0x14, 0x6B, 0xC9, 0xB1, 0xB4, 0xD2, 0x28, 0x31]
  coFactor := some
      [0x01]

/-- Table entry for secp256r1 (cvc.c, static array curves). -/
def secp256r1 : ec_curve where
  oid := some
      [0x2A, 0x86, 0x48, 0xCE, 0x3D, 0x03, 0x01, 0x07]
  prime := some
      [0xFF, 0xFF, 0xFF, 0xFF, 0x00, 0x00, 0x00, 0x01, 0x00, 0x00, 0x00, 0x00, 0x00, 0x00, 0x00, 0x00,
       0x00, 0x00, 0x00, 0x00, 0xFF, 0xFF, 0xFF, 0xFF, 0xFF, 0xFF, 0xFF, 0xFF, 0xFF, 0xFF, 0xFF, 0xFF]
  coefficientA := some
      [0xFF, 0xFF, 0xFF, 0xFF, 0x00, 0x00, 0x00, 0x01, 0x00, 0x00, 0x00, 0x00, 0x00, 0x00, 0x00, 0x00,
       0x00, 0x00, 0x00, 0x00, 0xFF, 0xFF, 0xFF, 0xFF, 0xFF, 0xFF, 0xFF, 0xFF, 0xFF, 0xFF, 0xFF, 0xFC]
  coefficientB := some
      [0x5A, 0xC6, 0x35, 0xD8, 0xAA, 0x3A, 0x93, 0xE7, 0xB3, 0xEB, 0xBD, 0x55, 0x76, 0x98, 0x86, 0xBC,
       0x65, 0x1D, 0x06, 0xB0, 0xCC, 0x53, 0xB0, 0xF6, 0x3B, 0xCE, 0x3C, 0x3E, 0x27, 0xD2, 0x60, 0x4B]
  basePointG := some
      [0x04, 0x6B, 0x17, 0xD1, 0xF2, 0xE1, 0x2C, 0x42, 0x47, 0xF8, 0xBC, 0xE6, 0xE5, 0x63, 0xA4, 0x40,
       0xF2, 0x77, 0x03, 0x7D, 0x81, 0x2D, 0xEB, 0x33, 0xA0, 0xF4, 0xA1, 0x39, 0x45, 0xD8, 0x98, 0xC2,
       0x96, 0x4F, 0xE3, 0x42, 0xE2, 0xFE, 0x1A, 0x7F, 0x9B, 0x8E, 0xE7, 0xEB, 0x4A, 0x7C, 0x0F, 0x9E,
       0x16, 0x2B, 0xCE, 0x33, 0x57, 0x6B, 0x31, 0x5E, 0xCE, 0xCB, 0xB6, 0x40, 0x68, 0x37, 0xBF, 0x51,
       0xF5]
  order := some
      [0xFF, 0xFF, 0xFF, 0xFF, 0x00, 0x00, 0x00, 0x00, 0xFF, 0xFF, 0xFF, 0xFF, 0xFF, 0xFF, 0xFF, 0xFF,
       0xBC, 0xE6, 0xFA, 0xAD, 0xA7, 0x17, 0x9E, 0x84, 0xF3, 0xB9, 0xCA, 0xC2, 0xFC, 0x63, 0x25, 0x51]
  coFactor := some
      [0x01]

/-- Table entry for brainpoolP192r1 (cvc.c, static array curves). -/
def brainpoolP192r1 : ec_curve where
  oid := some
      [0x2B, 0x24, 0x03, 0x03, 0x02, 0x08, 0x01, 0x01, 0x03]
  prime := some
      [0xC3, 0x02, 0xF4, 0x1D, 0x93, 0x2A, 0x36, 0xCD, 0xA7, 0xA3, 0x46, 0x30, 0x93, 0xD1, 0x8D, 0xB7,
       0x8F, 0xCE, 0x47, 0x6D, 0xE1, 0xA8, 0x62, 0x97]
  coefficientA := some
      [0x6A, 0x91, 0x17, 0x40, 0x76, 0xB1, 0xE0, 0xE1, 0x9C, 0x39, 0xC0, 0x31, 0xFE, 0x86, 0x85, 0xC1,
       0xCA, 0xE0, 0x40, 0xE5, 0xC6, 0x9A, 0x28, 0xEF]
  coefficientB := some
      [0x46, 0x9A, 0x28, 0xEF, 0x7C, 0x28, 0xCC, 0xA3, 0xDC, 0x72, 0x1D, 0x04, 0x4F, 0x44, 0x96, 0xBC,
       0xCA, 0x7E, 0xF4, 0x14, 0x6F, 0xBF, 0x25, 0xC9]
  basePointG := some
      [0x04, 0xC0, 0xA0, 0x64, 0x7E, 0xAA, 0xB6, 0xA4, 0x87, 0x53, 0xB0, 0x33, 0xC5, 0x6C, 0xB0, 0xF0,
       0x90, 0x0A, 0x2F, 0x5C, 0x48, 0x53, 0x37, 0x5F, 0xD6, 0x14, 0xB6, 0x90, 0x86, 0x6A, 0xBD, 0x5B,
       0xB8, 0x8B, 0x5F, 0x48, 0x28, 0xC1, 0x49, 0x00, 0x02, 0xE6, 0x77, 0x3F, 0xA2, 0xFA, 0x29, 0x9B,
       0x8F]
  order := some
      [0xC3, 0x02, 0xF4, 0x1D, 0x93, 0x2A, 0x36, 0xCD, 0xA7, 0xA3, 0x46, 0x2F, 0x9E, 0x9E, 0x91, 0x6B,
       0x5B, 0xE8, 0xF1, 0x02, 0x9A, 0xC4, 0xAC, 0xC1]
  coFactor := some
      [0x01]

/-- Table entry for brainpoolP224r1 (cvc.c, static array curves). -/
def brainpoolP224r1 : ec_curve where
  oid := some
      [0x2B, 0x24, 0x03, 0x03, 0x02, 0x08, 0x01, 0x01, 0x05]
  prime := some
      [0xD7, 0xC1, 0x34, 0xAA, 0x26, 0x43, 0x66, 0x86, 0x2A, 0x18, 0x30, 0x25, 0x75, 0xD1, 0xD7, 0x87,
       0xB0, 0x9F, 0x07, 0x57, 0x97, 0xDA, 0x89, 0xF5, 0x7E, 0xC8, 0xC0, 0xFF]
  coefficientA := some
      [0x68, 0xA5, 0xE6, 0x2C, 0xA9, 0xCE, 0x6C, 0x1C, 0x29, 0x98, 0x03, 0xA6, 0xC1, 0x53, 0x0B, 0x51,
       0x4E, 0x18, 0x2A, 0xD8, 0xB0, 0x04, 0x2A, 0x59, 0xCA, 0xD2, 0x9F, 0x43]
  coefficientB := some
      [0x25, 0x80, 0xF6, 0x3C, 0xCF, 0xE4, 0x41, 0x38, 0x87, 0x07, 0x13, 0xB1, 0xA9, 0x23, 0x69, 0xE3,
       0x3E, 0x21, 0x35, 0xD2, 0x66, 0xDB, 0xB3, 0x72, 0x38, 0x6C, 0x40, 0x0B]
  basePointG := some
      [0x04, 0x0D, 0x90, 0x29, 0xAD, 0x2C, 0x7E, 0x5C, 0xF4, 0x34, 0x08, 0x23, 0xB2, 0xA8, 0x7D, 0xC6,
       0x8C, 0x9E, 0x4C, 0xE3, 0x17, 0x4C, 0x1E, 0x6E, 0xFD, 0xEE, 0x12, 0xC0, 0x7D, 0x58, 0xAA, 0x56,
       0xF7, 0x72, 0xC0, 0x72, 0x6F, 0x24, 0xC6, 0xB8, 0x9E, 0x4E, 0xCD, 0xAC, 0x24, 0x35, 0x4B, 0x9E,
       0x99, 0xCA, 0xA3, 0xF6, 0xD3, 0x76, 0x14, 0x02, 0xCD]
  order := some
      [0xD7, 0xC1, 0x34, 0xAA, 0x26, 0x43, 0x66, 0x86, 0x2A, 0x18, 0x30, 0x25, 0x75, 0xD0, 0xFB, 0x98,
       0xD1, 0x16, 0xBC, 0x4B, 0x6D, 0xDE, 0xBC, 0xA3, 0xA5, 0xA7, 0x93, 0x9F]
  coFactor := some
      [0x01]

/-- Table entry for brainpoolP256r1 (cvc.c, static array curves). -/
def brainpoolP256r1 : ec_curve where
  oid := some
      [0x2B, 0x24, 0x03, 0x03, 0x02, 0x08, 0x01, 0x01, 0x07]
  prime := some
      [0xA9, 0xFB, 0x57, 0xDB, 0xA1, 0xEE, 0xA9, 0xBC, 0x3E, 0x66, 0x0A, 0x90, 0x9D, 0x83, 0x8D, 0x72,
       0x6E, 0x3B, 0xF6, 0x23, 0xD5, 0x26, 0x20, 0x28, 0x20, 0x13, 0x48, 0x1D, 0x1F, 0x6E, 0x53, 0x77]
  coefficientA := some
      [0x7D, 0x5A, 0x09, 0x75, 0xFC, 0x2C, 0x30, 0x57, 0xEE, 0xF6, 0x75, 0x30, 0x41, 0x7A, 0xFF, 0xE7,
       0xFB, 0x80, 0x55, 0xC1, 0x26, 0xDC, 0x5C, 0x6C, 0xE9, 0x4A, 0x4B, 0x44, 0xF3, 0x30, 0xB5, 0xD9]
  coefficientB := some
      [0x26, 0xDC, 0x5C, 0x6C, 0xE9, 0x4A, 0x4B, 0x44, 0xF3, 0x30, 0xB5, 0xD9, 0xBB, 0xD7, 0x7C, 0xBF,
       0x95, 0x84, 0x16, 0x29, 0x5C, 0xF7, 0xE1, 0xCE, 0x6B, 0xCC, 0xDC, 0x18, 0xFF, 0x8C, 0x07, 0xB6]
  basePointG := some
      [0x04, 0x8B, 0xD2, 0xAE, 0xB9, 0xCB, 0x7E, 0x57, 0xCB, 0x2C, 0x4B, 0x48, 0x2F, 0xFC, 0x81, 0xB7,
       0xAF, 0xB9, 0xDE, 0x27, 0xE1, 0xE3, 0xBD, 0x23, 0xC2, 0x3A, 0x44, 0x53, 0xBD, 0x9A, 0xCE, 0x32,
       0x62, 0x54, 0x7E, 0xF8, 0x35, 0xC3, 0xDA, 0xC4, 0xFD, 0x97, 0xF8, 0x46, 0x1A, 0x14, 0x61, 0x1D,
       0xC9, 0xC2, 0x77, 0x45, 0x13, 0x2D, 0xED, 0x8E, 0x54, 0x5C, 0x1D, 0x54, 0xC7, 0x2F, 0x04, 0x69,
       0x97]
  order := some
      [0xA9, 0xFB, 0x57, 0xDB, 0xA1, 0xEE, 0xA9, 0xBC, 0x3E, 0x66, 0x0A, 0x90, 0x9D, 0x83, 0x8D, 0x71,
       0x8C, 0x39, 0x7A, 0xA3, 0xB5, 0x61, 0xA6, 0xF7, 0x90, 0x1E, 0x0E, 0x82, 0x97, 0x48, 0x56, 0xA7]
  coFactor := some
      [0x01]

/-- Table entry for brainpoolP320r1 (cvc.c, static array curves). -/
def brainpoolP320r1 : ec_curve where
  oid := some
      [0x2B, 0x24, 0x03, 0x03, 0x02, 0x08, 0x01, 0x01, 0x09]
  prime := some
      [0xD3, 0x5E, 0x47, 0x20, 0x36, 0xBC, 0x4F, 0xB7, 0xE1, 0x3C, 0x78, 0x5E, 0xD2, 0x01, 0xE0, 0x65,
       0xF9, 0x8F, 0xCF, 0xA6, 0xF6, 0xF4, 0x0D, 0xEF, 0x4F, 0x92, 0xB9, 0xEC, 0x78, 0x93, 0xEC, 0x28,
       0xFC, 0xD4, 0x12, 0xB1, 0xF1, 0xB3, 0x2E, 0x27]
  coefficientA := some
      [0x3E, 0xE3, 0x0B, 0x56, 0x8F, 0xBA, 0xB0, 0xF8, 0x83, 0xCC, 0xEB, 0xD4, 0x6D, 0x3F, 0x3B, 0xB8,
       0xA2, 0xA7, 0x35, 0x13, 0xF5, 0xEB, 0x79, 0xDA, 0x66, 0x19, 0x0E, 0xB0, 0x85, 0xFF, 0xA9, 0xF4,
       0x92, 0xF3, 0x75, 0xA9, 0x7D, 0x86, 0x0E, 0xB4]
  coefficientB := some
      [0x52, 0x08, 0x83, 0x94, 0x9D, 0xFD, 0xBC, 0x42, 0xD3, 0xAD, 0x19, 0x86, 0x40, 0x68, 0x8A, 0x6F,
       0xE1, 0x3F, 0x41, 0x34, 0x95, 0x54, 0xB4, 0x9A, 0xCC, 0x31, 0xDC, 0xCD, 0x88, 0x45, 0x39, 0x81,
       0x6F, 0x5E, 0xB4, 0xAC, 0x8F, 0xB1, 0xF1, 0xA6]
  basePointG := some
      [0x04, 0x43, 0xBD, 0x7E, 0x9A, 0xFB, 0x53, 0xD8, 0xB8, 0x52, 0x89, 0xBC, 0xC4, 0x8E, 0xE5, 0xBF,
       0xE6, 0xF2, 0x01, 0x37, 0xD1, 0x0A, 0x08, 0x7E, 0xB6, 0xE7, 0x87, 0x1E, 0x2A, 0x10, 0xA5, 0x99,
       0xC7, 0x10, 0xAF, 0x8D, 0x0D, 0x39, 0xE2, 0x06, 0x11, 0x14, 0xFD, 0xD0, 0x55, 0x45, 0xEC, 0x1C,
       0xC8, 0xAB, 0x40, 0x93, 0x24, 0x7F, 0x77, 0x27, 0x5E, 0x07, 0x43, 0xFF, 0xED, 0x11, 0x71, 0x82,
       0xEA, 0xA9, 0xC7, 0x78, 0x77, 0xAA, 0xAC, 0x6A, 0xC7, 0xD3, 0x52, 0x45, 0xD1, 0x69, 0x2E, 0x8E,
       0xE1]
  order := some
      [0xD3, 0x5E, 0x47, 0x20, 0x36, 0xBC, 0x4F, 0xB7, 0xE1, 0x3C, 0x78, 0x5E, 0xD2, 0x01, 0xE0, 0x65,
       0xF9, 0x8F, 0xCF, 0xA5, 0xB6, 0x8F, 0x12, 0xA3, 0x2D, 0x48, 0x2E, 0xC7, 0xEE, 0x86, 0x58, 0xE9,
       0x86, 0x91, 0x55, 0x5B, 0x44, 0xC5, 0x93, 0x11]
  coFactor := some
      [0x01]

/-- Table entry for secp192k1 (cvc.c, static array curves). -/
def secp192k1 : ec_curve where
  oid := some
      [0x2B, 0x81, 0x04, 0x00, 0x1F]
  prime := some
      [0xFF, 0xFF, 0xFF, 0xFF, 0xFF, 0xFF, 0xFF, 0xFF, 0xFF, 0xFF, 0xFF, 0xFF, 0xFF, 0xFF, 0xFF, 0xFF,
       0xFF, 0xFF, 0xFF, 0xFE, 0xFF, 0xFF, 0xEE, 0x37]
  coefficientA := some
      [0x00, 0x00, 0x00, 0x00, 0x00, 0x00, 0x00, 0x00, 0x00, 0x00, 0x00, 0x00, 0x00, 0x00, 0x00, 0x00,
       0x00, 0x00, 0x00, 0x00, 0x00, 0x00, 0x00, 0x00]
  coefficientB := some
      [0x00, 0x00, 0x00, 0x00, 0x00, 0x00, 0x00, 0x00, 0x00, 0x00, 0x00, 0x00, 0x00, 0x00, 0x00, 0x00,
       0x00, 0x00, 0x00, 0x00, 0x00, 0x00, 0x00, 0x03]
  basePointG := some
      [0x04, 0xDB, 0x4F, 0xF1, 0x0E, 0xC0, 0x57, 0xE9, 0xAE, 0x26, 0xB0, 0x7D, 0x02, 0x80, 0xB7, 0xF4,
       0x34, 0x1D, 0xA5, 0xD1, 0xB1, 0xEA, 0xE0, 0x6C, 0x7D, 0x9B, 0x2F, 0x2F, 0x6D, 0x9C, 0x56, 0x28,
       0xA7, 0x84, 0x41, 0x63, 0xD0, 0x15, 0xBE, 0x86, 0x34, 0x40, 0x82, 0xAA, 0x88, 0xD9, 0x5E, 0x2F,
       0x9D]
  order := some
      [0xFF, 0xFF, 0xFF, 0xFF, 0xFF, 0xFF, 0xFF, 0xFF, 0xFF, 0xFF, 0xFF, 0xFE, 0x26, 0xF2, 0xFC, 0x17,
       0x0F, 0x69, 0x46, 0x6A, 0x74, 0xDE, 0xFD, 0x8D]
  coFactor := some
      [0x01]

/-- Table entry for secp256k1 (cvc.c, static array curves). -/
def secp256k1 : ec_curve where
  oid := some
      [0x2B, 0x81, 0x04, 0x00, 0x0A]
  prime := some
      [0xFF, 0xFF, 0xFF, 0xFF, 0xFF, 0xFF, 0xFF, 0xFF, 0xFF, 0xFF, 0xFF, 0xFF, 0xFF, 0xFF, 0xFF, 0xFF,
       0xFF, 0xFF, 0xFF, 0xFF, 0xFF, 0xFF, 0xFF, 0xFF, 0xFF, 0xFF, 0xFF, 0xFE, 0xFF, 0xFF, 0xFC, 0x2F]
  coefficientA := some
      [0x00, 0x00, 0x00, 0x00, 0x00, 0x00, 0x00, 0x00, 0x00, 0x00, 0x00, 0x00, 0x00, 0x00, 0x00, 0x00,
       0x00, 0x00, 0x00, 0x00, 0x00, 0x00, 0x00, 0x00, 0x00, 0x00, 0x00, 0x00, 0x00, 0x00, 0x00, 0x00]
  coefficientB := some
      [0x00, 0x00, 0x00, 0x00, 0x00, 0x00, 0x00, 0x00, 0x00, 0x00, 0x00, 0x00, 0x00, 0x00, 0x00, 0x00,
       0x00, 0x00, 0x00, 0x00, 0x00, 0x00, 0x00, 0x00, 0x00, 0x00, 0x00, 0x00, 0x00, 0x00, 0x00, 0x07]
  basePointG := some
      [0x04, 0x79, 0xBE, 0x66, 0x7E, 0xF9, 0xDC, 0xBB, 0xAC, 0x55, 0xA0, 0x62, 0x95, 0xCE, 0x87, 0x0B,
       0x07, 0x02, 0x9B, 0xFC, 0xDB, 0x2D, 0xCE, 0x28, 0xD9, 0x59, 0xF2, 0x81, 0x5B, 0x16, 0xF8, 0x17,
       0x98, 0x48, 0x3A, 0xDA, 0x77, 0x26, 0xA3, 0xC4, 0x65, 0x5D, 0xA4, 0xFB, 0xFC, 0x0E, 0x11, 0x08,
       0xA8, 0xFD, 0x17, 0xB4, 0x48, 0xA6, 0x85, 0x54, 0x19, 0x9C, 0x47, 0xD0, 0x8F, 0xFB, 0x10, 0xD4,
       0xB8]
  order := some
      [0xFF, 0xFF, 0xFF, 0xFF, 0xFF, 0xFF, 0xFF, 0xFF, 0xFF, 0xFF, 0xFF, 0xFF, 0xFF, 0xFF, 0xFF, 0xFE,
       0xBA, 0xAE, 0xDC, 0xE6, 0xAF, 0x48, 0xA0, 0x3B, 0xBF, 0xD2, 0x5E, 0x8C, 0xD0, 0x36, 0x41, 0x41]
  coFactor := some
      [0x01]

/-- The eight curves of the static array `curves` (cvc.c lines 44-115), in the
order of the source. -/
def knownCurves : List ec_curve :=
  [secp192r1, secp256r1, brainpoolP192r1, brainpoolP224r1, brainpoolP256r1, brainpoolP320r1,
    secp192k1, secp256k1]

/-- The static array `curves` (cvc.c lines 43-125): the eight curves and the
terminating entry whose views are all `{ NULL, 0 }`. -/
def curves : List ec_curve := knownCurves ++ [({ } : ec_curve)]

/-- The loop of `cvcGetCurveForOID` (cvc.c lines 133-141), started at the
entries `cs`: advance while the entry is not the terminator and `bsCompare`
reports a difference; the terminator gives NULL (`none`). -/
def cvcGetCurveForOIDFrom (oid : bytestring_s) : List ec_curve → Option ec_curve
  | [] => none
  | c :: cs =>
    if c.oid ≠ none ∧ bsCompare c.oid oid ≠ 0 then cvcGetCurveForOIDFrom oid cs
    else if c.oid = none then none
    else some c

/-- The function `cvcGetCurveForOID` (cvc.c lines 129-142). -/
def cvcGetCurveForOID (oid : bytestring_s) : Option ec_curve :=
  cvcGetCurveForOIDFrom oid curves

/-- The loop of `cvcDetermineCurveOID` (cvc.c lines 153-162), started at the
entries `cs`; the result is the view stored through `oid`. -/
def cvcDetermineCurveOIDFrom (primeOrModulus : bytestring_s) :
    List ec_curve → Option bytestring_s
  | [] => none
  | c :: cs =>
    if c.oid ≠ none ∧ bsCompare c.prime primeOrModulus ≠ 0 then
      cvcDetermineCurveOIDFrom primeOrModulus cs
    else if c.oid = none then none
    else some c.oid

/-- The function `cvcDetermineCurveOID` (cvc.c lines 146-164): `none` is
`return -1`, `some o` is `return 0` with `*oid` set to the view `o`. -/
def cvcDetermineCurveOID (r : cvc) : Option bytestring_s :=
  if r.primeOrModulus = none then none
  else cvcDetermineCurveOIDFrom r.primeOrModulus curves

/-- The state `s` with the outer fields of the record and `certlen` replaced:
what a run on a request differs by from the run on the certificate inside. -/
def withOuter (a b : bytestring_s) (n : Nat) (s : DecodeState) : DecodeState :=
  { s with cvc := { s.cvc with outer_car := a, outerSignature := b }, certlen := n }

/-- The identifiers of the eight curves of the table, as byte strings. -/
def knownOids : List (List Nat) := knownCurves.map fun c => c.oid.getD []

/-! ## The two shapes of a public key -/

/-- The record holds an EC key by reference: the public point is present and
the six domain parameters are absent. -/
def keyByReference (r : cvc) : Prop :=
  r.publicPoint ≠ none ∧ r.primeOrModulus = none ∧ r.coefficientAorExponent = none ∧
    r.coefficientB = none ∧ r.basePointG = none ∧ r.order = none ∧ r.cofactor = none

/-- The record holds an explicit key: `primeOrModulus` and
`coefficientAorExponent` are present, and `coefficientB`, `basePointG`,
`order`, `publicPoint`, `cofactor` are all present or all absent. -/
def keyExplicit (r : cvc) : Prop :=
  r.primeOrModulus ≠ none ∧ r.coefficientAorExponent ≠ none ∧
    ((r.coefficientB ≠ none ∧ r.basePointG ≠ none ∧ r.order ≠ none ∧ r.publicPoint ≠ none ∧
        r.cofactor ≠ none) ∨
      (r.coefficientB = none ∧ r.basePointG = none ∧ r.order = none ∧ r.publicPoint = none ∧
        r.cofactor = none))

/-- The eight public key fields of a record. -/
def keyFields (r : cvc) : List bytestring_s :=
  [r.pukoid, r.primeOrModulus, r.coefficientAorExponent, r.coefficientB, r.basePointG, r.order,
    r.publicPoint, r.cofactor]

/-! ## Sample inputs -/

/-- An algorithm identifier of ten bytes. -/
def sampleOid : List Nat := [0x04, 0x00, 0x7F, 0x00, 0x07, 0x02, 0x02, 0x02, 0x02, 0x03]

/-- A public point of five bytes. -/
def samplePoint : List Nat := [0x04, 0x11, 0x22, 0x33, 0x44]

/-- A signature of four bytes. -/
def sampleSignature : List Nat := [0xAA, 0xBB, 0xCC, 0xDD]

/-- The certificate `7F21{ 7F4E{ 5F29{00}, 7F49{ key }, tail }, 5F37 sig }` with a free
content `key` of the public key container and free elements `tail` behind it. -/
def certificateWith (key tail sig : List Nat) : List Nat :=
  tlv 0x7F21 (tlv 0x7F4E (tlv 0x5F29 [0] ++ (tlv 0x7F49 key ++ tail)) ++ tlv 0x5F37 sig)

/-- A bare certificate of 50 bytes with the holder reference "HOLDER01". -/
def sampleCertificate : List Nat :=
  bareCertificate sampleOid samplePoint holder01 sampleSignature

/-- The record that `cvcDecode` fills from `sampleCertificate`. -/
def sampleRecord : cvc :=
  { chr := some holder01, pukoid := some sampleOid, publicPoint := some samplePoint,
    signature := some sampleSignature }

/-- A certificate whose public key container holds 06, 81 (a modulus of two bytes)
and 82 (an exponent of three bytes), followed in the container by `more`. -/
def sampleExplicitCertificate (more : List Nat) : List Nat :=
  certificateWith
    (tlv 0x06 sampleOid ++ (tlv 0x81 [0xC3, 0x5D] ++ (tlv 0x82 [0x01, 0x00, 0x01] ++ more)))
    (tlv 0x5F20 holder01) sampleSignature

/-- The record that `cvcDecode` fills from `sampleExplicitCertificate []`. -/
def sampleExplicitRecord : cvc :=
  { chr := some holder01, pukoid := some sampleOid, primeOrModulus := some [0xC3, 0x5D],
    coefficientAorExponent := some [0x01, 0x00, 0x01], signature := some sampleSignature }

/-- The state of `cvcDecode` on `sampleExplicitCertificate more` behind the public key
container (line 459). -/
def sampleExplicitState (more : List Nat) : DecodeState :=
  { cvc := { signature := some sampleSignature }
    certlen := (sampleExplicitCertificate more).length
    po := tlv 0x5F20 holder01
    children :=
      tlv 0x06 sampleOid ++ (tlv 0x81 [0xC3, 0x5D] ++ (tlv 0x82 [0x01, 0x00, 0x01] ++ more)) }

/-! ## cvcDetermineCurveFromECParam (cvc.c lines 168-379) -/

/-- Modelled from the spec: the macro `ASN1_INTEGER` of asn1.h (not under src/); spec
section 4.2 names the type INTEGER, whose universal tag is 0x02. -/
def ASN1_INTEGER : Nat := 0x02

/-- Modelled from the spec: the macro `ASN1_OCTET_STRING` of asn1.h (not under src/);
spec section 4.2 names the type OCTET STRING, whose universal tag is 0x04. -/
def ASN1_OCTET_STRING : Nat := 0x04

/-- Modelled from the spec: the macro `ASN1_OBJECT_IDENTIFIER` of asn1.h (not under
src/); spec section 4.2 names the type OBJECT IDENTIFIER, whose universal tag
is 0x06. -/
def ASN1_OBJECT_IDENTIFIER : Nat := 0x06

/-- Modelled from the spec: the macro `ASN1_SEQUENCE` of asn1.h (not under src/); spec
section 4.2 names the type SEQUENCE, whose tag is 0x30. -/
def ASN1_SEQUENCE : Nat := 0x30

/-- What `cvcDetermineCurveFromECParam` leaves behind.  `failure` is `return -1`;
`curve c` is `return 0` with `*curve = c`; `undetermined` is `return 0` with a
length field that is no length of a view, see `dropSignByte`. -/
inductive ECParamResult where
  | failure
  | curve (c : ec_curve)
  | undetermined
deriving DecidableEq, Repr

/-- Lines 255-261 of cvc.c (and 347-353, 370-376):
`if (*val == 0) { val++; vallen--; }` and the view `(val, vallen)` stored.
`value` is the content of the INTEGER and `following` the bytes behind it in
the buffer.  For an empty content `*val` is the byte behind the element: if
it is 0 the length stored is -1, and if the buffer ends there the byte read
is outside the buffer; in both cases there is no view to speak of (`none`). -/
def dropSignByte (value following : List Nat) : Option (List Nat) :=
  match value with
  | b :: t => if b = 0 then some t else some (b :: t)
  | [] =>
    match following with
    | [] => none
    | c :: _ => if c = 0 then none else some []

/-- The function `cvcDetermineCurveFromECParam` (cvc.c lines 168-379).  The cursor
`(po, length)` walks the outer SEQUENCE and `(children, childrenlen)` the
SEQUENCEs fieldID and curve.  `*val` of the base point (line 322) is the
first content byte or, for an empty content, the byte behind the element;
when nothing follows the read of the order at line 333 fails whatever that
byte is. -/
def cvcDetermineCurveFromECParam (ecparam : List Nat) : ECParamResult :=
  match asn1Next ecparam with
  | none => .failure
  | some seq =>
    if seq.tag ≠ ASN1_SEQUENCE then .failure
    else
      -- version
      match asn1Next seq.value with
      | none => .failure
      | some ver =>
        if ver.tag ≠ ASN1_INTEGER ∨ ver.value.length ≠ 1 ∨ ver.value.head? ≠ some 0x01 then
          .failure
        else
          -- fieldID
          match asn1Next ver.rest with
          | none => .failure
          | some fid =>
            if fid.tag ≠ ASN1_SEQUENCE then .failure
            else
              -- fieldType
              match asn1Next fid.value with
              | none => .failure
              | some ft =>
                if ft.tag ≠ ASN1_OBJECT_IDENTIFIER ∨ ft.value.length ≠ 7
                    ∨ ft.value.get? 6 ≠ some 0x01 then .failure
                else
                  -- prime
                  match asn1Next ft.rest with
                  | none => .failure
                  | some pr =>
                    if pr.tag ≠ ASN1_INTEGER then .failure
                    else
                      -- curve
                      match asn1Next fid.rest with
                      | none => .failure
                      | some cv =>
                        if cv.tag ≠ ASN1_SEQUENCE then .failure
                        else
                          -- a
                          match asn1Next cv.value with
                          | none => .failure
                          | some a =>
                            if a.tag ≠ ASN1_OCTET_STRING then .failure
                            else
                              -- b
                              match asn1Next a.rest with
                              | none => .failure
                              | some b =>
                                if b.tag ≠ ASN1_OCTET_STRING then .failure
                                else
                                  -- base
                                  match asn1Next cv.rest with
                                  | none => .failure
                                  | some g =>
                                    if g.tag ≠ ASN1_OCTET_STRING
                                        ∨ (g.value ++ g.rest).head? ≠ some 0x04 then .failure
                                    else
                                      -- order
                                      match asn1Next g.rest with
                                      | none => .failure
                                      | some n =>
                                        if n.tag ≠ ASN1_INTEGER then .failure
                                        else
                                          -- cofactor
                                          match asn1Next n.rest with
                                          | none => .failure
                                          | some h =>
                                            if h.tag ≠ ASN1_INTEGER then .failure
                                            else
                                              match dropSignByte pr.value (pr.rest ++ fid.rest),
                                                dropSignByte n.value n.rest,
                                                dropSignByte h.value (h.rest ++ seq.rest) with
                                              | some prime, some order, some coFactor =>
                                                .curve
                                                  { oid := none
                                                    prime := some prime
                                                    coefficientA := some a.value
                                                    coefficientB := some b.value
                                                    basePointG := some g.value
                                                    order := some order
                                                    coFactor := some coFactor }
                                              | _, _, _ => .undetermined

/-- The content of a DER INTEGER for the unsigned number `x`: a byte 0x00 in front
exactly when the high bit of the first byte of `x` is set. -/
def derUnsigned (x : List Nat) : List Nat :=
  match x with
  | [] => []
  | b :: t => if 128 ≤ b then 0 :: b :: t else b :: t

/-- The structure
`SEQUENCE{ INTEGER 01, SEQUENCE{ OBJECT IDENTIFIER ft, INTEGER p' },
SEQUENCE{ OCTET STRING a, OCTET STRING b }, OCTET STRING G, INTEGER n', INTEGER h' }`
of explicit domain parameters, `x'` being `derUnsigned x`. -/
def ecParameters (ft p a b G n h : List Nat) : List Nat :=
  tlv ASN1_SEQUENCE
    (tlv ASN1_INTEGER [0x01] ++
      (tlv ASN1_SEQUENCE (tlv ASN1_OBJECT_IDENTIFIER ft ++ tlv ASN1_INTEGER (derUnsigned p)) ++
        (tlv ASN1_SEQUENCE (tlv ASN1_OCTET_STRING a ++ tlv ASN1_OCTET_STRING b) ++
          (tlv ASN1_OCTET_STRING G ++
            (tlv ASN1_INTEGER (derUnsigned n) ++ tlv ASN1_INTEGER (derUnsigned h))))))

/-- The object identifier prime-field 1.2.840.10045.1.1, seven bytes ending in 0x01. -/
def primeFieldOid : List Nat := [0x2A, 0x86, 0x48, 0xCE, 0x3D, 0x01, 0x01]

/-- The explicit domain parameters of a table entry. -/
def ecParametersOf (c : ec_curve) : List Nat :=
  ecParameters primeFieldOid (c.prime.getD []) (c.coefficientA.getD []) (c.coefficientB.getD [])
    (c.basePointG.getD []) (c.order.getD []) (c.coFactor.getD [])

/-- The view is an unsigned number in canonical form: not absent, not empty, and
its first byte is not 0x00. -/
def canonicalUnsigned (v : bytestring_s) : Prop :=
  match v with
  | some (b :: _) => b ≠ 0
  | _ => False

instance (v : bytestring_s) : Decidable (canonicalUnsigned v) := by
  unfold canonicalUnsigned
  split <;> infer_instance

/-- The view is an uncompressed point: the byte 0x04 followed by two coordinates of
equal length, so that its length is odd and at least 3. -/
def uncompressedPoint (v : bytestring_s) : Prop :=
  match v with
  | some (b :: t) => b = 0x04 ∧ t.length % 2 = 0 ∧ 2 ≤ t.length
  | _ => False

instance (v : bytestring_s) : Decidable (uncompressedPoint v) := by
  unfold uncompressedPoint
  split <;> infer_instance

/-- The element that `cvcDetermineCurveFromECParam` reads at line 178: the outer
element of the buffer. -/
def ecOuter (ecparam : List Nat) : Option Asn1Elem := asn1Next ecparam

/-- The element read at line 196: the version, first in the outer element. -/
def ecVersion (ecparam : List Nat) : Option Asn1Elem :=
  (ecOuter ecparam).bind fun seq => asn1Next seq.value

/-- The element read at line 211: the fieldID, behind the version. -/
def ecFieldID (ecparam : List Nat) : Option Asn1Elem :=
  (ecVersion ecparam).bind fun ver => asn1Next ver.rest

/-- The element read at line 226: the fieldType, first in the fieldID. -/
def ecFieldType (ecparam : List Nat) : Option Asn1Elem :=
  (ecFieldID ecparam).bind fun fid => asn1Next fid.value

/-- The element read at line 241: the prime, behind the fieldType. -/
def ecPrime (ecparam : List Nat) : Option Asn1Elem :=
  (ecFieldType ecparam).bind fun ft => asn1Next ft.rest

/-- The element read at line 264: the curve, behind the fieldID. -/
def ecCurve (ecparam : List Nat) : Option Asn1Elem :=
  (ecFieldID ecparam).bind fun fid => asn1Next fid.rest

/-- The element read at line 279: the coefficient a, first in the curve. -/
def ecCoefficientA (ecparam : List Nat) : Option Asn1Elem :=
  (ecCurve ecparam).bind fun cv => asn1Next cv.value

/-- The element read at line 297: the coefficient b, behind a. -/
def ecCoefficientB (ecparam : List Nat) : Option Asn1Elem :=
  (ecCoefficientA ecparam).bind fun a => asn1Next a.rest

/-- The element read at line 315: the base point, behind the curve. -/
def ecBase (ecparam : List Nat) : Option Asn1Elem :=
  (ecCurve ecparam).bind fun cv => asn1Next cv.rest

/-- The element read at line 333: the order, behind the base point. -/
def ecOrder (ecparam : List Nat) : Option Asn1Elem :=
  (ecBase ecparam).bind fun g => asn1Next g.rest

/-- The element read at line 356: the cofactor, behind the order. -/
def ecCofactor (ecparam : List Nat) : Option Asn1Elem :=
  (ecOrder ecparam).bind fun n => asn1Next n.rest

/-- The element `x` is there and has the property `good`. -/
def elementIs (x : Option Asn1Elem) (good : Asn1Elem → Prop) : Prop :=
  match x with
  | some e => good e
  | none => False

instance (x : Option Asn1Elem) (good : Asn1Elem → Prop) [DecidablePred good] :
    Decidable (elementIs x good) := by
  unfold elementIs
  split <;> infer_instance

/-- The content `v` of an INTEGER without its first byte when that byte is 0x00. -/
def dropLeadingZero (v : List Nat) : List Nat :=
  match v with
  | 0 :: t => t
  | _ => v

/-- The content `v` of an INTEGER is the DER form of an unsigned number in
canonical form: `derUnsigned x` for an `x` that is not empty and does not
begin with 0x00. -/
def derCanonical (v : List Nat) : Prop :=
  ∃ x, canonicalUnsigned (some x) ∧ v = derUnsigned x

/-- Explicit domain parameters of a toy curve (a = 1, b = 2, order 13, cofactor 1)
around a free outer tag and free elements for the version, the fieldType,
the prime and the base point. -/
def sampleEcParameters (outer : Nat) (version fieldType prime base : List Nat) : List Nat :=
  tlv outer
    (version ++
      (tlv 0x30 (fieldType ++ prime) ++
        (tlv 0x30 (tlv 0x04 [0x01] ++ tlv 0x04 [0x02]) ++
          (base ++ (tlv 0x02 [0x0D] ++ tlv 0x02 [0x01])))))

/-! ## cvcWrapECDSASignature (cvc.c lines 553-573) -/

/-- Modelled from the spec: `struct bytebuffer_s` of bytebuffer.h, which is not under
src/.  `val` holds the bytes appended so far (the C field `len` is its
length), `limit` is the capacity, and `failed` is what `bbHasFailed` reports. -/
structure bytebuffer_s where
  val : List Nat
  limit : Nat
  failed : Bool
  deriving DecidableEq, Repr

/-- Modelled from the spec: `bbHasFailed` of bytebuffer.c, which is not under src/. -/
def bbHasFailed (bb : bytebuffer_s) : Bool := bb.failed

/-- Modelled from the spec: the bounded write under the encoders of asn1.c (not under
src/).  Bytes that do not fit the capacity are not written and the buffer is
marked failed; a failed buffer stays failed. -/
def bbInsert (bb : bytebuffer_s) (offset : Nat) (bytes : List Nat) : bytebuffer_s :=
  if bb.failed ∨ bb.limit < bb.val.length + bytes.length then { bb with failed := true }
  else { bb with val := bb.val.take offset ++ (bytes ++ bb.val.drop offset) }

/-- Modelled from the spec: the superfluous leading zero bytes of an unsigned number
are dropped (spec glossary, canonical unsigned integer: "no superfluous
leading zero byte"); the last byte is kept, so that zero stays one byte. -/
def stripLeadingZeros : List Nat → List Nat
  | 0 :: b :: t => stripLeadingZeros (b :: t)
  | v => v

/-- Modelled from the spec: the content of the canonical INTEGER for the unsigned
number `val` (spec glossary: "no superfluous leading zero byte beyond the
single byte required to keep the value non-negative"): the leading zero
bytes are dropped and one byte 0x00 is put in front when the high bit of
what is left is set.  The number without bytes is zero, written `00`. -/
def unsignedInteger (val : List Nat) : List Nat :=
  match stripLeadingZeros val with
  | [] => [0]
  | b :: t => derUnsigned (b :: t)

/-- Modelled from the spec: `asn1AppendUnsignedBigInteger` of asn1.c, which is not under
src/: "appends a canonical INTEGER TLV, inserting a leading zero pad byte if
needed". -/
def asn1AppendUnsignedBigInteger (bb : bytebuffer_s) (tag : Nat) (val : List Nat) :
    bytebuffer_s :=
  bbInsert bb bb.val.length (tlv tag (unsignedInteger val))

/-- Modelled from the spec: `asn1EncapBuffer` of asn1.c, which is not under src/: "wraps
previously appended bytes in an outer TLV with the given tag". -/
def asn1EncapBuffer (tag : Nat) (bb : bytebuffer_s) (offset : Nat) : bytebuffer_s :=
  bbInsert bb offset (encodeTag tag ++ encodeLength (bb.val.length - offset))

/-- The function `cvcWrapECDSASignature` (lines 553-573).  `signature` is the
`signatureLen` bytes at `signature`, `bufflen` the capacity passed in
`*bufflen`.  `none` is the return -1; `some (w, n)` is the return 0 with the
bytes `w` in `wrappedSig` and `n` in `*bufflen`. -/
def cvcWrapECDSASignature (signature : List Nat) (bufflen : Nat) : Option (List Nat × Nat) :=
  let bb : bytebuffer_s := { val := [], limit := bufflen, failed := false }
  let len := signature.length / 2
  let bb := asn1AppendUnsignedBigInteger bb ASN1_INTEGER (signature.take len)
  let bb := asn1AppendUnsignedBigInteger bb ASN1_INTEGER ((signature.drop len).take len)
  let bb := asn1EncapBuffer ASN1_SEQUENCE bb 0
  if bbHasFailed bb then none else some (bb.val, bb.val.length)

/-- The encoding `SEQUENCE{ INTEGER(R), INTEGER(S) }`, the content of `INTEGER(x)`
being `unsignedInteger x`. -/
def signatureSequence (R S : List Nat) : List Nat :=
  tlv ASN1_SEQUENCE (tlv ASN1_INTEGER (unsignedInteger R) ++ tlv ASN1_INTEGER (unsignedInteger S))

/-- The high bit of the first byte of `x` is set. -/
def highBit (x : List Nat) : Prop := 128 ≤ x.headD 0

instance (x : List Nat) : Decidable (highBit x) := by
  unfold highBit
  infer_instance

/-- A raw signature of 64 bytes: R begins with 0x80, S with 0x7F. -/
def sampleRawSignature : List Nat :=
  (0x80 :: List.replicate 31 0x11) ++ (0x7F :: List.replicate 31 0x22)

/-- A raw signature of 64 bytes: R begins with 0x80, S with 0x00 0x01. -/
def sampleRawSignatureZero : List Nat :=
  (0x80 :: List.replicate 31 0x11) ++ (0x00 :: 0x01 :: List.replicate 30 0x22)

/-- The content `v` of an INTEGER is a canonical unsigned integer (spec glossary):
not empty, non-negative (first byte below 0x80) and without a superfluous
leading zero byte (a first byte 0x00 stands only in front of a byte with its
high bit set, or alone). -/
def canonicalInteger : List Nat → Prop
  | [] => False
  | [b] => b < 128
  | b :: c :: _ => b < 128 ∧ (b = 0 → 128 ≤ c)

instance (v : List Nat) : Decidable (canonicalInteger v) := by
  unfold canonicalInteger
  split <;> infer_instance

/-! ## Certificates with free elements in the certificate body -/

/-- A certificate like `sampleCertificate` with a free content `profile` of the profile
identifier 0x5F29. -/
def sampleProfileCertificate (profile : List Nat) : List Nat :=
  tlv 0x7F21
    (tlv 0x7F4E (tlv 0x5F29 profile ++
        (tlv 0x7F49 (tlv 0x06 sampleOid ++ tlv 0x86 samplePoint) ++ tlv 0x5F20 holder01))
      ++ tlv 0x5F37 sampleSignature)

/-- The elements `(tag, content)` of a list written one behind the other. -/
def encodeElements : List (Nat × List Nat) → List Nat
  | [] => []
  | e :: r => tlv e.1 e.2 ++ encodeElements r

/-- The tags of the optional elements behind the holder reference, in the order in
which lines 465-493 look for them. -/
def optionalTags : List Nat := [0x7F4C, 0x5F25, 0x5F24, 0x65]

/-- The certificate
`7F21{ 7F4E{ 5F29{00}, 7F49{ 06 o, 86 p }, 5F20 h, elems }, 5F37 s }`: a bare
certificate with the elements `elems` behind the holder reference. -/
def certificateFollowedBy (o p h s : List Nat) (elems : List (Nat × List Nat)) : List Nat :=
  certificateWith (tlv 0x06 o ++ tlv 0x86 p) (tlv 0x5F20 h ++ encodeElements elems) s

/-- What the look-ahead for the tag `T` does on a list of elements: the content of
the first element when its tag is `T`, and the elements left. -/
def skipTag (T : Nat) : List (Nat × List Nat) → bytestring_s × List (Nat × List Nat)
  | [] => (none, [])
  | e :: r => if e.1 = T then (some e.2, r) else (none, e :: r)

/-! ## The public key container and what stands behind its last element -/

/-- The optional certification authority reference 0x42 in front of the public key
container. -/
def carElement (car : bytestring_s) : List Nat :=
  match car with
  | none => []
  | some c => tlv 0x42 c

/-- The certificate
`7F21{ 7F4E{ 5F29 prof, [42 car], 7F49{ key }, tail }, 5F37 sig }` with free contents of
the profile identifier and of the public key container, an optional
authority reference and free elements `tail` behind the container. -/
def certificateOf (prof : List Nat) (car : bytestring_s) (key tail sig : List Nat) : List Nat :=
  tlv 0x7F21
    (tlv 0x7F4E (tlv 0x5F29 prof ++ (carElement car ++ (tlv 0x7F49 key ++ tail)))
      ++ tlv 0x5F37 sig)

/-- The elements of a public key by reference, `06 o, 86 p`, followed by `rest`. -/
def referenceKey (o p rest : List Nat) : List Nat := tlv 0x06 o ++ (tlv 0x86 p ++ rest)

/-- The elements of a public key with explicit domain parameters,
`06 o, 81 m, 82 a, 83 b, 84 g, 85 n, 86 q, 87 f`, followed by `rest`. -/
def explicitKey (o m a b g n q f rest : List Nat) : List Nat :=
  tlv 0x06 o ++ (tlv 0x81 m ++ (tlv 0x82 a ++ (tlv 0x83 b ++ (tlv 0x84 g ++
    (tlv 0x85 n ++ (tlv 0x86 q ++ (tlv 0x87 f ++ rest)))))))

/-- The state `s` with another content of the public key container and another
`certlen`: what the run on a certificate differs by, behind line 459, from
the run on the certificate with another content of the container. -/
def withKey (k : List Nat) (n : Nat) (s : DecodeState) : DecodeState :=
  { s with children := k, certlen := n }

/-- A certificate with the authority reference "CA" whose public key by reference is
followed in the container by `rest`. -/
def sampleReferenceCertificate (rest : List Nat) : List Nat :=
  certificateOf [0x00] (some [0x43, 0x41]) (referenceKey sampleOid samplePoint rest)
    (tlv 0x5F20 holder01) sampleSignature

/-- A certificate whose public key with explicit domain parameters (toy values) is
followed in the container by `rest`. -/
def sampleParameterCertificate (rest : List Nat) : List Nat :=
  certificateOf [0x00] none
    (explicitKey sampleOid [0x0B] [0x01] [0x02] [0x04, 0x05, 0x06] [0x0D] samplePoint [0x01]
      rest)
    (tlv 0x5F20 holder01) sampleSignature

/-! ## Certificates with free elements behind the holder reference -/

/-- The certificate
`7F21{ 7F4E{ 5F29 prof, [42 car], 7F49{ key }, 5F20 h, elems }, 5F37 sig }`: a
certificate with a free profile content, optional authority reference and
key, and the elements `elems` behind the holder reference. -/
def certificateElements (prof : List Nat) (car : bytestring_s) (key h : List Nat)
    (elems : List (Nat × List Nat)) (sig : List Nat) : List Nat :=
  certificateOf prof car key (tlv 0x5F20 h ++ encodeElements elems) sig

/-- The certificate `B` as it is, or inside the request `67{ B, 42 c, 5F37 s }`. -/
def wrapRequest (outer : Option (List Nat × List Nat)) (B : List Nat) : List Nat :=
  match outer with
  | none => B
  | some cs => requestOf B cs.1 cs.2

/-- The state `s` with the four optional fields of the record and `certlen` replaced:
what the run on a certificate with elements behind the holder reference
differs by, at line 495, from the run on the certificate without them. -/
def withOptional (chat ced cxd ext : bytestring_s) (n : Nat) (s : DecodeState) : DecodeState :=
  { s with cvc := { s.cvc with chat := chat, ced := ced, cxd := cxd, extensions := ext },
           certlen := n }

/-- Lines 486-493 on the elements left behind the three look-aheads: nothing left
gives no extensions, one element 0x65 gives its content, anything else is
`return -1` (`none`). -/
def extensionsBehind : List (Nat × List Nat) → Option bytestring_s
  | [] => some none
  | [e] => if e.1 = 0x65 then some (some e.2) else none
  | _ :: _ :: _ => none

/-! ## The views of the record with `val` and `len` apart -/

/-- Modelled from the spec: the two fields of a `struct bytestring_s` as the C code
writes them one by one (the header is not under src/).  `val` is `none` for
NULL and otherwise the bytes that start at the pointer, up to the end of the
cursor the pointer was taken from; `len` is the length field.  The view is
the first `len` bytes at `val`. -/
structure ByteView where
  val : Option (List Nat) := none
  len : Nat := 0
deriving DecidableEq, Repr

/-- Modelled from the spec: what `asn1Next` (asn1.c, not under src/) stores through its
out-parameters `length` and `value`: the length of the content and the
pointer at the content. -/
def viewOf (e : Asn1Elem) : ByteView :=
  { val := some (e.value ++ e.rest), len := e.value.length }

/-- Modelled from the spec: `struct cvc` (cvc.h is not under src/) with the fields `val`
and `len` of every view apart; the default is what
`memset(cvc, 0, sizeof(struct cvc))` leaves. -/
structure cvcViews where
  car : ByteView := {}
  chr : ByteView := {}
  chat : ByteView := {}
  ced : ByteView := {}
  cxd : ByteView := {}
  extensions : ByteView := {}
  pukoid : ByteView := {}
  primeOrModulus : ByteView := {}
  coefficientAorExponent : ByteView := {}
  coefficientB : ByteView := {}
  basePointG : ByteView := {}
  order : ByteView := {}
  publicPoint : ByteView := {}
  cofactor : ByteView := {}
  signature : ByteView := {}
  outer_car : ByteView := {}
  outerSignature : ByteView := {}
deriving DecidableEq, Repr

/-- The local variables of `cvcDecode` between its stages, as in `DecodeState`, with
the record of views whose `val` and `len` stand apart. -/
structure ViewState where
  cvc : cvcViews
  certlen : Nat
  po : List Nat
  children : List Nat
deriving DecidableEq, Repr

/-- Lines 388-429 of `cvcDecode` as in `cvcDecodeOuter`; the calls of lines 411 and
415 store `len` and `val` of `outer_car` and `outerSignature` through the
out-parameters of `asn1Next`. -/
def cvcViewsOuter (cert : List Nat) : Option ViewState :=
  if asn1Validate cert ≠ 0 then none
  else
    match asn1Next cert with
    | none => none
    | some e0 =>
      if e0.tag = 0x67 then
        match asn1Next e0.value with
        | none => none
        | some e1 =>
          match asn1Next e1.rest with
          | none => none
          | some e2 =>
            if e2.tag ≠ 0x42 then none
            else
              match asn1Next e2.rest with
              | none => none
              | some e3 =>
                if e3.tag ≠ 0x5F37 then none
                else if e3.rest ≠ [] then none
                else if e1.tag ≠ 0x7F21 then none
                else some
                  { cvc := { outer_car := viewOf e2, outerSignature := viewOf e3 }
                    certlen := cert.length - e0.rest.length
                    po := e1.value
                    children := e1.value }
      else if e0.tag ≠ 0x7F21 then none
      else some
        { cvc := {}
          certlen := cert.length - e0.rest.length
          po := e0.value
          children := e0.value }

/-- Lines 431-444 of `cvcDecode` as in `cvcDecodeContainer`; line 435 stores `len`
and `val` of `signature`. -/
def cvcViewsContainer (s : ViewState) : Option ViewState :=
  match asn1Next s.po with
  | none => none
  | some e1 =>
    if e1.tag ≠ 0x7F4E then none
    else
      match asn1Next e1.rest with
      | none => none
      | some e2 =>
        if e2.tag ≠ 0x5F37 then none
        else if e2.rest ≠ [] then none
        else some
          { s with
            cvc := { s.cvc with signature := viewOf e2 }
            po := e1.value
            children := e1.value }

/-- Lines 446-459 of `cvcDecode` as in `cvcDecodeProfile`; line 452 stores `len` and
`val` of `car`. -/
def cvcViewsProfile (s : ViewState) : Option ViewState :=
  match asn1Next s.po with
  | none => none
  | some e =>
    if e.tag ≠ 0x5F29 then none
    else
      match e.value ++ e.rest with
      | [] => none
      | v :: _ =>
        if v ≠ 0 then none
        else
          let afterCar : Option (cvcViews × List Nat) :=
            if (asn1Tag e.rest).1 = 0x42 then
              match asn1Next e.rest with
              | none => none
              | some c => some ({ s.cvc with car := viewOf c }, c.rest)
            else some (s.cvc, e.rest)
          match afterCar with
          | none => none
          | some (r, po) =>
            match asn1Next po with
            | none => none
            | some k =>
              if k.tag ≠ 0x7F49 then none
              else some { s with cvc := r, po := k.rest, children := k.value }

/-- The idiom of lines 465-484 as in `cvcOptional`: the view stored by the
`asn1Next` behind the look-ahead, or `none` inside when the element is not
there and nothing is stored. -/
def cvcViewsOptional (T : Nat) (po : List Nat) : Option (Option ByteView × List Nat) :=
  if po ≠ [] ∧ (asn1Tag po).1 = T then
    match asn1Next po with
    | none => none
    | some e => some (some (viewOf e), e.rest)
  else some (none, po)

/-- Lines 461-484 of `cvcDecode` as in `cvcDecodeHolder`; a field whose element is
not there is not written. -/
def cvcViewsHolder (s : ViewState) : Option ViewState :=
  match asn1Next s.po with
  | none => none
  | some h =>
    if h.tag ≠ 0x5F20 then none
    else
      match cvcViewsOptional 0x7F4C h.rest with
      | none => none
      | some (chat, po1) =>
        match cvcViewsOptional 0x5F25 po1 with
        | none => none
        | some (ced, po2) =>
          match cvcViewsOptional 0x5F24 po2 with
          | none => none
          | some (cxd, po3) =>
            some
              { s with
                cvc :=
                  { s.cvc with
                    chr := viewOf h
                    chat := chat.getD s.cvc.chat
                    ced := ced.getD s.cvc.ced
                    cxd := cxd.getD s.cvc.cxd }
                po := po3 }

/-- Lines 486-496 of `cvcDecode` as in `cvcDecodeExtensions`. -/
def cvcViewsExtensions (s : ViewState) : Option ViewState :=
  if s.po ≠ [] then
    match asn1Next s.po with
    | none => none
    | some x =>
      if x.tag ≠ 0x65 then none
      else if x.rest ≠ [] then none
      else some { s with cvc := { s.cvc with extensions := viewOf x }, po := s.children }
  else some { s with po := s.children }

/-- Lines 498-537 of `cvcDecode` as in `cvcDecodePublicKey`. -/
def cvcViewsPublicKey (s : ViewState) : Option ViewState :=
  match asn1NextTag 0x06 s.po with
  | none => none
  | some o =>
    if o.rest ≠ [] ∧ (asn1Tag o.rest).1 = 0x86 then
      match asn1NextTag 0x86 o.rest with
      | none => none
      | some p =>
        some
          { s with
            cvc := { s.cvc with pukoid := viewOf o, publicPoint := viewOf p }
            po := p.rest }
    else
      match asn1NextTag 0x81 o.rest with
      | none => none
      | some e81 =>
        match asn1NextTag 0x82 e81.rest with
        | none => none
        | some e82 =>
          if e82.rest ≠ [] then
            match asn1NextTag 0x83 e82.rest with
            | none => none
            | some e83 =>
              match asn1NextTag 0x84 e83.rest with
              | none => none
              | some e84 =>
                match asn1NextTag 0x85 e84.rest with
                | none => none
                | some e85 =>
                  match asn1NextTag 0x86 e85.rest with
                  | none => none
                  | some e86 =>
                    match asn1NextTag 0x87 e86.rest with
                    | none => none
                    | some e87 =>
                      some
                        { s with
                          cvc :=
                            { s.cvc with
                              pukoid := viewOf o
                              primeOrModulus := viewOf e81
                              coefficientAorExponent := viewOf e82
                              coefficientB := viewOf e83
                              basePointG := viewOf e84
                              order := viewOf e85
                              publicPoint := viewOf e86
                              cofactor := viewOf e87 }
                          po := e87.rest }
          else
            some
              { s with
                cvc :=
                  { s.cvc with
                    pukoid := viewOf o
                    primeOrModulus := viewOf e81
                    coefficientAorExponent := viewOf e82 }
                po := e82.rest }

/-- The function `cvcDecode` (cvc.c lines 383-540) with the fields `val` and `len` of
the views apart: `some (n, r)` is the return of `certlen = n` at line 539,
`none` is `return -1`. -/
def cvcDecodeViews (cert : List Nat) : Option (Nat × cvcViews) :=
  ((((((cvcViewsOuter cert).bind cvcViewsContainer).bind cvcViewsProfile).bind
    cvcViewsHolder).bind cvcViewsExtensions).bind cvcViewsPublicKey).map
      fun s => (s.certlen, s.cvc)

/-- The view as a `bytestring_s` of the embedding: absent for `val == NULL`, else the
first `len` bytes at `val`. -/
def bytesOf (v : ByteView) : bytestring_s := v.val.map fun p => p.take v.len

/-- The record of `cvcDecode` that belongs to a record of views. -/
def recordOf (r : cvcViews) : cvc :=
  { car := bytesOf r.car, chr := bytesOf r.chr, chat := bytesOf r.chat, ced := bytesOf r.ced,
    cxd := bytesOf r.cxd, extensions := bytesOf r.extensions, pukoid := bytesOf r.pukoid,
    primeOrModulus := bytesOf r.primeOrModulus,
    coefficientAorExponent := bytesOf r.coefficientAorExponent,
    coefficientB := bytesOf r.coefficientB, basePointG := bytesOf r.basePointG,
    order := bytesOf r.order, publicPoint := bytesOf r.publicPoint,
    cofactor := bytesOf r.cofactor, signature := bytesOf r.signature,
    outer_car := bytesOf r.outer_car, outerSignature := bytesOf r.outerSignature }

/-- The state of `cvcDecode` that belongs to a state with views. -/
def stateOf (s : ViewState) : DecodeState :=
  { cvc := recordOf s.cvc, certlen := s.certlen, po := s.po, children := s.children }

/-- All views of a record. -/
def viewFields (r : cvcViews) : List ByteView :=
  [r.car, r.chr, r.chat, r.ced, r.cxd, r.extensions, r.pukoid, r.primeOrModulus,
    r.coefficientAorExponent, r.coefficientB, r.basePointG, r.order, r.publicPoint,
    r.cofactor, r.signature, r.outer_car, r.outerSignature]

/-- Every view of the record with `val == NULL` has `len == 0`. -/
def absentIsEmpty (r : cvcViews) : Prop := ∀ v ∈ viewFields r, v.val = none → v.len = 0

instance (r : cvcViews) : Decidable (absentIsEmpty r) := by
  unfold absentIsEmpty
  infer_instance

/-! ## The TLV engine reads back what `tlv` writes -/

theorem asn1Tag_encodeTag (t : Nat) (ht : validTag t) (r : List Nat) :
    asn1Tag (encodeTag t ++ r) = (t, r) := by
  rcases ht with ⟨h1, h2⟩ | ⟨h1, h2, h3, h4⟩
  · simp [encodeTag, h1, asn1Tag, h2]
  · have h5 : ¬ t < 256 := by omega
    have h6 : ¬ 128 ≤ t % 256 := by omega
    simp [encodeTag, h5, asn1Tag, h3, asn1TagLoop, h6]
    omega

theorem asn1Length_encodeLength (n : Nat) (hn : n < 2 ^ 32) (r : List Nat) :
    asn1Length (encodeLength n ++ r) = some (n, r) := by
  unfold encodeLength
  split_ifs with h1 h2 h3 h4
  · simp [asn1Length, h1]
  · simp [asn1Length, beValue]
  · simp only [asn1Length, List.cons_append, List.nil_append]
    norm_num [beValue]
    omega
  · simp only [asn1Length, List.cons_append, List.nil_append]
    norm_num [beValue]
    omega
  · simp only [asn1Length, List.cons_append, List.nil_append]
    norm_num [beValue]
    omega

theorem encodeTag_ne_nil (t : Nat) : encodeTag t ≠ [] := by
  unfold encodeTag; split_ifs <;> simp

theorem tlv_ne_nil (t : Nat) (c : List Nat) : tlv t c ≠ [] := by
  simp [tlv, encodeTag_ne_nil]

theorem asn1Next_tlv_append (t : Nat) (ht : validTag t) (c : List Nat) (hc : c.length < 2 ^ 32)
    (r : List Nat) : asn1Next (tlv t c ++ r) = some ⟨t, c, r⟩ := by
  have hne : tlv t c ++ r ≠ [] := by simp [tlv_ne_nil]
  unfold asn1Next
  split
  · contradiction
  · simp only [tlv, List.append_assoc, asn1Tag_encodeTag t ht, asn1Length_encodeLength _ hc]
    simp

theorem asn1Next_tlv (t : Nat) (ht : validTag t) (c : List Nat) (hc : c.length < 2 ^ 32) :
    asn1Next (tlv t c) = some ⟨t, c, []⟩ := by
  have := asn1Next_tlv_append t ht c hc []
  simpa using this

theorem asn1TagLoop_append (b : List Nat) : ∀ (a : List Nat) (rc : Nat),
    (asn1TagLoop rc a).2 ≠ [] →
      asn1TagLoop rc (a ++ b) = ((asn1TagLoop rc a).1, (asn1TagLoop rc a).2 ++ b) := by
  intro a
  induction a with
  | nil => intro rc h; simp [asn1TagLoop] at h
  | cons x t ih =>
    intro rc h
    simp only [asn1TagLoop, List.cons_append] at h ⊢
    split_ifs with hx
    · rw [if_pos hx] at h
      exact ih _ h
    · rfl

theorem asn1Tag_append (a b : List Nat) (h : (asn1Tag a).2 ≠ []) :
    asn1Tag (a ++ b) = ((asn1Tag a).1, (asn1Tag a).2 ++ b) := by
  cases a with
  | nil => simp [asn1Tag] at h
  | cons x t =>
    simp only [asn1Tag, List.cons_append] at h ⊢
    split_ifs with hx
    · rw [if_pos hx] at h
      exact asn1TagLoop_append b t x h
    · rfl

theorem asn1Length_append (r b : List Nat) (len : Nat) (r' : List Nat)
    (h : asn1Length r = some (len, r')) : asn1Length (r ++ b) = some (len, r' ++ b) := by
  cases r with
  | nil => simp [asn1Length] at h
  | cons l t =>
    simp only [asn1Length, List.cons_append] at h ⊢
    have hlen : (t ++ b).length = t.length + b.length := List.length_append t b
    split_ifs at h ⊢ with h1 h2 h3 h4 h4
    · simp only [Option.some.injEq, Prod.mk.injEq] at h ⊢
      exact ⟨h.1, by rw [h.2]⟩
    · omega
    · simp only [Option.some.injEq, Prod.mk.injEq] at h ⊢
      have hle : l - 128 ≤ t.length := by omega
      refine ⟨?_, ?_⟩
      · rw [List.take_append_of_le_length hle]; exact h.1
      · rw [List.drop_append_of_le_length hle, h.2]

theorem asn1Next_append (a b : List Nat) (e : Asn1Elem) (h : asn1Next a = some e) :
    asn1Next (a ++ b) = some ⟨e.tag, e.value, e.rest ++ b⟩ := by
  cases a with
  | nil => simp [asn1Next] at h
  | cons x t =>
    simp only [asn1Next, List.cons_append] at h ⊢
    cases hl : asn1Length (asn1Tag (x :: t)).2 with
    | none => simp [hl] at h
    | some lr =>
      obtain ⟨len, r⟩ := lr
      have hne : (asn1Tag (x :: t)).2 ≠ [] := by
        intro h0
        rw [h0] at hl
        simp [asn1Length] at hl
      have ht := asn1Tag_append (x :: t) b hne
      simp only [List.cons_append] at ht
      rw [hl] at h
      simp only at h
      rw [ht]
      simp only
      rw [asn1Length_append _ b len r hl]
      simp only
      have hlen : (r ++ b).length = r.length + b.length := List.length_append r b
      split_ifs at h ⊢ with h1 h2
      · omega
      · simp only [Option.some.injEq] at h
        have hle : len ≤ r.length := by omega
        subst h
        simp only [List.take_append_of_le_length hle, List.drop_append_of_le_length hle]

theorem asn1ValidateAux_succ : ∀ (f : Nat) (buf : List Nat),
    asn1ValidateAux f buf = true → asn1ValidateAux (f + 1) buf = true := by
  intro f
  induction f with
  | zero =>
    intro buf h
    cases buf with
    | nil => simp [asn1ValidateAux]
    | cons b t => simp [asn1ValidateAux] at h
  | succ n ih =>
    intro buf h
    cases buf with
    | nil => simp [asn1ValidateAux]
    | cons b t =>
      rw [asn1ValidateAux] at h ⊢
      cases hn : asn1Next (b :: t) with
      | none => simp [hn] at h
      | some e =>
        rw [hn] at h
        simp only [Bool.and_eq_true] at h ⊢
        refine ⟨?_, ih _ h.2⟩
        split_ifs with hb
        · have := h.1
          rw [if_pos hb] at this
          exact ih _ this
        · rfl

theorem asn1ValidateAux_mono (f g : Nat) (buf : List Nat) (hfg : f ≤ g)
    (h : asn1ValidateAux f buf = true) : asn1ValidateAux g buf = true := by
  induction hfg with
  | refl => exact h
  | step _ ih => exact asn1ValidateAux_succ _ _ ih

theorem asn1ValidateAux_append : ∀ (f : Nat) (a : List Nat), asn1ValidateAux f a = true →
    ∀ (g : Nat) (b : List Nat), asn1ValidateAux g b = true →
      asn1ValidateAux (f + g) (a ++ b) = true := by
  intro f
  induction f with
  | zero =>
    intro a ha g b hb
    cases a with
    | nil => simpa using hb
    | cons x t => simp [asn1ValidateAux] at ha
  | succ n ih =>
    intro a ha g b hb
    cases a with
    | nil =>
      simp only [List.nil_append]
      exact asn1ValidateAux_mono g _ b (by omega) hb
    | cons x t =>
      have hfg : n + 1 + g = (n + g) + 1 := by omega
      rw [hfg]
      rw [asn1ValidateAux] at ha
      cases hn : asn1Next (x :: t) with
      | none => simp [hn] at ha
      | some e =>
        rw [hn] at ha
        simp only [Bool.and_eq_true] at ha
        have hn2 := asn1Next_append (x :: t) b e hn
        simp only [List.cons_append] at hn2 ⊢
        rw [asn1ValidateAux]
        rw [hn2]
        simp only [Bool.and_eq_true]
        refine ⟨?_, ih _ ha.2 g b hb⟩
        split_ifs with hb2
        · have := ha.1
          rw [if_pos hb2] at this
          exact asn1ValidateAux_mono n _ _ (by omega) this
        · rfl

theorem asn1Validate_eq_zero (buf : List Nat) :
    asn1Validate buf = 0 ↔ asn1ValidateAux buf.length buf = true := by
  unfold asn1Validate
  split_ifs with h <;> simp [h]

theorem asn1Validate_nil : asn1Validate [] = 0 := by
  simp [asn1Validate, asn1ValidateAux]

theorem asn1Validate_append (a b : List Nat) (ha : asn1Validate a = 0) (hb : asn1Validate b = 0) :
    asn1Validate (a ++ b) = 0 := by
  rw [asn1Validate_eq_zero] at ha hb ⊢
  rw [List.length_append]
  exact asn1ValidateAux_append _ a ha _ b hb

theorem length_tlv (t : Nat) (c : List Nat) :
    (tlv t c).length = (encodeTag t).length + (encodeLength c.length).length + c.length := by
  simp [tlv]
  omega

theorem encodeTag_length_pos (t : Nat) : 0 < (encodeTag t).length := by
  unfold encodeTag; split_ifs <;> simp

theorem encodeLength_length_pos (n : Nat) : 0 < (encodeLength n).length := by
  unfold encodeLength; split_ifs <;> simp

theorem length_lt_tlv (t : Nat) (c : List Nat) : c.length + 2 ≤ (tlv t c).length := by
  have h1 := encodeTag_length_pos t
  have h2 := encodeLength_length_pos c.length
  rw [length_tlv]; omega

/-- An element is valid when its content is short enough to be encoded and, for a
constructed tag, the content is valid. -/
theorem asn1Validate_tlv (t : Nat) (ht : validTag t) (c : List Nat) (hc : c.length < 2 ^ 32)
    (hv : (encodeTag t).headD 0 / 32 % 2 = 1 → asn1Validate c = 0) :
    asn1Validate (tlv t c) = 0 := by
  rw [asn1Validate_eq_zero]
  have hlen := length_lt_tlv t c
  obtain ⟨k, hk⟩ : ∃ k, (tlv t c).length = k + 1 := ⟨(tlv t c).length - 1, by omega⟩
  rw [hk]
  have hn := asn1Next_tlv t ht c hc
  have hne := tlv_ne_nil t c
  have hhead : (tlv t c).headD 0 = (encodeTag t).headD 0 := by
    unfold tlv encodeTag; split_ifs <;> simp
  cases hx : tlv t c with
  | nil => exact absurd hx hne
  | cons x xs =>
    rw [hx] at hn hhead
    rw [asn1ValidateAux]
    rw [hn]
    simp only [Bool.and_eq_true]
    simp only [List.headD_cons] at hhead
    refine ⟨?_, ?_⟩
    · split_ifs with hb
      · rw [hhead] at hb
        have := (asn1Validate_eq_zero c).1 (hv hb)
        exact asn1ValidateAux_mono _ _ _ (by omega) this
      · rfl
    · cases k <;> simp [asn1ValidateAux]

theorem asn1Tag_tlv_append (t : Nat) (ht : validTag t) (c r : List Nat) :
    (asn1Tag (tlv t c ++ r)).1 = t := by
  simp only [tlv, List.append_assoc, asn1Tag_encodeTag t ht]

theorem asn1Tag_tlv (t : Nat) (ht : validTag t) (c : List Nat) :
    (asn1Tag (tlv t c)).1 = t := by
  simp only [tlv, List.append_assoc, asn1Tag_encodeTag t ht]

theorem asn1NextTag_tlv_append (t : Nat) (ht : validTag t) (c : List Nat)
    (hc : c.length < 2 ^ 32) (r : List Nat) :
    asn1NextTag t (tlv t c ++ r) = some ⟨t, c, r⟩ := by
  simp [asn1NextTag, asn1Next_tlv_append t ht c hc r]

theorem asn1NextTag_tlv (t : Nat) (ht : validTag t) (c : List Nat) (hc : c.length < 2 ^ 32) :
    asn1NextTag t (tlv t c) = some ⟨t, c, []⟩ := by
  simp [asn1NextTag, asn1Next_tlv t ht c hc]

theorem asn1Validate_tlv_primitive (t : Nat) (ht : validTag t) (c : List Nat)
    (hc : c.length < 2 ^ 32) (hp : (encodeTag t).headD 0 / 32 % 2 ≠ 1) :
    asn1Validate (tlv t c) = 0 :=
  asn1Validate_tlv t ht c hc (fun hx => absurd hx hp)

/-- Claim C1: for every algorithm identifier `o`, public point `p`, holder reference
`h` and signature `s`, `cvcDecode` of the bare certificate
`7F21{ 7F4E{ 5F29{00}, 7F49{ 06 o, 86 p }, 5F20 h }, 5F37 s }` succeeds, returns the
length of the certificate and a record with `pukoid = o`, `publicPoint = p`,
`chr = h`, `signature = s` and every other field absent.  The certificate is
taken to fit an `int` length. -/
theorem cvcDecode_bareCertificate (o p h s : List Nat)
    (hsize : (bareCertificate o p h s).length < 2 ^ 31) :
    cvcDecode (bareCertificate o p h s) =
      some ((bareCertificate o p h s).length,
        { car := none, chr := some h, chat := none, ced := none, cxd := none,
          extensions := none, pukoid := some o, primeOrModulus := none,
          coefficientAorExponent := none, coefficientB := none, basePointG := none,
          order := none, publicPoint := some p, cofactor := none, signature := some s,
          outer_car := none, outerSignature := none }) := by
  -- sizes of the parts
  have e1 := length_lt_tlv 0x7F21
    (tlv 0x7F4E (tlv 0x5F29 [0] ++ (tlv 0x7F49 (tlv 0x06 o ++ tlv 0x86 p) ++ tlv 0x5F20 h))
      ++ tlv 0x5F37 s)
  have e2 := length_lt_tlv 0x7F4E
    (tlv 0x5F29 [0] ++ (tlv 0x7F49 (tlv 0x06 o ++ tlv 0x86 p) ++ tlv 0x5F20 h))
  have e3 := length_lt_tlv 0x5F37 s
  have e4 := length_lt_tlv 0x7F49 (tlv 0x06 o ++ tlv 0x86 p)
  have e5 := length_lt_tlv 0x5F20 h
  have e6 := length_lt_tlv 0x06 o
  have e7 := length_lt_tlv 0x86 p
  unfold bareCertificate at hsize
  simp only [List.length_append] at e1 e2 e3 e4 e5 e6 e7
  have ho : o.length < 2 ^ 32 := by omega
  have hp : p.length < 2 ^ 32 := by omega
  have hh : h.length < 2 ^ 32 := by omega
  have hs : s.length < 2 ^ 32 := by omega
  have hK : (tlv 0x06 o ++ tlv 0x86 p).length < 2 ^ 32 := by
    simp only [List.length_append]; omega
  have hB : (tlv 0x5F29 [0] ++ (tlv 0x7F49 (tlv 0x06 o ++ tlv 0x86 p) ++ tlv 0x5F20 h)).length
      < 2 ^ 32 := by
    simp only [List.length_append]; omega
  have hC : (tlv 0x7F4E (tlv 0x5F29 [0] ++ (tlv 0x7F49 (tlv 0x06 o ++ tlv 0x86 p) ++ tlv 0x5F20 h))
      ++ tlv 0x5F37 s).length < 2 ^ 32 := by
    simp only [List.length_append]; omega
  -- the structure is valid
  have vK : asn1Validate (tlv 0x06 o ++ tlv 0x86 p) = 0 :=
    asn1Validate_append _ _ (asn1Validate_tlv_primitive _ (by decide) _ ho (by decide))
      (asn1Validate_tlv_primitive _ (by decide) _ hp (by decide))
  have vB : asn1Validate
      (tlv 0x5F29 [0] ++ (tlv 0x7F49 (tlv 0x06 o ++ tlv 0x86 p) ++ tlv 0x5F20 h)) = 0 :=
    asn1Validate_append _ _ (asn1Validate_tlv_primitive _ (by decide) _ (by decide) (by decide))
      (asn1Validate_append _ _ (asn1Validate_tlv _ (by decide) _ hK (fun _ => vK))
        (asn1Validate_tlv_primitive _ (by decide) _ hh (by decide)))
  have vC : asn1Validate
      (tlv 0x7F4E (tlv 0x5F29 [0] ++ (tlv 0x7F49 (tlv 0x06 o ++ tlv 0x86 p) ++ tlv 0x5F20 h))
        ++ tlv 0x5F37 s) = 0 :=
    asn1Validate_append _ _ (asn1Validate_tlv _ (by decide) _ hB (fun _ => vB))
      (asn1Validate_tlv_primitive _ (by decide) _ hs (by decide))
  have vAll : asn1Validate (bareCertificate o p h s) = 0 :=
    asn1Validate_tlv _ (by decide) _ hC (fun _ => vC)
  -- the stages of the decoder
  have s1 : cvcDecodeOuter (bareCertificate o p h s) = some
      { cvc := {}, certlen := (bareCertificate o p h s).length,
        po := tlv 0x7F4E (tlv 0x5F29 [0] ++ (tlv 0x7F49 (tlv 0x06 o ++ tlv 0x86 p) ++ tlv 0x5F20 h))
          ++ tlv 0x5F37 s,
        children := tlv 0x7F4E (tlv 0x5F29 [0] ++ (tlv 0x7F49 (tlv 0x06 o ++ tlv 0x86 p)
          ++ tlv 0x5F20 h)) ++ tlv 0x5F37 s } := by
    unfold cvcDecodeOuter
    rw [vAll]
    unfold bareCertificate
    rw [asn1Next_tlv 0x7F21 (by decide) _ hC]
    simp
  have s2 : cvcDecodeContainer
      { cvc := {}, certlen := (bareCertificate o p h s).length,
        po := tlv 0x7F4E (tlv 0x5F29 [0] ++ (tlv 0x7F49 (tlv 0x06 o ++ tlv 0x86 p) ++ tlv 0x5F20 h))
          ++ tlv 0x5F37 s,
        children := tlv 0x7F4E (tlv 0x5F29 [0] ++ (tlv 0x7F49 (tlv 0x06 o ++ tlv 0x86 p)
          ++ tlv 0x5F20 h)) ++ tlv 0x5F37 s } = some
      { cvc := { signature := some s }, certlen := (bareCertificate o p h s).length,
        po := tlv 0x5F29 [0] ++ (tlv 0x7F49 (tlv 0x06 o ++ tlv 0x86 p) ++ tlv 0x5F20 h),
        children := tlv 0x5F29 [0] ++ (tlv 0x7F49 (tlv 0x06 o ++ tlv 0x86 p) ++ tlv 0x5F20 h) } := by
    simp [cvcDecodeContainer, asn1Next_tlv_append 0x7F4E (by decide) _ hB,
      asn1Next_tlv 0x5F37 (by decide) _ hs]
  have s3 : cvcDecodeProfile
      { cvc := { signature := some s }, certlen := (bareCertificate o p h s).length,
        po := tlv 0x5F29 [0] ++ (tlv 0x7F49 (tlv 0x06 o ++ tlv 0x86 p) ++ tlv 0x5F20 h),
        children := tlv 0x5F29 [0] ++ (tlv 0x7F49 (tlv 0x06 o ++ tlv 0x86 p) ++ tlv 0x5F20 h) } =
      some
      { cvc := { signature := some s }, certlen := (bareCertificate o p h s).length,
        po := tlv 0x5F20 h,
        children := tlv 0x06 o ++ tlv 0x86 p } := by
    simp [cvcDecodeProfile, asn1Next_tlv_append 0x5F29 (by decide) [0] (by decide),
      asn1Tag_tlv_append 0x7F49 (by decide), asn1Next_tlv_append 0x7F49 (by decide) _ hK]
  have s4 : cvcDecodeHolder
      { cvc := { signature := some s }, certlen := (bareCertificate o p h s).length,
        po := tlv 0x5F20 h,
        children := tlv 0x06 o ++ tlv 0x86 p } = some
      { cvc := { signature := some s, chr := some h },
        certlen := (bareCertificate o p h s).length,
        po := [],
        children := tlv 0x06 o ++ tlv 0x86 p } := by
    simp [cvcDecodeHolder, cvcOptional, asn1Next_tlv 0x5F20 (by decide) _ hh]
  have s5 : cvcDecodeExtensions
      { cvc := { signature := some s, chr := some h },
        certlen := (bareCertificate o p h s).length,
        po := [],
        children := tlv 0x06 o ++ tlv 0x86 p } = some
      { cvc := { signature := some s, chr := some h },
        certlen := (bareCertificate o p h s).length,
        po := tlv 0x06 o ++ tlv 0x86 p,
        children := tlv 0x06 o ++ tlv 0x86 p } := by
    simp [cvcDecodeExtensions]
  have s6 : cvcDecodePublicKey
      { cvc := { signature := some s, chr := some h },
        certlen := (bareCertificate o p h s).length,
        po := tlv 0x06 o ++ tlv 0x86 p,
        children := tlv 0x06 o ++ tlv 0x86 p } = some
      { cvc := { signature := some s, chr := some h, pukoid := some o, publicPoint := some p },
        certlen := (bareCertificate o p h s).length,
        po := [],
        children := tlv 0x06 o ++ tlv 0x86 p } := by
    simp [cvcDecodePublicKey, asn1NextTag_tlv_append 0x06 (by decide) _ ho,
      asn1Tag_tlv 0x86 (by decide), asn1NextTag_tlv 0x86 (by decide) _ hp, tlv_ne_nil]
  simp [cvcDecode, cvcDecodeToPublicKey, cvcDecodeToExtensions, cvcDecodeToKey, s1, s2, s3, s4,
    s5, s6]

theorem cvcDecodeContainer_withOuter (a b : bytestring_s) (n : Nat) (s : DecodeState) :
    cvcDecodeContainer (withOuter a b n s) = (cvcDecodeContainer s).map (withOuter a b n) := by
  unfold cvcDecodeContainer withOuter
  simp only
  repeat' split
  all_goals simp_all

theorem cvcDecodeProfile_withOuter (a b : bytestring_s) (n : Nat) (s : DecodeState) :
    cvcDecodeProfile (withOuter a b n s) = (cvcDecodeProfile s).map (withOuter a b n) := by
  simp only [cvcDecodeProfile, withOuter]
  cases h1 : asn1Next s.po with
  | none => rfl
  | some e =>
    simp only
    by_cases ht : e.tag ≠ 0x5F29
    · simp [ht]
    · cases hv : e.value ++ e.rest with
      | nil => simp [ht]
      | cons v vs =>
        by_cases hv0 : v ≠ 0
        · simp [ht, hv0]
        · by_cases hp : (asn1Tag e.rest).1 = 0x42
          · cases hc : asn1Next e.rest with
            | none => simp [ht, hv0, hp]
            | some c =>
              cases hk : asn1Next c.rest with
              | none => simp [ht, hv0, hp, hk]
              | some k =>
                by_cases hkt : k.tag ≠ 0x7F49
                · simp [ht, hv0, hp, hk, hkt]
                · simp [ht, hv0, hp, hk, hkt, withOuter]
          · cases hk : asn1Next e.rest with
            | none => simp [ht, hv0, hp, hk]
            | some k =>
              by_cases hkt : k.tag ≠ 0x7F49
              · simp [ht, hv0, hp, hk, hkt]
              · simp [ht, hv0, hp, hk, hkt, withOuter]

theorem cvcDecodeHolder_withOuter (a b : bytestring_s) (n : Nat) (s : DecodeState) :
    cvcDecodeHolder (withOuter a b n s) = (cvcDecodeHolder s).map (withOuter a b n) := by
  unfold cvcDecodeHolder withOuter
  simp only
  repeat' split
  all_goals simp_all

theorem cvcDecodeExtensions_withOuter (a b : bytestring_s) (n : Nat) (s : DecodeState) :
    cvcDecodeExtensions (withOuter a b n s) = (cvcDecodeExtensions s).map (withOuter a b n) := by
  unfold cvcDecodeExtensions withOuter
  simp only
  repeat' split
  all_goals simp_all

theorem cvcDecodePublicKey_withOuter (a b : bytestring_s) (n : Nat) (s : DecodeState) :
    cvcDecodePublicKey (withOuter a b n s) = (cvcDecodePublicKey s).map (withOuter a b n) := by
  unfold cvcDecodePublicKey withOuter
  simp only
  repeat' split
  all_goals simp_all

theorem cvcDecode_eq (cert : List Nat) :
    cvcDecode cert =
      (((((((cvcDecodeOuter cert).bind cvcDecodeContainer).bind cvcDecodeProfile).bind
        cvcDecodeHolder).bind cvcDecodeExtensions).bind cvcDecodePublicKey).map
          fun s => (s.certlen, s.cvc)) := rfl

/-- The stages behind `cvcDecodeOuter`, as one function of the state. -/
theorem cvcDecode_of_outer (cert : List Nat) (s0 : DecodeState)
    (h : cvcDecodeOuter cert = some s0) :
    cvcDecode cert =
      (((((cvcDecodeContainer s0).bind cvcDecodeProfile).bind
        cvcDecodeHolder).bind cvcDecodeExtensions).bind cvcDecodePublicKey).map
          fun s => (s.certlen, s.cvc) := by
  rw [cvcDecode_eq, h]
  rfl

theorem cvcDecode_withOuter (a b : bytestring_s) (n : Nat) (s0 : DecodeState) :
    ((((((cvcDecodeContainer (withOuter a b n s0)).bind cvcDecodeProfile).bind
        cvcDecodeHolder).bind cvcDecodeExtensions).bind cvcDecodePublicKey).map
          fun s => (s.certlen, s.cvc)) =
    ((((((cvcDecodeContainer s0).bind cvcDecodeProfile).bind
        cvcDecodeHolder).bind cvcDecodeExtensions).bind cvcDecodePublicKey).map
          fun s => (n, { s.cvc with outer_car := a, outerSignature := b })) := by
  rw [cvcDecodeContainer_withOuter]
  cases h1 : cvcDecodeContainer s0 with
  | none => rfl
  | some s1 =>
    simp only [Option.map_some', Option.some_bind]
    rw [cvcDecodeProfile_withOuter]
    cases h2 : cvcDecodeProfile s1 with
    | none => rfl
    | some s2 =>
      simp only [Option.map_some', Option.some_bind]
      rw [cvcDecodeHolder_withOuter]
      cases h3 : cvcDecodeHolder s2 with
      | none => rfl
      | some s3 =>
        simp only [Option.map_some', Option.some_bind]
        rw [cvcDecodeExtensions_withOuter]
        cases h4 : cvcDecodeExtensions s3 with
        | none => rfl
        | some s4 =>
          simp only [Option.map_some', Option.some_bind]
          rw [cvcDecodePublicKey_withOuter]
          cases h5 : cvcDecodePublicKey s4 with
          | none => rfl
          | some s5 => rfl

/-- Claim C2: for every bare certificate `B` (one element with outer tag 0x7F21)
on which `cvcDecode` succeeds with record `r`, and every outer authority
reference `c` and outer signature `s`, `cvcDecode` of the request
`67{ B, 42 c, 5F37 s }` succeeds too; its record is `r` in every body field,
with `outer_car = c` and `outerSignature = s` in addition (both are absent
in `r`).  The request is taken to fit an `int` length. -/
theorem cvcDecode_requestOf (B body c s : List Nat) (n : Nat) (r : cvc)
    (hB : asn1Next B = some ⟨0x7F21, body, []⟩)
    (hdec : cvcDecode B = some (n, r))
    (hsize : (requestOf B c s).length < 2 ^ 31) :
    r.outer_car = none ∧ r.outerSignature = none ∧
    cvcDecode (requestOf B c s) =
      some ((requestOf B c s).length,
        { r with outer_car := some c, outerSignature := some s }) := by
  -- the certificate alone
  have hval : asn1Validate B = 0 := by
    by_contra hne
    have : cvcDecodeOuter B = none := by simp [cvcDecodeOuter, hne]
    rw [cvcDecode_eq, this] at hdec
    simp at hdec
  have hOutB : cvcDecodeOuter B = some ⟨{}, B.length, body, body⟩ := by
    simp [cvcDecodeOuter, hval, hB]
  rw [cvcDecode_of_outer B _ hOutB] at hdec
  -- sizes
  have e1 := length_lt_tlv 0x67 (B ++ (tlv 0x42 c ++ tlv 0x5F37 s))
  have e2 := length_lt_tlv 0x42 c
  have e3 := length_lt_tlv 0x5F37 s
  unfold requestOf at hsize
  simp only [List.length_append] at e1
  have hc : c.length < 2 ^ 32 := by omega
  have hs : s.length < 2 ^ 32 := by omega
  have hX : (B ++ (tlv 0x42 c ++ tlv 0x5F37 s)).length < 2 ^ 32 := by
    simp only [List.length_append]; omega
  -- the request is valid
  have vX : asn1Validate (B ++ (tlv 0x42 c ++ tlv 0x5F37 s)) = 0 :=
    asn1Validate_append _ _ hval
      (asn1Validate_append _ _ (asn1Validate_tlv_primitive _ (by decide) _ hc (by decide))
        (asn1Validate_tlv_primitive _ (by decide) _ hs (by decide)))
  have vR : asn1Validate (requestOf B c s) = 0 :=
    asn1Validate_tlv _ (by decide) _ hX (fun _ => vX)
  -- the outer stage on the request
  have hOutR : cvcDecodeOuter (requestOf B c s) =
      some (withOuter (some c) (some s) (requestOf B c s).length
        ⟨{}, B.length, body, body⟩) := by
    have h1 := asn1Next_append B (tlv 0x42 c ++ tlv 0x5F37 s) _ hB
    simp only [List.nil_append] at h1
    unfold cvcDecodeOuter
    rw [vR]
    unfold requestOf
    simp [asn1Next_tlv 0x67 (by decide) _ hX, h1, asn1Next_tlv_append 0x42 (by decide) _ hc,
      asn1Next_tlv 0x5F37 (by decide) _ hs, withOuter]
  rw [cvcDecode_of_outer _ _ hOutR, cvcDecode_withOuter]
  cases h5 : ((((cvcDecodeContainer ⟨{}, B.length, body, body⟩).bind cvcDecodeProfile).bind
        cvcDecodeHolder).bind cvcDecodeExtensions).bind cvcDecodePublicKey with
  | none => rw [h5] at hdec; simp at hdec
  | some s5 =>
    rw [h5] at hdec
    simp only [Option.map_some', Option.some.injEq, Prod.mk.injEq] at hdec
    obtain ⟨_, hr⟩ := hdec
    subst hr
    have hh := cvcDecode_withOuter none none B.length ⟨{}, B.length, body, body⟩
    have hw : withOuter none none B.length ⟨{}, B.length, body, body⟩ =
        ⟨{}, B.length, body, body⟩ := rfl
    rw [hw, h5] at hh
    simp only [Option.map_some', Option.some.injEq, Prod.mk.injEq] at hh
    have ha := congrArg cvc.outer_car hh.2
    have hb := congrArg cvc.outerSignature hh.2
    simp only at ha hb
    exact ⟨ha, hb, rfl⟩

theorem asn1TagLoop_length : ∀ (l : List Nat) (rc : Nat), (asn1TagLoop rc l).2.length ≤ l.length := by
  intro l
  induction l with
  | nil => intro rc; simp [asn1TagLoop]
  | cons x t ih =>
    intro rc
    simp only [asn1TagLoop]
    split_ifs
    · have := ih (rc * 256 + x)
      simp only [List.length_cons]; omega
    · simp

theorem asn1Tag_length (l : List Nat) (hl : l ≠ []) : (asn1Tag l).2.length < l.length := by
  cases l with
  | nil => exact absurd rfl hl
  | cons x t =>
    simp only [asn1Tag]
    split_ifs
    · have := asn1TagLoop_length t x
      simp only [List.length_cons]; omega
    · simp

theorem asn1Length_length (r : List Nat) (len : Nat) (r2 : List Nat)
    (h : asn1Length r = some (len, r2)) : r2.length < r.length := by
  cases r with
  | nil => simp [asn1Length] at h
  | cons l t =>
    simp only [asn1Length] at h
    split_ifs at h with h1 h2 h3
    · simp only [Option.some.injEq, Prod.mk.injEq] at h
      rw [← h.2]; simp
    · simp only [Option.some.injEq, Prod.mk.injEq] at h
      rw [← h.2]; simp only [List.length_drop, List.length_cons]; omega

/-- What a successful `asn1Next` has read. -/
theorem asn1Next_some (ref : List Nat) (e : Asn1Elem) (h : asn1Next ref = some e) :
    ∃ len r2, asn1Length (asn1Tag ref).2 = some (len, r2) ∧ len ≤ r2.length ∧
      e.tag = (asn1Tag ref).1 ∧ e.value = r2.take len ∧ e.rest = r2.drop len ∧ ref ≠ [] := by
  cases ref with
  | nil => simp [asn1Next] at h
  | cons x t =>
    simp only [asn1Next] at h
    cases hl : asn1Length (asn1Tag (x :: t)).2 with
    | none => simp [hl] at h
    | some lr =>
      obtain ⟨len, r2⟩ := lr
      rw [hl] at h
      simp only at h
      split_ifs at h with h1
      simp only [Option.some.injEq] at h
      subst h
      exact ⟨len, r2, rfl, by omega, rfl, rfl, rfl, by simp⟩

theorem withOuter_self (s : DecodeState) :
    withOuter s.cvc.outer_car s.cvc.outerSignature s.certlen s = s := rfl

/-- A successful `cvcDecode` has passed `cvcDecodeOuter`, and returns the
`certlen` computed there. -/
theorem cvcDecode_some_outer (cert : List Nat) (n : Nat) (r : cvc)
    (h : cvcDecode cert = some (n, r)) :
    ∃ s0, cvcDecodeOuter cert = some s0 ∧ n = s0.certlen := by
  cases h0 : cvcDecodeOuter cert with
  | none => rw [cvcDecode_eq, h0] at h; simp at h
  | some s0 =>
    refine ⟨s0, rfl, ?_⟩
    rw [cvcDecode_of_outer cert s0 h0] at h
    have hh := cvcDecode_withOuter s0.cvc.outer_car s0.cvc.outerSignature s0.certlen s0
    rw [withOuter_self, h] at hh
    cases h5 : ((((cvcDecodeContainer s0).bind cvcDecodeProfile).bind
        cvcDecodeHolder).bind cvcDecodeExtensions).bind cvcDecodePublicKey with
    | none => rw [h5] at hh; simp at hh
    | some s5 =>
      rw [h5] at hh
      simp only [Option.map_some', Option.some.injEq, Prod.mk.injEq] at hh
      exact hh.1

theorem cvcDecodeOuter_some (cert : List Nat) (s0 : DecodeState)
    (h : cvcDecodeOuter cert = some s0) :
    asn1Validate cert = 0 ∧
    ∃ e0, asn1Next cert = some e0 ∧ s0.certlen = cert.length - e0.rest.length ∧
      (e0.tag = 0x67 ∨ e0.tag = 0x7F21) := by
  unfold cvcDecodeOuter at h
  split_ifs at h with hv
  refine ⟨by simpa using hv, ?_⟩
  cases h0 : asn1Next cert with
  | none => simp [h0] at h
  | some e0 =>
    refine ⟨e0, rfl, ?_⟩
    rw [h0] at h
    simp only at h
    split_ifs at h with h67 h21
    · refine ⟨?_, Or.inl h67⟩
      revert h
      repeat' split
      all_goals simp
      all_goals (intro hs; subst hs; rfl)
    · simp only [Option.some.injEq] at h
      subst h
      exact ⟨rfl, Or.inr (by simpa using h21)⟩

theorem toInt32_of_lt (n : Nat) (h : n < 2 ^ 31) : toInt32 n = n := by
  unfold toInt32
  have : n % 2 ^ 32 = n := Nat.mod_eq_of_lt (by omega)
  rw [this, if_pos h]

/-- Claim C3: on every buffer on which `cvcDecode` succeeds, the returned count is
the size of the first (outer) element of the buffer: its tag bytes plus its
length bytes plus its content bytes.  It is greater than 0 and not greater
than the length of the buffer; for a buffer shorter than `2^31` bytes, where
the cast `(int)certlen` is exact, the `int` returned is this count and so
differs from the failure value -1. -/
theorem cvcDecode_count (cert : List Nat) (n : Nat) (r : cvc)
    (h : cvcDecode cert = some (n, r)) :
    ∃ len r2, asn1Length (asn1Tag cert).2 = some (len, r2) ∧
      n = (cert.length - (asn1Tag cert).2.length) + ((asn1Tag cert).2.length - r2.length) + len ∧
      0 < cert.length - (asn1Tag cert).2.length ∧ 0 < (asn1Tag cert).2.length - r2.length ∧
      0 < n ∧ n ≤ cert.length ∧
      (cert.length < 2 ^ 31 → cvcDecodeReturn cert = (n : Int) ∧ cvcDecodeReturn cert ≠ -1) := by
  obtain ⟨s0, h0, hn⟩ := cvcDecode_some_outer cert n r h
  obtain ⟨_, e0, he0, hc, _⟩ := cvcDecodeOuter_some cert s0 h0
  obtain ⟨len, r2, hl, hle, _, _, hrest, hne⟩ := asn1Next_some cert e0 he0
  have h1 := asn1Tag_length cert hne
  have h2 := asn1Length_length _ len r2 hl
  have h3 : e0.rest.length = r2.length - len := by rw [hrest]; simp
  have hn' : n = (cert.length - (asn1Tag cert).2.length) +
      ((asn1Tag cert).2.length - r2.length) + len := by omega
  refine ⟨len, r2, hl, hn', by omega, by omega, by omega, by omega, ?_⟩
  intro hlen
  have hret : cvcDecodeReturn cert = (n : Int) := by
    unfold cvcDecodeReturn
    rw [h]
    exact toInt32_of_lt n (by omega)
  refine ⟨hret, ?_⟩
  rw [hret]
  omega

theorem asn1NextTag_some (T : Nat) (po : List Nat) (e : Asn1Elem)
    (h : asn1NextTag T po = some e) : asn1Next po = some e ∧ e.tag = T := by
  unfold asn1NextTag at h
  cases h1 : asn1Next po with
  | none => simp [h1] at h
  | some e1 =>
    rw [h1] at h
    simp only at h
    split_ifs at h with ht
    simp only [Option.some.injEq] at h
    subst h
    exact ⟨rfl, by simpa using ht⟩

theorem asn1NextTag_eq_some (T : Nat) (po : List Nat) (e : Asn1Elem)
    (h : asn1Next po = some e) (ht : e.tag = T) : asn1NextTag T po = some e := by
  simp [asn1NextTag, h, ht]

theorem asn1NextTag_eq_none (T : Nat) (po : List Nat)
    (h : ∀ e, asn1Next po = some e → e.tag ≠ T) : asn1NextTag T po = none := by
  unfold asn1NextTag
  cases h1 : asn1Next po with
  | none => rfl
  | some e => simp [h e h1]

theorem cvcDecodeContainer_some (s s' : DecodeState) (h : cvcDecodeContainer s = some s') :
    ∃ e1 e2, asn1Next s.po = some e1 ∧ e1.tag = 0x7F4E ∧ asn1Next e1.rest = some e2 ∧
      e2.tag = 0x5F37 ∧ e2.rest = [] ∧
      s' = { s with cvc := { s.cvc with signature := some e2.value },
                    po := e1.value, children := e1.value } := by
  unfold cvcDecodeContainer at h
  cases h1 : asn1Next s.po with
  | none => simp [h1] at h
  | some e1 =>
    rw [h1] at h
    simp only at h
    split_ifs at h with ht1
    cases h2 : asn1Next e1.rest with
    | none => simp [h2] at h
    | some e2 =>
      rw [h2] at h
      simp only at h
      split_ifs at h with ht2 hr
      simp only [Option.some.injEq] at h
      exact ⟨e1, e2, rfl, by simpa using ht1, h2, by simpa using ht2, by simpa using hr, h.symm⟩

theorem cvcDecodeProfile_some (s s' : DecodeState) (h : cvcDecodeProfile s = some s') :
    ∃ e k, asn1Next s.po = some e ∧ e.tag = 0x5F29 ∧ (e.value ++ e.rest).head? = some 0 ∧
      k.tag = 0x7F49 ∧ s'.po = k.rest ∧ s'.children = k.value ∧ s'.certlen = s.certlen ∧
      (((asn1Tag e.rest).1 ≠ 0x42 ∧ asn1Next e.rest = some k ∧ s'.cvc = s.cvc) ∨
       ((asn1Tag e.rest).1 = 0x42 ∧ ∃ c, asn1Next e.rest = some c ∧ asn1Next c.rest = some k ∧
          s'.cvc = { s.cvc with car := some c.value })) := by
  unfold cvcDecodeProfile at h
  cases h1 : asn1Next s.po with
  | none => simp [h1] at h
  | some e =>
    rw [h1] at h
    simp only at h
    by_cases ht : e.tag ≠ 0x5F29
    · rw [if_pos ht] at h
      simp at h
    rw [if_neg ht] at h
    cases hv : e.value ++ e.rest with
    | nil => simp [hv] at h
    | cons v vs =>
      rw [hv] at h
      simp only at h
      by_cases hv0 : v ≠ 0
      · rw [if_pos hv0] at h
        simp at h
      rw [if_neg hv0] at h
      have hv0' : v = 0 := by simpa using hv0
      by_cases hp : (asn1Tag e.rest).1 = 0x42
      · rw [if_pos hp] at h
        cases hc : asn1Next e.rest with
        | none => simp [hc] at h
        | some c =>
          rw [hc] at h
          simp only at h
          cases hk : asn1Next c.rest with
          | none => simp [hk] at h
          | some k =>
            rw [hk] at h
            simp only at h
            split_ifs at h with hkt
            simp only [Option.some.injEq] at h
            subst h
            exact ⟨e, k, rfl, by simpa using ht, by rw [hv, hv0']; rfl, by simpa using hkt, rfl, rfl,
              rfl, Or.inr ⟨hp, c, hc, hk, rfl⟩⟩
      · rw [if_neg hp] at h
        simp only at h
        cases hk : asn1Next e.rest with
        | none => simp [hk] at h
        | some k =>
          rw [hk] at h
          simp only at h
          split_ifs at h with hkt
          simp only [Option.some.injEq] at h
          subst h
          exact ⟨e, k, rfl, by simpa using ht, by rw [hv, hv0']; rfl, by simpa using hkt, rfl, rfl,
            rfl, Or.inl ⟨hp, hk, rfl⟩⟩

theorem cvcOptional_some (T : Nat) (po : List Nat) (v : bytestring_s) (po' : List Nat)
    (h : cvcOptional T po = some (v, po')) :
    (v = none ∧ po' = po ∧ ¬ (po ≠ [] ∧ (asn1Tag po).1 = T)) ∨
    (po ≠ [] ∧ (asn1Tag po).1 = T ∧ ∃ e, asn1Next po = some e ∧ v = some e.value ∧ po' = e.rest) := by
  unfold cvcOptional at h
  split_ifs at h with hc
  · cases h1 : asn1Next po with
    | none => simp [h1] at h
    | some e =>
      rw [h1] at h
      simp only [Option.some.injEq, Prod.mk.injEq] at h
      exact Or.inr ⟨hc.1, hc.2, e, rfl, h.1.symm, h.2.symm⟩
  · simp only [Option.some.injEq, Prod.mk.injEq] at h
    exact Or.inl ⟨h.1.symm, h.2.symm, hc⟩

theorem cvcDecodeHolder_some (s s' : DecodeState) (h : cvcDecodeHolder s = some s') :
    ∃ hd chat po1 ced po2 cxd po3, asn1Next s.po = some hd ∧ hd.tag = 0x5F20 ∧
      cvcOptional 0x7F4C hd.rest = some (chat, po1) ∧
      cvcOptional 0x5F25 po1 = some (ced, po2) ∧
      cvcOptional 0x5F24 po2 = some (cxd, po3) ∧
      s' = { s with
              cvc := { s.cvc with
                        chr := some hd.value
                        chat := if chat.isSome then chat else s.cvc.chat
                        ced := if ced.isSome then ced else s.cvc.ced
                        cxd := if cxd.isSome then cxd else s.cvc.cxd }
              po := po3 } := by
  unfold cvcDecodeHolder at h
  cases h1 : asn1Next s.po with
  | none => simp [h1] at h
  | some hd =>
    rw [h1] at h
    simp only at h
    split_ifs at h with ht
    cases h2 : cvcOptional 0x7F4C hd.rest with
    | none => simp [h2] at h
    | some a =>
      obtain ⟨chat, po1⟩ := a
      rw [h2] at h
      simp only at h
      cases h3 : cvcOptional 0x5F25 po1 with
      | none => simp [h3] at h
      | some b =>
        obtain ⟨ced, po2⟩ := b
        rw [h3] at h
        simp only at h
        cases h4 : cvcOptional 0x5F24 po2 with
        | none => simp [h4] at h
        | some c =>
          obtain ⟨cxd, po3⟩ := c
          rw [h4] at h
          simp only [Option.some.injEq] at h
          exact ⟨hd, chat, po1, ced, po2, cxd, po3, rfl, by simpa using ht, h2, h3, h4, h.symm⟩

theorem cvcDecodeExtensions_some (s s' : DecodeState) (h : cvcDecodeExtensions s = some s') :
    (s.po = [] ∧ s' = { s with po := s.children }) ∨
    (s.po ≠ [] ∧ ∃ x, asn1Next s.po = some x ∧ x.tag = 0x65 ∧ x.rest = [] ∧
      s' = { s with cvc := { s.cvc with extensions := some x.value }, po := s.children }) := by
  unfold cvcDecodeExtensions at h
  split_ifs at h with hp
  · cases h1 : asn1Next s.po with
    | none => simp [h1] at h
    | some x =>
      rw [h1] at h
      simp only at h
      split_ifs at h with ht hr
      simp only [Option.some.injEq] at h
      exact Or.inr ⟨hp, x, rfl, by simpa using ht, by simpa using hr, h.symm⟩
  · simp only [Option.some.injEq] at h
    exact Or.inl ⟨by simpa using hp, h.symm⟩

theorem cvcDecodePublicKey_some (s s' : DecodeState) (h : cvcDecodePublicKey s = some s') :
    ∃ o, asn1Next s.po = some o ∧ o.tag = 0x06 ∧
      ((o.rest ≠ [] ∧ (asn1Tag o.rest).1 = 0x86 ∧ ∃ p, asn1Next o.rest = some p ∧ p.tag = 0x86 ∧
          s'.cvc = { s.cvc with pukoid := some o.value, publicPoint := some p.value }) ∨
       (¬ (o.rest ≠ [] ∧ (asn1Tag o.rest).1 = 0x86) ∧
          ∃ e81 e82, asn1Next o.rest = some e81 ∧ e81.tag = 0x81 ∧
            asn1Next e81.rest = some e82 ∧ e82.tag = 0x82 ∧
            ((e82.rest = [] ∧
                s'.cvc = { s.cvc with pukoid := some o.value
                                      primeOrModulus := some e81.value
                                      coefficientAorExponent := some e82.value }) ∨
             (e82.rest ≠ [] ∧ ∃ e83 e84 e85 e86 e87,
                asn1Next e82.rest = some e83 ∧ e83.tag = 0x83 ∧
                asn1Next e83.rest = some e84 ∧ e84.tag = 0x84 ∧
                asn1Next e84.rest = some e85 ∧ e85.tag = 0x85 ∧
                asn1Next e85.rest = some e86 ∧ e86.tag = 0x86 ∧
                asn1Next e86.rest = some e87 ∧ e87.tag = 0x87 ∧
                s'.cvc = { s.cvc with pukoid := some o.value
                                      primeOrModulus := some e81.value
                                      coefficientAorExponent := some e82.value
                                      coefficientB := some e83.value
                                      basePointG := some e84.value
                                      order := some e85.value
                                      publicPoint := some e86.value
                                      cofactor := some e87.value })))) := by
  unfold cvcDecodePublicKey at h
  cases h1 : asn1NextTag 0x06 s.po with
  | none => simp [h1] at h
  | some o =>
    rw [h1] at h
    simp only at h
    obtain ⟨ho, hot⟩ := asn1NextTag_some _ _ _ h1
    refine ⟨o, ho, hot, ?_⟩
    by_cases hp : o.rest ≠ [] ∧ (asn1Tag o.rest).1 = 0x86
    · rw [if_pos hp] at h
      cases h2 : asn1NextTag 0x86 o.rest with
      | none => simp [h2] at h
      | some p =>
        rw [h2] at h
        simp only [Option.some.injEq] at h
        obtain ⟨hpn, hpt⟩ := asn1NextTag_some _ _ _ h2
        subst h
        exact Or.inl ⟨hp.1, hp.2, p, hpn, hpt, rfl⟩
    · rw [if_neg hp] at h
      refine Or.inr ⟨hp, ?_⟩
      cases h81 : asn1NextTag 0x81 o.rest with
      | none => simp [h81] at h
      | some e81 =>
        rw [h81] at h
        simp only at h
        cases h82 : asn1NextTag 0x82 e81.rest with
        | none => simp [h82] at h
        | some e82 =>
          rw [h82] at h
          simp only at h
          obtain ⟨hn81, ht81⟩ := asn1NextTag_some _ _ _ h81
          obtain ⟨hn82, ht82⟩ := asn1NextTag_some _ _ _ h82
          refine ⟨e81, e82, hn81, ht81, hn82, ht82, ?_⟩
          by_cases hr : e82.rest ≠ []
          · rw [if_pos hr] at h
            refine Or.inr ⟨hr, ?_⟩
            cases h83 : asn1NextTag 0x83 e82.rest with
            | none => simp [h83] at h
            | some e83 =>
              rw [h83] at h
              simp only at h
              cases h84 : asn1NextTag 0x84 e83.rest with
              | none => simp [h84] at h
              | some e84 =>
                rw [h84] at h
                simp only at h
                cases h85 : asn1NextTag 0x85 e84.rest with
                | none => simp [h85] at h
                | some e85 =>
                  rw [h85] at h
                  simp only at h
                  cases h86 : asn1NextTag 0x86 e85.rest with
                  | none => simp [h86] at h
                  | some e86 =>
                    rw [h86] at h
                    simp only at h
                    cases h87 : asn1NextTag 0x87 e86.rest with
                    | none => simp [h87] at h
                    | some e87 =>
                      rw [h87] at h
                      simp only [Option.some.injEq] at h
                      obtain ⟨hn83, ht83⟩ := asn1NextTag_some _ _ _ h83
                      obtain ⟨hn84, ht84⟩ := asn1NextTag_some _ _ _ h84
                      obtain ⟨hn85, ht85⟩ := asn1NextTag_some _ _ _ h85
                      obtain ⟨hn86, ht86⟩ := asn1NextTag_some _ _ _ h86
                      obtain ⟨hn87, ht87⟩ := asn1NextTag_some _ _ _ h87
                      subst h
                      exact ⟨e83, e84, e85, e86, e87, hn83, ht83, hn84, ht84, hn85, ht85,
                        hn86, ht86, hn87, ht87, rfl⟩
          · rw [if_neg hr] at h
            simp only [Option.some.injEq] at h
            subst h
            exact Or.inl ⟨by simpa using hr, rfl⟩

/-- The stages before the public key leave the public key fields zeroed and
keep the cursor `children` that `cvcDecodeProfile` has set. -/
theorem cvcDecodeToKey_keyFields (cert : List Nat) (s3 : DecodeState)
    (h : cvcDecodeToKey cert = some s3) : keyFields s3.cvc = keyFields {} := by
  unfold cvcDecodeToKey at h
  cases h1 : cvcDecodeOuter cert with
  | none => simp [h1] at h
  | some s1 =>
    rw [h1] at h
    simp only [Option.some_bind] at h
    cases h2 : cvcDecodeContainer s1 with
    | none => simp [h2] at h
    | some s2 =>
      rw [h2] at h
      simp only [Option.some_bind] at h
      have k1 : keyFields s1.cvc = keyFields {} := by
        unfold cvcDecodeOuter at h1
        revert h1
        repeat' split
        all_goals simp
        all_goals (intro hs; subst hs; rfl)
      obtain ⟨e1, e2, _, _, _, _, _, hs2⟩ := cvcDecodeContainer_some s1 s2 h2
      have k2 : keyFields s2.cvc = keyFields s1.cvc := by subst hs2; rfl
      obtain ⟨e, k, _, _, _, _, _, _, _, hcase⟩ := cvcDecodeProfile_some s2 s3 h
      have k3 : keyFields s3.cvc = keyFields s2.cvc := by
        rcases hcase with ⟨_, _, hc⟩ | ⟨_, c, _, _, hc⟩
        · rw [hc]
        · rw [hc]; rfl
      rw [k3, k2, k1]

theorem cvcDecodeToPublicKey_eq (cert : List Nat) :
    cvcDecodeToPublicKey cert = (cvcDecodeToExtensions cert).bind cvcDecodeExtensions := rfl

theorem cvcDecodeToPublicKey_some (cert : List Nat) (s5 : DecodeState)
    (h : cvcDecodeToPublicKey cert = some s5) :
    ∃ s3 s4, cvcDecodeToKey cert = some s3 ∧ cvcDecodeHolder s3 = some s4 ∧
      cvcDecodeExtensions s4 = some s5 ∧ s5.po = s3.children ∧
      keyFields s5.cvc = keyFields {} := by
  unfold cvcDecodeToPublicKey cvcDecodeToExtensions at h
  cases h3 : cvcDecodeToKey cert with
  | none => simp [h3] at h
  | some s3 =>
    rw [h3] at h
    simp only [Option.some_bind] at h
    cases h4 : cvcDecodeHolder s3 with
    | none => simp [h4] at h
    | some s4 =>
      rw [h4] at h
      simp only [Option.some_bind] at h
      refine ⟨s3, s4, rfl, h4, h, ?_⟩
      have k3 := cvcDecodeToKey_keyFields cert s3 h3
      obtain ⟨hd, chat, po1, ced, po2, cxd, po3, _, _, _, _, _, hs4⟩ :=
        cvcDecodeHolder_some s3 s4 h4
      have k4 : keyFields s4.cvc = keyFields s3.cvc := by subst hs4; rfl
      have c4 : s4.children = s3.children := by subst hs4; rfl
      rcases cvcDecodeExtensions_some s4 s5 h with ⟨_, hs5⟩ | ⟨_, x, _, _, _, hs5⟩
      · subst hs5
        exact ⟨c4, by rw [← k3, ← k4]⟩
      · subst hs5
        exact ⟨c4, by rw [← k3, ← k4]; rfl⟩

theorem cvcDecode_none_of_outer (cert : List Nat) (h : cvcDecodeOuter cert = none) :
    cvcDecode cert = none := by
  rw [cvcDecode_eq, h]; rfl

theorem cvcDecode_some_publicKey (cert : List Nat) (n : Nat) (r : cvc)
    (h : cvcDecode cert = some (n, r)) :
    ∃ s5 s6, cvcDecodeToPublicKey cert = some s5 ∧ cvcDecodePublicKey s5 = some s6 ∧
      r = s6.cvc ∧ n = s6.certlen := by
  unfold cvcDecode at h
  cases h5 : cvcDecodeToPublicKey cert with
  | none => simp [h5] at h
  | some s5 =>
    rw [h5] at h
    simp only [Option.some_bind] at h
    cases h6 : cvcDecodePublicKey s5 with
    | none => simp [h6] at h
    | some s6 =>
      rw [h6] at h
      simp only [Option.map_some', Option.some.injEq, Prod.mk.injEq] at h
      exact ⟨s5, s6, rfl, h6, h.2.symm, h.1.symm⟩

/-- Claim C4: `cvcDecode` fails on every buffer whose outer tag is neither 0x67 nor
0x7F21, and on every buffer whose outer tag is 0x67 when the first element
nested in the request does not have the tag 0x7F21 (or cannot be read).  It
holds for valid and for invalid buffers alike. -/
theorem cvcDecode_outer_tag (cert : List Nat) (e : Asn1Elem) (h : asn1Next cert = some e)
    (htag : (e.tag ≠ 0x67 ∧ e.tag ≠ 0x7F21) ∨
      (e.tag = 0x67 ∧ ∀ e1, asn1Next e.value = some e1 → e1.tag ≠ 0x7F21)) :
    cvcDecode cert = none := by
  apply cvcDecode_none_of_outer
  unfold cvcDecodeOuter
  split_ifs with hv
  · rfl
  · rw [h]
    simp only
    rcases htag with ⟨h67, h21⟩ | ⟨h67, hall⟩
    · rw [if_neg h67, if_pos h21]
    · rw [if_pos h67]
      cases h1 : asn1Next e.value with
      | none => rfl
      | some e1 =>
        have ht1 := hall e1 h1
        simp only
        cases h2 : asn1Next e1.rest with
        | none => rfl
        | some e2 =>
          simp only
          cases h3 : asn1Next e2.rest with
          | none => split_ifs <;> rfl
          | some e3 =>
            simp only
            split_ifs <;> rfl

/-- Claim C5: `cvcDecode` fails on every certificate whose holder reference is
missing: behind the public key container 0x7F49 the certificate body ends,
or the element that follows has a tag other than 0x5F20. -/
theorem cvcDecode_holder_missing (cert : List Nat) (s3 : DecodeState)
    (h3 : cvcDecodeToKey cert = some s3)
    (hmiss : s3.po = [] ∨ ∃ e, asn1Next s3.po = some e ∧ e.tag ≠ 0x5F20) :
    cvcDecode cert = none := by
  have hH : cvcDecodeHolder s3 = none := by
    unfold cvcDecodeHolder
    rcases hmiss with hnil | ⟨e, he, ht⟩
    · rw [hnil]; rfl
    · rw [he]
      simp only
      rw [if_pos ht]
  simp [cvcDecode, cvcDecodeToPublicKey, cvcDecodeToExtensions, h3, hH]

/-- Claim C6: `cvcDecode` fails on every input in which bytes remain (a) behind the
signature 0x5F37 inside the container 0x7F21, (b) behind the extensions
0x65 inside the certificate body 0x7F4E, or (c) behind the outer signature
0x5F37 inside a request 0x67. -/
theorem cvcDecode_trailing (cert : List Nat)
    (h : (∃ s1 e1 e2, cvcDecodeOuter cert = some s1 ∧ asn1Next s1.po = some e1 ∧
            asn1Next e1.rest = some e2 ∧ e2.tag = 0x5F37 ∧ e2.rest ≠ []) ∨
         (∃ s4 x, cvcDecodeToExtensions cert = some s4 ∧ asn1Next s4.po = some x ∧
            x.tag = 0x65 ∧ x.rest ≠ []) ∨
         (∃ e0 e1 e2 e3, asn1Next cert = some e0 ∧ e0.tag = 0x67 ∧
            asn1Next e0.value = some e1 ∧ asn1Next e1.rest = some e2 ∧
            asn1Next e2.rest = some e3 ∧ e3.tag = 0x5F37 ∧ e3.rest ≠ [])) :
    cvcDecode cert = none := by
  rcases h with ⟨s1, e1, e2, h1, he1, he2, _, hr⟩ | ⟨s4, x, h4, hx, _, hr⟩ |
    ⟨e0, e1, e2, e3, he0, ht0, he1, he2, he3, _, hr⟩
  · have hC : cvcDecodeContainer s1 = none := by
      unfold cvcDecodeContainer
      rw [he1]
      simp only
      rw [he2]
      simp only
      split_ifs <;> rfl
    rw [cvcDecode_of_outer cert s1 h1, hC]
    rfl
  · have hE : cvcDecodeExtensions s4 = none := by
      unfold cvcDecodeExtensions
      have hne : s4.po ≠ [] := by
        intro h0
        rw [h0] at hx
        simp [asn1Next] at hx
      rw [if_pos hne, hx]
      simp only
      split_ifs <;> rfl
    simp [cvcDecode, cvcDecodeToPublicKey, h4, hE]
  · apply cvcDecode_none_of_outer
    unfold cvcDecodeOuter
    split_ifs with hv
    · rfl
    · rw [he0]
      simp only
      rw [if_pos ht0, he1]
      simp only
      rw [he2]
      simp only
      rw [he3]
      simp only
      split_ifs <;> rfl

theorem keyFields_nil (r : cvc) (h : keyFields r = keyFields {}) :
    r.pukoid = none ∧ r.primeOrModulus = none ∧ r.coefficientAorExponent = none ∧
      r.coefficientB = none ∧ r.basePointG = none ∧ r.order = none ∧ r.publicPoint = none ∧
      r.cofactor = none := by
  simpa [keyFields] using h

/-- Claim C7: on every buffer on which `cvcDecode` succeeds the record has exactly
one of the two public key shapes: the public point alone (EC by reference), or
`primeOrModulus` and `coefficientAorExponent` with `coefficientB`,
`basePointG`, `order`, `publicPoint`, `cofactor` all present or all absent.
The first shape is taken exactly when the tag read behind the algorithm
identifier 0x06 of the public key container is 0x86. -/
theorem cvcDecode_key_shape (cert : List Nat) (n : Nat) (r : cvc)
    (h : cvcDecode cert = some (n, r)) :
    ∃ s3 o, cvcDecodeToKey cert = some s3 ∧ asn1Next s3.children = some o ∧ o.tag = 0x06 ∧
      r.pukoid = some o.value ∧
      ((keyByReference r ∧ ¬ keyExplicit r) ∨ (keyExplicit r ∧ ¬ keyByReference r)) ∧
      (keyByReference r ↔ (asn1Tag o.rest).1 = 0x86) ∧
      (keyExplicit r ↔ (asn1Tag o.rest).1 ≠ 0x86) := by
  obtain ⟨s5, s6, h5, h6, hr, _⟩ := cvcDecode_some_publicKey cert n r h
  obtain ⟨s3, s4, h3, _, _, hpo, hk⟩ := cvcDecodeToPublicKey_some cert s5 h5
  obtain ⟨k1, k2, k3, k4, k5, k6, k7, k8⟩ := keyFields_nil _ hk
  obtain ⟨o, ho, hot, hcase⟩ := cvcDecodePublicKey_some s5 s6 h6
  rw [hpo] at ho
  refine ⟨s3, o, h3, ho, hot, ?_⟩
  rcases hcase with ⟨_, hp, p, _, _, hc⟩ | ⟨hnp, e81, e82, h81, _, _, _, hc⟩
  · have hR : keyByReference r := by
      rw [hr, hc]
      simp [keyByReference, k2, k3, k4, k5, k6, k8]
    have hE : ¬ keyExplicit r := fun hx => hx.1 hR.2.1
    refine ⟨by rw [hr, hc], Or.inl ⟨hR, hE⟩, ⟨fun _ => hp, fun _ => hR⟩, ?_⟩
    exact ⟨fun hx => absurd hx hE, fun hx => absurd hp hx⟩
  · have hne : o.rest ≠ [] := (asn1Next_some _ _ h81).choose_spec.choose_spec.2.2.2.2.2
    have hp : (asn1Tag o.rest).1 ≠ 0x86 := fun hx => hnp ⟨hne, hx⟩
    have hE : keyExplicit r := by
      rcases hc with ⟨_, hc⟩ | ⟨_, e83, e84, e85, e86, e87, _, _, _, _, _, _, _, _, _, _, hc⟩
      · rw [hr, hc]
        simp [keyExplicit, k4, k5, k6, k7, k8]
      · rw [hr, hc]
        simp [keyExplicit]
    have hR : ¬ keyByReference r := fun hx => hE.1 hx.2.1
    have hpuk : r.pukoid = some o.value := by
      rcases hc with ⟨_, hc⟩ | ⟨_, e83, e84, e85, e86, e87, _, _, _, _, _, _, _, _, _, _, hc⟩
      · rw [hr, hc]
      · rw [hr, hc]
    refine ⟨hpuk, Or.inr ⟨hE, hR⟩, ⟨fun hx => absurd hx hR, fun hx => absurd hx hp⟩, ?_⟩
    exact ⟨fun _ => hp, fun _ => hE⟩

/-- Claim C8: when the public key container holds 06, 81, 82 and at least one
further byte, `cvcDecode` fails unless the elements behind 0x82 begin with
the tags 0x83, 0x84, 0x85, 0x86, 0x87 in this order; so it fails when only
some of `coefficientB`, `basePointG`, `order`, `publicPoint`, `cofactor` are
supplied. -/
theorem cvcDecode_explicit_key_incomplete (cert : List Nat) (s3 : DecodeState)
    (o e81 e82 : Asn1Elem)
    (h3 : cvcDecodeToKey cert = some s3)
    (ho : asn1Next s3.children = some o) (hot : o.tag = 0x06)
    (h81 : asn1Next o.rest = some e81) (ht81 : e81.tag = 0x81)
    (h82 : asn1Next e81.rest = some e82) (ht82 : e82.tag = 0x82)
    (hmore : e82.rest ≠ [])
    (hbad : ¬ ∃ e83 e84 e85 e86 e87,
      asn1Next e82.rest = some e83 ∧ e83.tag = 0x83 ∧
      asn1Next e83.rest = some e84 ∧ e84.tag = 0x84 ∧
      asn1Next e84.rest = some e85 ∧ e85.tag = 0x85 ∧
      asn1Next e85.rest = some e86 ∧ e86.tag = 0x86 ∧
      asn1Next e86.rest = some e87 ∧ e87.tag = 0x87) :
    cvcDecode cert = none := by
  cases hd : cvcDecode cert with
  | none => rfl
  | some nr =>
    exfalso
    obtain ⟨n, r⟩ := nr
    obtain ⟨s5, s6, h5, h6, _, _⟩ := cvcDecode_some_publicKey cert n r hd
    obtain ⟨s3', s4, h3', _, _, hpo, _⟩ := cvcDecodeToPublicKey_some cert s5 h5
    rw [h3] at h3'
    simp only [Option.some.injEq] at h3'
    subst h3'
    obtain ⟨o', ho', _, hcase⟩ := cvcDecodePublicKey_some s5 s6 h6
    rw [hpo, ho] at ho'
    simp only [Option.some.injEq] at ho'
    subst ho'
    rcases hcase with ⟨_, hp, _⟩ | ⟨_, e81', e82', h81', _, h82', _, hc⟩
    · obtain ⟨_, _, _, _, htag, _⟩ := asn1Next_some _ _ h81
      rw [← htag, ht81] at hp
      exact absurd hp (by decide)
    · rw [h81] at h81'
      simp only [Option.some.injEq] at h81'
      subst h81'
      rw [h82] at h82'
      simp only [Option.some.injEq] at h82'
      subst h82'
      rcases hc with ⟨hnil, _⟩ | ⟨_, e83, e84, e85, e86, e87, a1, a2, a3, a4, a5, a6, a7, a8, a9,
        a10, _⟩
      · exact hmore hnil
      · exact hbad ⟨e83, e84, e85, e86, e87, a1, a2, a3, a4, a5, a6, a7, a8, a9, a10⟩

theorem bsCompare_eq_zero (s1 s2 : bytestring_s) :
    bsCompare s1 s2 = 0 ↔ s1.getD [] = s2.getD [] := by
  unfold bsCompare
  split_ifs with h <;> simp [h]

/-- What the loop of `cvcGetCurveForOID` returns is an entry it has passed, not
the terminator, with the content of the query as its identifier. -/
theorem cvcGetCurveForOIDFrom_some (q : bytestring_s) : ∀ (cs : List ec_curve) (e : ec_curve),
    cvcGetCurveForOIDFrom q cs = some e → e ∈ cs ∧ e.oid ≠ none ∧ e.oid.getD [] = q.getD [] := by
  intro cs
  induction cs with
  | nil => intro e h; simp [cvcGetCurveForOIDFrom] at h
  | cons c cs ih =>
    intro e h
    simp only [cvcGetCurveForOIDFrom] at h
    split_ifs at h with h1 h2
    · obtain ⟨hm, hr⟩ := ih e h
      exact ⟨List.mem_cons_of_mem _ hm, hr⟩
    · simp only [Option.some.injEq] at h
      subst h
      refine ⟨List.mem_cons_self _ _, h2, ?_⟩
      have : bsCompare c.oid q = 0 := by
        by_contra hne
        exact h1 ⟨h2, hne⟩
      exact (bsCompare_eq_zero _ _).1 this

/-- The loop of `cvcGetCurveForOID` returns NULL when no entry has the content of
the query as its identifier. -/
theorem cvcGetCurveForOIDFrom_none (q : bytestring_s) : ∀ (cs : List ec_curve),
    (∀ c ∈ cs, c.oid ≠ none → c.oid.getD [] ≠ q.getD []) → cvcGetCurveForOIDFrom q cs = none := by
  intro cs
  induction cs with
  | nil => intro _; rfl
  | cons c cs ih =>
    intro h
    simp only [cvcGetCurveForOIDFrom]
    split_ifs with h1 h2
    · exact ih fun c' hc' => h c' (List.mem_cons_of_mem _ hc')
    · rfl
    · exfalso
      have hne := h c (List.mem_cons_self _ _) h2
      apply h1
      refine ⟨h2, ?_⟩
      intro h0
      exact hne ((bsCompare_eq_zero _ _).1 h0)

theorem mem_curves (c : ec_curve) : c ∈ curves ↔ c ∈ knownCurves ∨ c = {} := by
  simp [curves]

theorem cvcGetCurveForOID_isSome (q : bytestring_s) (hq : q.getD [] ∈ knownOids) :
    (cvcGetCurveForOID q).isSome = true := by
  simp only [knownOids, knownCurves, List.map, List.mem_cons, List.mem_singleton] at hq
  unfold cvcGetCurveForOID
  simp only [List.not_mem_nil, or_false] at hq
  rcases hq with h | h | h | h | h | h | h | h <;>
    simp [curves, knownCurves, cvcGetCurveForOIDFrom, bsCompare, h, secp192r1, secp256r1,
      brainpoolP192r1, brainpoolP224r1, brainpoolP256r1, brainpoolP320r1, secp192k1, secp256k1]

theorem cvcGetCurveForOID_some (q : bytestring_s) (e : ec_curve)
    (h : cvcGetCurveForOID q = some e) :
    e ∈ knownCurves ∧ e.oid = some (q.getD []) ∧ q.getD [] ∈ knownOids := by
  obtain ⟨hm, hne, heq⟩ := cvcGetCurveForOIDFrom_some q curves e h
  have hk : e ∈ knownCurves := by
    rcases (mem_curves e).1 hm with hk | hk
    · exact hk
    · subst hk
      exact absurd rfl hne
  have ho : e.oid = some (q.getD []) := by
    cases hx : e.oid with
    | none => exact absurd hx hne
    | some b => rw [hx] at heq; simpa using heq
  refine ⟨hk, ho, ?_⟩
  rw [← heq]
  exact List.mem_map_of_mem (fun c => c.oid.getD []) hk

theorem cvcGetCurveForOID_eq_none (q : bytestring_s) (hq : q.getD [] ∉ knownOids) :
    cvcGetCurveForOID q = none := by
  cases h : cvcGetCurveForOID q with
  | none => rfl
  | some e => exact absurd (cvcGetCurveForOID_some q e h).2.2 hq

theorem knownOids_take : ∀ o ∈ knownOids, ∀ k, k < o.length → o.take k ∉ knownOids := by
  decide

theorem knownOids_append (o : List Nat) (ho : o ∈ knownOids) (x : List Nat) (hx : x ≠ []) :
    o ++ x ∉ knownOids := by
  simp only [knownOids, knownCurves, List.map, List.mem_cons, List.mem_singleton,
    List.not_mem_nil, or_false] at ho ⊢
  rcases ho with h | h | h | h | h | h | h | h <;>
    simp [h, hx, secp192r1, secp256r1,
      brainpoolP192r1, brainpoolP224r1, brainpoolP256r1, brainpoolP320r1, secp192k1, secp256k1]

/-- Claim C9: `cvcGetCurveForOID` returns a table entry if and only if the query is
byte for byte one of the 8 curve identifiers of the static table, and the
entry returned is a curve of the table whose identifier is the query; for
every other byte string it returns NULL, among them the absent and the empty
string, every proper initial part of a known identifier and every known
identifier with bytes appended. -/
theorem cvcGetCurveForOID_exact (q : bytestring_s) :
    ((∃ e, cvcGetCurveForOID q = some e) ↔ q.getD [] ∈ knownOids) ∧
    (∀ e, cvcGetCurveForOID q = some e → e ∈ knownCurves ∧ e.oid = some (q.getD [])) ∧
    (q.getD [] ∉ knownOids → cvcGetCurveForOID q = none) ∧
    knownCurves.length = 8 ∧ knownOids.length = 8 ∧
    cvcGetCurveForOID none = none ∧ cvcGetCurveForOID (some []) = none ∧
    (∀ o ∈ knownOids, ∀ k, k < o.length → cvcGetCurveForOID (some (o.take k)) = none) ∧
    (∀ o ∈ knownOids, ∀ x, x ≠ [] → cvcGetCurveForOID (some (o ++ x)) = none) := by
  refine ⟨⟨?_, ?_⟩, ?_, cvcGetCurveForOID_eq_none q, rfl, rfl, ?_, ?_, ?_, ?_⟩
  · rintro ⟨e, he⟩
    exact (cvcGetCurveForOID_some q e he).2.2
  · intro hq
    have := cvcGetCurveForOID_isSome q hq
    cases hx : cvcGetCurveForOID q with
    | none => rw [hx] at this; simp at this
    | some e => exact ⟨e, rfl⟩
  · intro e he
    exact ⟨(cvcGetCurveForOID_some q e he).1, (cvcGetCurveForOID_some q e he).2.1⟩
  · exact cvcGetCurveForOID_eq_none none (by decide)
  · exact cvcGetCurveForOID_eq_none (some []) (by decide)
  · intro o ho k hk
    exact cvcGetCurveForOID_eq_none _ (knownOids_take o ho k hk)
  · intro o ho x hx
    exact cvcGetCurveForOID_eq_none _ (knownOids_append o ho x hx)

/-- Claim C10: for each of the 8 curves of the static table, `cvcDetermineCurveOID`
on a record whose `primeOrModulus` is the prime of that curve returns 0 and
stores the identifier of that same curve; no two entries have equal primes or
equal identifiers, and `cvcGetCurveForOID` of the identifier is the same
entry again. -/
theorem cvcDetermineCurveOID_table :
    (∀ (i : Fin knownCurves.length) (r : cvc),
      cvcDetermineCurveOID { r with primeOrModulus := (knownCurves.get i).prime } =
        some (knownCurves.get i).oid) ∧
    (∀ i : Fin knownCurves.length,
      cvcGetCurveForOID (knownCurves.get i).oid = some (knownCurves.get i)) ∧
    (knownCurves.map fun c => c.prime).Nodup ∧ (knownCurves.map fun c => c.oid).Nodup ∧
    knownCurves.length = 8 := by
  refine ⟨?_, by decide, by decide, by decide, rfl⟩
  intro i r
  fin_cases i <;> rfl

/-- Witness for C1 with the holder reference "HOLDER01": the sample certificate of
50 bytes. -/
theorem cvcDecode_bareCertificate_witness :
    (bareCertificate sampleOid samplePoint holder01 sampleSignature).length < 2 ^ 31 ∧
    cvcDecode (bareCertificate sampleOid samplePoint holder01 sampleSignature) =
      some ((bareCertificate sampleOid samplePoint holder01 sampleSignature).length,
        { car := none, chr := some holder01, chat := none, ced := none, cxd := none,
          extensions := none, pukoid := some sampleOid, primeOrModulus := none,
          coefficientAorExponent := none, coefficientB := none, basePointG := none,
          order := none, publicPoint := some samplePoint, cofactor := none,
          signature := some sampleSignature, outer_car := none, outerSignature := none }) :=
  ⟨by decide, cvcDecode_bareCertificate sampleOid samplePoint holder01 sampleSignature
    (by decide)⟩

/-- Witness for C2: the sample certificate inside a request with the outer
reference "HOLDER01" and an outer signature of two bytes. -/
theorem cvcDecode_requestOf_witness :
    cvcDecode sampleCertificate = some (50, sampleRecord) ∧
    cvcDecode (requestOf sampleCertificate holder01 [0xCC, 0xDD]) =
      some ((requestOf sampleCertificate holder01 [0xCC, 0xDD]).length,
        { sampleRecord with outer_car := some holder01, outerSignature := some [0xCC, 0xDD] }) :=
  ⟨by decide,
    (cvcDecode_requestOf sampleCertificate
      (tlv 0x7F4E (tlv 0x5F29 [0] ++ (tlv 0x7F49 (tlv 0x06 sampleOid ++ tlv 0x86 samplePoint)
        ++ tlv 0x5F20 holder01)) ++ tlv 0x5F37 sampleSignature)
      holder01 [0xCC, 0xDD] 50 sampleRecord (by decide) (by decide) (by decide)).2.2⟩

/-- Witness for C3: the sample certificate of 50 bytes followed by a further
element of three bytes; the count returned is 50 = 2 + 1 + 47. -/
theorem cvcDecode_count_witness :
    cvcDecode (sampleCertificate ++ [0x04, 0x01, 0xFF]) = some (50, sampleRecord) ∧
    ∃ len r2,
      asn1Length (asn1Tag (sampleCertificate ++ [0x04, 0x01, 0xFF])).2 = some (len, r2) ∧
      50 = ((sampleCertificate ++ [0x04, 0x01, 0xFF]).length -
          (asn1Tag (sampleCertificate ++ [0x04, 0x01, 0xFF])).2.length) +
        ((asn1Tag (sampleCertificate ++ [0x04, 0x01, 0xFF])).2.length - r2.length) + len ∧
      (50 : Nat) ≤ (sampleCertificate ++ [0x04, 0x01, 0xFF]).length ∧
      cvcDecodeReturn (sampleCertificate ++ [0x04, 0x01, 0xFF]) = 50 :=
  ⟨by decide,
    let ⟨len, r2, h1, h2, _, _, _, h6, h7⟩ :=
      cvcDecode_count (sampleCertificate ++ [0x04, 0x01, 0xFF]) 50 sampleRecord (by decide)
    ⟨len, r2, h1, h2, h6, (h7 (by decide)).1⟩⟩

/-- Witness for C4: a SEQUENCE (outer tag 0x30), and a request whose nested element
is a SEQUENCE. -/
theorem cvcDecode_outer_tag_witness :
    asn1Validate (tlv 0x30 (tlv 0x02 [0x01])) = 0 ∧
    cvcDecode (tlv 0x30 (tlv 0x02 [0x01])) = none ∧
    cvcDecode (tlv 0x67 (tlv 0x30 (tlv 0x02 [0x01]) ++ (tlv 0x42 holder01
      ++ tlv 0x5F37 sampleSignature))) = none :=
  ⟨by decide,
    cvcDecode_outer_tag (tlv 0x30 (tlv 0x02 [0x01])) ⟨0x30, tlv 0x02 [0x01], []⟩ (by decide)
      (Or.inl (by decide)),
    cvcDecode_outer_tag
      (tlv 0x67 (tlv 0x30 (tlv 0x02 [0x01]) ++ (tlv 0x42 holder01 ++ tlv 0x5F37 sampleSignature)))
      ⟨0x67, tlv 0x30 (tlv 0x02 [0x01]) ++ (tlv 0x42 holder01 ++ tlv 0x5F37 sampleSignature), []⟩
      (by decide)
      (Or.inr ⟨rfl, fun e1 he1 => by
        have h : asn1Next (tlv 0x30 (tlv 0x02 [0x01]) ++ (tlv 0x42 holder01
            ++ tlv 0x5F37 sampleSignature)) =
            some ⟨0x30, tlv 0x02 [0x01], tlv 0x42 holder01 ++ tlv 0x5F37 sampleSignature⟩ := by
          decide
        rw [h] at he1
        cases he1
        decide⟩)⟩

/-- Witness for C5: a certificate whose body ends behind the public key container,
and one in which the effective date 0x5F25 stands in the place of the holder
reference. -/
theorem cvcDecode_holder_missing_witness :
    cvcDecode (certificateWith (tlv 0x06 sampleOid ++ tlv 0x86 samplePoint) []
      sampleSignature) = none ∧
    cvcDecode (certificateWith (tlv 0x06 sampleOid ++ tlv 0x86 samplePoint)
      (tlv 0x5F25 [1, 2, 3, 4, 5, 6]) sampleSignature) = none :=
  ⟨cvcDecode_holder_missing _
      ⟨{ signature := some sampleSignature }, 39, [],
        tlv 0x06 sampleOid ++ tlv 0x86 samplePoint⟩ (by decide) (Or.inl rfl),
    cvcDecode_holder_missing _
      ⟨{ signature := some sampleSignature }, 48, tlv 0x5F25 [1, 2, 3, 4, 5, 6],
        tlv 0x06 sampleOid ++ tlv 0x86 samplePoint⟩ (by decide)
      (Or.inr ⟨⟨0x5F25, [1, 2, 3, 4, 5, 6], []⟩, by decide, by decide⟩)⟩

/-- Witness for C6: the sample certificate with a further element (a) behind the
signature, (b) behind the extensions, and (c) a request with a further element
behind the outer signature. -/
theorem cvcDecode_trailing_witness :
    cvcDecode (tlv 0x7F21 (tlv 0x7F4E (tlv 0x5F29 [0] ++ (tlv 0x7F49 (tlv 0x06 sampleOid
        ++ tlv 0x86 samplePoint) ++ tlv 0x5F20 holder01))
      ++ (tlv 0x5F37 sampleSignature ++ tlv 0x04 [0xFF]))) = none ∧
    cvcDecode (certificateWith (tlv 0x06 sampleOid ++ tlv 0x86 samplePoint)
      (tlv 0x5F20 holder01 ++ (tlv 0x65 [0x04, 0x00] ++ tlv 0x04 [0xFF])) sampleSignature) = none ∧
    cvcDecode (tlv 0x67 (sampleCertificate ++ (tlv 0x42 holder01
      ++ (tlv 0x5F37 sampleSignature ++ tlv 0x04 [0xFF])))) = none :=
  ⟨cvcDecode_trailing _ (Or.inl ⟨_, _, _, rfl, rfl, rfl, by decide, by decide⟩),
    cvcDecode_trailing _ (Or.inr (Or.inl ⟨_, _, rfl, rfl, by decide, by decide⟩)),
    cvcDecode_trailing _ (Or.inr (Or.inr ⟨_, _, _, _, rfl, by decide, rfl, rfl, rfl, by decide,
      by decide⟩))⟩

/-- Witness for C7: the sample certificate has its key by reference (the tag behind
the algorithm identifier is 0x86), and a certificate with the modulus 0x81 and
the exponent 0x82 alone has an explicit key. -/
theorem cvcDecode_key_shape_witness :
    cvcDecode sampleCertificate = some (50, sampleRecord) ∧
    (keyByReference sampleRecord ∧ ¬ keyExplicit sampleRecord) ∧
    cvcDecode (sampleExplicitCertificate []) = some (52, sampleExplicitRecord) ∧
    (keyExplicit sampleExplicitRecord ∧ ¬ keyByReference sampleExplicitRecord) :=
  ⟨by decide,
    let ⟨_, _, _, _, _, _, hs, _⟩ := cvcDecode_key_shape sampleCertificate 50 sampleRecord
      (by decide)
    hs.elim id (fun hx => absurd hx.1.1 (by simp [sampleRecord])),
    by decide,
    let ⟨_, _, _, _, _, _, hs, _⟩ := cvcDecode_key_shape (sampleExplicitCertificate []) 52
      sampleExplicitRecord (by decide)
    hs.elim (fun hx => absurd hx.1.2.1 (by simp [sampleExplicitRecord])) id⟩

/-- Witness for C8: a public key container with 06, 81, 82 and 83 only, and one with
06, 81, 82 and 86 only. -/
theorem cvcDecode_explicit_key_incomplete_witness :
    cvcDecode (sampleExplicitCertificate (tlv 0x83 [0x07])) = none ∧
    cvcDecode (sampleExplicitCertificate (tlv 0x86 samplePoint)) = none :=
  ⟨cvcDecode_explicit_key_incomplete (sampleExplicitCertificate (tlv 0x83 [0x07]))
      (sampleExplicitState (tlv 0x83 [0x07]))
      ⟨0x06, sampleOid, tlv 0x81 [0xC3, 0x5D] ++ (tlv 0x82 [0x01, 0x00, 0x01] ++ tlv 0x83 [0x07])⟩
      ⟨0x81, [0xC3, 0x5D], tlv 0x82 [0x01, 0x00, 0x01] ++ tlv 0x83 [0x07]⟩
      ⟨0x82, [0x01, 0x00, 0x01], tlv 0x83 [0x07]⟩
      (by decide) (by decide) (by decide) (by decide) (by decide) (by decide) (by decide)
      (by decide)
      (by
        rintro ⟨e83, e84, e85, e86, e87, h83, _, h84, _⟩
        have h : asn1Next (tlv 0x83 [0x07]) = some ⟨0x83, [0x07], []⟩ := by decide
        simp only [h, Option.some.injEq] at h83
        subst h83
        simp [asn1Next] at h84),
    cvcDecode_explicit_key_incomplete (sampleExplicitCertificate (tlv 0x86 samplePoint))
      (sampleExplicitState (tlv 0x86 samplePoint))
      ⟨0x06, sampleOid,
        tlv 0x81 [0xC3, 0x5D] ++ (tlv 0x82 [0x01, 0x00, 0x01] ++ tlv 0x86 samplePoint)⟩
      ⟨0x81, [0xC3, 0x5D], tlv 0x82 [0x01, 0x00, 0x01] ++ tlv 0x86 samplePoint⟩
      ⟨0x82, [0x01, 0x00, 0x01], tlv 0x86 samplePoint⟩
      (by decide) (by decide) (by decide) (by decide) (by decide) (by decide) (by decide)
      (by decide)
      (by
        rintro ⟨e83, e84, e85, e86, e87, h83, ht83, _⟩
        have h : asn1Next (tlv 0x86 samplePoint) = some ⟨0x86, samplePoint, []⟩ := by decide
        simp only [h, Option.some.injEq] at h83
        subst h83
        exact absurd ht83 (by decide))⟩

/-- Witness for C9: the identifier of brainpoolP256r1 is found, and the entry found
has the query as its identifier. -/
theorem cvcGetCurveForOID_exact_witness :
    cvcGetCurveForOID (some [0x2B, 0x24, 0x03, 0x03, 0x02, 0x08, 0x01, 0x01, 0x07]) =
      some brainpoolP256r1 ∧
    brainpoolP256r1 ∈ knownCurves ∧
    brainpoolP256r1.oid = some [0x2B, 0x24, 0x03, 0x03, 0x02, 0x08, 0x01, 0x01, 0x07] ∧
    cvcGetCurveForOID (some [0x2B, 0x24, 0x03, 0x03, 0x02, 0x08, 0x01, 0x01]) = none ∧
    cvcGetCurveForOID (some [0x2B, 0x24, 0x03, 0x03, 0x02, 0x08, 0x01, 0x01, 0x07, 0x00]) = none :=
  ⟨by decide,
    ((cvcGetCurveForOID_exact
      (some [0x2B, 0x24, 0x03, 0x03, 0x02, 0x08, 0x01, 0x01, 0x07])).2.1 brainpoolP256r1
        (by decide)).1,
    ((cvcGetCurveForOID_exact
      (some [0x2B, 0x24, 0x03, 0x03, 0x02, 0x08, 0x01, 0x01, 0x07])).2.1 brainpoolP256r1
        (by decide)).2,
    (cvcGetCurveForOID_exact none).2.2.2.2.2.2.2.1
      [0x2B, 0x24, 0x03, 0x03, 0x02, 0x08, 0x01, 0x01, 0x07] (by decide) 8 (by decide),
    (cvcGetCurveForOID_exact none).2.2.2.2.2.2.2.2
      [0x2B, 0x24, 0x03, 0x03, 0x02, 0x08, 0x01, 0x01, 0x07] (by decide) [0x00] (by decide)⟩

theorem asn1Next_length (buf : List Nat) (e : Asn1Elem) (h : asn1Next buf = some e) :
    e.value.length + e.rest.length + 2 ≤ buf.length := by
  obtain ⟨len, r2, hl, hle, _, hv, hr, hne⟩ := asn1Next_some buf e h
  have h1 := asn1Tag_length buf hne
  have h2 := asn1Length_length _ len r2 hl
  rw [hv, hr]
  simp only [List.length_take, List.length_drop]
  omega

/-- The bound on the recursion of `asn1ValidateAux` is never reached: every bound
that is at least the length of the buffer gives the same result. -/
theorem asn1ValidateAux_fuel : ∀ (f : Nat) (buf : List Nat), buf.length ≤ f →
    ∀ g, buf.length ≤ g → asn1ValidateAux f buf = asn1ValidateAux g buf := by
  intro f
  induction f with
  | zero =>
    intro buf hf g _
    have : buf = [] := List.eq_nil_of_length_eq_zero (by omega)
    subst this
    cases g <;> simp [asn1ValidateAux]
  | succ n ih =>
    intro buf hf g hg
    cases buf with
    | nil => cases g <;> simp [asn1ValidateAux]
    | cons b t =>
      cases g with
      | zero => simp at hg
      | succ m =>
        rw [asn1ValidateAux, asn1ValidateAux]
        cases hn : asn1Next (b :: t) with
        | none => rfl
        | some e =>
          have hlen := asn1Next_length _ e hn
          simp only [List.length_cons] at hlen hf hg
          simp only
          rw [ih e.value (by omega) m (by omega), ih e.rest (by omega) m (by omega)]

/-! ## The curve table and explicit domain parameters -/

/-- Claim C20: the static table consists of exactly 8 curve entries followed by one
terminating entry whose oid is absent, and each of the 8 entries satisfies
the invariant of a parameter set: oid, prime, order and coFactor are present
and non-empty, prime, order and coFactor have a non-zero first byte,
coefficientA and coefficientB are as long as prime, and basePointG is 0x04
followed by two coordinates each as long as prime. -/
theorem curves_invariant :
    curves.length = 9 ∧ curves.take 8 = knownCurves ∧ (curves.drop 8).map (fun c => c.oid) = [none] ∧
    ∀ i : Fin knownCurves.length,
      (knownCurves.get i).oid ≠ none ∧ (knownCurves.get i).oid ≠ some [] ∧
      canonicalUnsigned (knownCurves.get i).prime ∧
      canonicalUnsigned (knownCurves.get i).order ∧
      canonicalUnsigned (knownCurves.get i).coFactor ∧
      (knownCurves.get i).coefficientA ≠ none ∧ (knownCurves.get i).coefficientB ≠ none ∧
      ((knownCurves.get i).coefficientA.getD []).length
        = ((knownCurves.get i).prime.getD []).length ∧
      ((knownCurves.get i).coefficientB.getD []).length
        = ((knownCurves.get i).prime.getD []).length ∧
      uncompressedPoint (knownCurves.get i).basePointG ∧
      ((knownCurves.get i).basePointG.getD []).length
        = 1 + 2 * ((knownCurves.get i).prime.getD []).length := by
  decide

theorem dropSignByte_derUnsigned (x following : List Nat) (hx : canonicalUnsigned (some x)) :
    dropSignByte (derUnsigned x) following = some x := by
  cases x with
  | nil => simp [canonicalUnsigned] at hx
  | cons b t =>
    simp only [canonicalUnsigned] at hx
    simp only [derUnsigned]
    split_ifs with hb
    · simp [dropSignByte]
    · simp [dropSignByte, hx]

theorem length_derUnsigned (x : List Nat) : x.length ≤ (derUnsigned x).length := by
  cases x with
  | nil => simp [derUnsigned]
  | cons b t =>
    simp only [derUnsigned]
    split_ifs <;> simp

/-- Claim C11: for every prime `p`, order `n` and cofactor `h` (each non-empty with a
non-zero first byte), coefficients `a` and `b`, base point `G` whose first
byte is 0x04 and field type `ft` of 7 bytes ending in 0x01,
`cvcDetermineCurveFromECParam` applied to the DER structure
`SEQUENCE{ INTEGER 01, SEQUENCE{ OBJECT IDENTIFIER ft, INTEGER p' },
SEQUENCE{ OCTET STRING a, OCTET STRING b }, OCTET STRING G, INTEGER n', INTEGER h' }`
returns 0 with prime = p, coefficientA = a, coefficientB = b, basePointG = G,
order = n, coFactor = h and oid absent.  The structure is taken to fit an
`int` length. -/
theorem cvcDetermineCurveFromECParam_ecParameters (ft p a b G n h : List Nat)
    (hft : ft.length = 7) (hft6 : ft.get? 6 = some 0x01)
    (hp : canonicalUnsigned (some p)) (hn : canonicalUnsigned (some n))
    (hh : canonicalUnsigned (some h)) (hG : G.head? = some 0x04)
    (hsize : (ecParameters ft p a b G n h).length < 2 ^ 31) :
    cvcDetermineCurveFromECParam (ecParameters ft p a b G n h) =
      .curve
        { oid := none, prime := some p, coefficientA := some a, coefficientB := some b,
          basePointG := some G, order := some n, coFactor := some h } := by
  have hG2 : ∃ t, G = 0x04 :: t := by
    cases G with
    | nil => simp at hG
    | cons g t => simp at hG; exact ⟨t, by rw [hG]⟩
  obtain ⟨t, rfl⟩ := hG2
  simp only [ecParameters, ASN1_SEQUENCE, ASN1_INTEGER, ASN1_OBJECT_IDENTIFIER,
    ASN1_OCTET_STRING] at hsize ⊢
  simp only [length_tlv, List.length_append] at hsize
  have s1 : (derUnsigned h).length < 2 ^ 32 := by omega
  have s2 : (derUnsigned n).length < 2 ^ 32 := by omega
  have s3 : (0x04 :: t).length < 2 ^ 32 := by omega
  have s4 : b.length < 2 ^ 32 := by omega
  have s5 : a.length < 2 ^ 32 := by omega
  have s6 : (tlv 0x04 a ++ tlv 0x04 b).length < 2 ^ 32 := by
    simp only [length_tlv, List.length_append]; omega
  have s7 : (derUnsigned p).length < 2 ^ 32 := by omega
  have s8 : ft.length < 2 ^ 32 := by omega
  have s9 : (tlv 0x06 ft ++ tlv 0x02 (derUnsigned p)).length
      < 2 ^ 32 := by
    simp only [length_tlv, List.length_append]; omega
  have s10 : (tlv 0x02 [0x01] ++
      (tlv 0x30 (tlv 0x06 ft ++ tlv 0x02 (derUnsigned p)) ++
        (tlv 0x30 (tlv 0x04 a ++ tlv 0x04 b) ++
          (tlv 0x04 (0x04 :: t) ++
            (tlv 0x02 (derUnsigned n) ++ tlv 0x02 (derUnsigned h)))))).length
      < 2 ^ 32 := by
    simp only [length_tlv, List.length_append]; omega
  have hne : tlv 0x02 (derUnsigned h) ≠ [] := tlv_ne_nil _ _
  rw [List.get?_eq_getElem?] at hft6
  obtain ⟨_, h6⟩ := List.getElem?_eq_some.1 hft6
  unfold cvcDetermineCurveFromECParam
  rw [asn1Next_tlv 0x30 (by decide) _ s10]
  simp [asn1Next_tlv_append 0x02 (by decide) [0x01] (by decide),
    asn1Next_tlv_append 0x30 (by decide) _ s9,
    asn1Next_tlv_append 0x06 (by decide) _ s8,
    asn1Next_tlv 0x02 (by decide) _ s7,
    asn1Next_tlv_append 0x30 (by decide) _ s6,
    asn1Next_tlv_append 0x04 (by decide) _ s5,
    asn1Next_tlv 0x04 (by decide) _ s4,
    asn1Next_tlv_append 0x04 (by decide) _ s3,
    asn1Next_tlv_append 0x02 (by decide) _ s2,
    asn1Next_tlv 0x02 (by decide) _ s1,
    hft, hft6, dropSignByte_derUnsigned _ _ hp, dropSignByte_derUnsigned _ _ hn,
    dropSignByte_derUnsigned _ _ hh, h6,
    ASN1_SEQUENCE, ASN1_INTEGER, ASN1_OBJECT_IDENTIFIER, ASN1_OCTET_STRING]

set_option maxRecDepth 8000

/-- Witness for C11: the parameters of each of the 8 curves of the table, written as
explicit domain parameters, are read back as that curve without its oid. -/
theorem cvcDetermineCurveFromECParam_ecParameters_witness :
    cvcDetermineCurveFromECParam (ecParametersOf secp192r1) = .curve { secp192r1 with oid := none } ∧
    cvcDetermineCurveFromECParam (ecParametersOf secp256r1) = .curve { secp256r1 with oid := none } ∧
    cvcDetermineCurveFromECParam (ecParametersOf brainpoolP192r1) = .curve { brainpoolP192r1 with oid := none } ∧
    cvcDetermineCurveFromECParam (ecParametersOf brainpoolP224r1) = .curve { brainpoolP224r1 with oid := none } ∧
    cvcDetermineCurveFromECParam (ecParametersOf brainpoolP256r1) = .curve { brainpoolP256r1 with oid := none } ∧
    cvcDetermineCurveFromECParam (ecParametersOf brainpoolP320r1) = .curve { brainpoolP320r1 with oid := none } ∧
    cvcDetermineCurveFromECParam (ecParametersOf secp192k1) = .curve { secp192k1 with oid := none } ∧
    cvcDetermineCurveFromECParam (ecParametersOf secp256k1) = .curve { secp256k1 with oid := none } :=
  ⟨cvcDetermineCurveFromECParam_ecParameters primeFieldOid (secp192r1.prime.getD [])
      (secp192r1.coefficientA.getD []) (secp192r1.coefficientB.getD []) (secp192r1.basePointG.getD [])
      (secp192r1.order.getD []) (secp192r1.coFactor.getD []) (by decide) (by decide) (by decide) (by decide)
      (by decide) (by decide) (by decide),
    cvcDetermineCurveFromECParam_ecParameters primeFieldOid (secp256r1.prime.getD [])
      (secp256r1.coefficientA.getD []) (secp256r1.coefficientB.getD []) (secp256r1.basePointG.getD [])
      (secp256r1.order.getD []) (secp256r1.coFactor.getD []) (by decide) (by decide) (by decide) (by decide)
      (by decide) (by decide) (by decide),
    cvcDetermineCurveFromECParam_ecParameters primeFieldOid (brainpoolP192r1.prime.getD [])
      (brainpoolP192r1.coefficientA.getD []) (brainpoolP192r1.coefficientB.getD []) (brainpoolP192r1.basePointG.getD [])
      (brainpoolP192r1.order.getD []) (brainpoolP192r1.coFactor.getD []) (by decide) (by decide) (by decide) (by decide)
      (by decide) (by decide) (by decide),
    cvcDetermineCurveFromECParam_ecParameters primeFieldOid (brainpoolP224r1.prime.getD [])
      (brainpoolP224r1.coefficientA.getD []) (brainpoolP224r1.coefficientB.getD []) (brainpoolP224r1.basePointG.getD [])
      (brainpoolP224r1.order.getD []) (brainpoolP224r1.coFactor.getD []) (by decide) (by decide) (by decide) (by decide)
      (by decide) (by decide) (by decide),
    cvcDetermineCurveFromECParam_ecParameters primeFieldOid (brainpoolP256r1.prime.getD [])
      (brainpoolP256r1.coefficientA.getD []) (brainpoolP256r1.coefficientB.getD []) (brainpoolP256r1.basePointG.getD [])
      (brainpoolP256r1.order.getD []) (brainpoolP256r1.coFactor.getD []) (by decide) (by decide) (by decide) (by decide)
      (by decide) (by decide) (by decide),
    cvcDetermineCurveFromECParam_ecParameters primeFieldOid (brainpoolP320r1.prime.getD [])
      (brainpoolP320r1.coefficientA.getD []) (brainpoolP320r1.coefficientB.getD []) (brainpoolP320r1.basePointG.getD [])
      (brainpoolP320r1.order.getD []) (brainpoolP320r1.coFactor.getD []) (by decide) (by decide) (by decide) (by decide)
      (by decide) (by decide) (by decide),
    cvcDetermineCurveFromECParam_ecParameters primeFieldOid (secp192k1.prime.getD [])
      (secp192k1.coefficientA.getD []) (secp192k1.coefficientB.getD []) (secp192k1.basePointG.getD [])
      (secp192k1.order.getD []) (secp192k1.coFactor.getD []) (by decide) (by decide) (by decide) (by decide)
      (by decide) (by decide) (by decide),
    cvcDetermineCurveFromECParam_ecParameters primeFieldOid (secp256k1.prime.getD [])
      (secp256k1.coefficientA.getD []) (secp256k1.coefficientB.getD []) (secp256k1.basePointG.getD [])
      (secp256k1.order.getD []) (secp256k1.coFactor.getD []) (by decide) (by decide) (by decide) (by decide)
      (by decide) (by decide) (by decide)⟩

theorem asn1Next_head_tag (b : Nat) (t : List Nat) (e : Asn1Elem) (hb : b % 32 ≠ 31)
    (h : asn1Next (b :: t) = some e) : e.tag = b := by
  obtain ⟨_, _, _, _, htag, _⟩ := asn1Next_some _ e h
  rw [htag]
  simp [asn1Tag, hb]

/-- What a run of `cvcDetermineCurveFromECParam` that does not return -1 has read
and tested. -/
theorem cvcDetermineCurveFromECParam_ne_failure (ecparam : List Nat)
    (h : cvcDetermineCurveFromECParam ecparam ≠ .failure) :
    ∃ seq ver fid ft pr cv a b g n hh,
      ecOuter ecparam = some seq ∧ seq.tag = ASN1_SEQUENCE ∧
      ecVersion ecparam = some ver ∧ ver.tag = ASN1_INTEGER ∧ ver.value = [0x01] ∧
      ecFieldID ecparam = some fid ∧ fid.tag = ASN1_SEQUENCE ∧
      ecFieldType ecparam = some ft ∧ ft.tag = ASN1_OBJECT_IDENTIFIER ∧ ft.value.length = 7 ∧
        ft.value.get? 6 = some 0x01 ∧
      ecPrime ecparam = some pr ∧ pr.tag = ASN1_INTEGER ∧
      ecCurve ecparam = some cv ∧ cv.tag = ASN1_SEQUENCE ∧
      ecCoefficientA ecparam = some a ∧ a.tag = ASN1_OCTET_STRING ∧
      ecCoefficientB ecparam = some b ∧ b.tag = ASN1_OCTET_STRING ∧
      ecBase ecparam = some g ∧ g.tag = ASN1_OCTET_STRING ∧ g.value.head? = some 0x04 ∧
      ecOrder ecparam = some n ∧ n.tag = ASN1_INTEGER ∧
      ecCofactor ecparam = some hh ∧ hh.tag = ASN1_INTEGER ∧
      cvcDetermineCurveFromECParam ecparam =
        (match dropSignByte pr.value (pr.rest ++ fid.rest), dropSignByte n.value n.rest,
            dropSignByte hh.value (hh.rest ++ seq.rest) with
          | some prime, some order, some coFactor =>
            .curve
              { oid := none, prime := some prime, coefficientA := some a.value,
                coefficientB := some b.value, basePointG := some g.value,
                order := some order, coFactor := some coFactor }
          | _, _, _ => .undetermined) := by
  unfold cvcDetermineCurveFromECParam at h
  cases h0 : asn1Next ecparam with
  | none => rw [h0] at h; exact absurd rfl h
  | some seq =>
  rw [h0] at h; simp only at h
  by_cases c0 : seq.tag ≠ ASN1_SEQUENCE
  · rw [if_pos c0] at h; exact absurd rfl h
  rw [if_neg c0] at h
  cases h1 : asn1Next seq.value with
  | none => rw [h1] at h; exact absurd rfl h
  | some ver =>
  rw [h1] at h; simp only at h
  by_cases c1 : ver.tag ≠ ASN1_INTEGER ∨ ver.value.length ≠ 1 ∨ ver.value.head? ≠ some 0x01
  · rw [if_pos c1] at h; exact absurd rfl h
  rw [if_neg c1] at h
  cases h2 : asn1Next ver.rest with
  | none => rw [h2] at h; exact absurd rfl h
  | some fid =>
  rw [h2] at h; simp only at h
  by_cases c2 : fid.tag ≠ ASN1_SEQUENCE
  · rw [if_pos c2] at h; exact absurd rfl h
  rw [if_neg c2] at h
  cases h3 : asn1Next fid.value with
  | none => rw [h3] at h; exact absurd rfl h
  | some ft =>
  rw [h3] at h; simp only at h
  by_cases c3 : ft.tag ≠ ASN1_OBJECT_IDENTIFIER ∨ ft.value.length ≠ 7 ∨ ft.value.get? 6 ≠ some 0x01
  · rw [if_pos c3] at h; exact absurd rfl h
  rw [if_neg c3] at h
  cases h4 : asn1Next ft.rest with
  | none => rw [h4] at h; exact absurd rfl h
  | some pr =>
  rw [h4] at h; simp only at h
  by_cases c4 : pr.tag ≠ ASN1_INTEGER
  · rw [if_pos c4] at h; exact absurd rfl h
  rw [if_neg c4] at h
  cases h5 : asn1Next fid.rest with
  | none => rw [h5] at h; exact absurd rfl h
  | some cv =>
  rw [h5] at h; simp only at h
  by_cases c5 : cv.tag ≠ ASN1_SEQUENCE
  · rw [if_pos c5] at h; exact absurd rfl h
  rw [if_neg c5] at h
  cases h6 : asn1Next cv.value with
  | none => rw [h6] at h; exact absurd rfl h
  | some a =>
  rw [h6] at h; simp only at h
  by_cases c6 : a.tag ≠ ASN1_OCTET_STRING
  · rw [if_pos c6] at h; exact absurd rfl h
  rw [if_neg c6] at h
  cases h7 : asn1Next a.rest with
  | none => rw [h7] at h; exact absurd rfl h
  | some b =>
  rw [h7] at h; simp only at h
  by_cases c7 : b.tag ≠ ASN1_OCTET_STRING
  · rw [if_pos c7] at h; exact absurd rfl h
  rw [if_neg c7] at h
  cases h8 : asn1Next cv.rest with
  | none => rw [h8] at h; exact absurd rfl h
  | some g =>
  rw [h8] at h; simp only at h
  by_cases c8 : g.tag ≠ ASN1_OCTET_STRING ∨ (g.value ++ g.rest).head? ≠ some 0x04
  · rw [if_pos c8] at h; exact absurd rfl h
  rw [if_neg c8] at h
  cases h9 : asn1Next g.rest with
  | none => rw [h9] at h; exact absurd rfl h
  | some n =>
  rw [h9] at h; simp only at h
  by_cases c9 : n.tag ≠ ASN1_INTEGER
  · rw [if_pos c9] at h; exact absurd rfl h
  rw [if_neg c9] at h
  cases h10 : asn1Next n.rest with
  | none => rw [h10] at h; exact absurd rfl h
  | some hh =>
  rw [h10] at h; simp only at h
  by_cases c10 : hh.tag ≠ ASN1_INTEGER
  · rw [if_pos c10] at h; exact absurd rfl h
  have e0 : ecOuter ecparam = some seq := h0
  have e1 : ecVersion ecparam = some ver := by simp [ecVersion, e0, h1]
  have e2 : ecFieldID ecparam = some fid := by simp [ecFieldID, e1, h2]
  have e3 : ecFieldType ecparam = some ft := by simp [ecFieldType, e2, h3]
  have e4 : ecPrime ecparam = some pr := by simp [ecPrime, e3, h4]
  have e5 : ecCurve ecparam = some cv := by simp [ecCurve, e2, h5]
  have e6 : ecCoefficientA ecparam = some a := by simp [ecCoefficientA, e5, h6]
  have e7 : ecCoefficientB ecparam = some b := by simp [ecCoefficientB, e6, h7]
  have e8 : ecBase ecparam = some g := by simp [ecBase, e5, h8]
  have e9 : ecOrder ecparam = some n := by simp [ecOrder, e8, h9]
  have e10 : ecCofactor ecparam = some hh := by simp [ecCofactor, e9, h10]
  simp only [not_or, not_not, ne_eq] at c0 c1 c2 c3 c4 c5 c6 c7 c8 c9 c10
  have hver : ver.value = [0x01] := by
    obtain ⟨_, hl, hd⟩ := c1
    cases hv : ver.value with
    | nil => rw [hv] at hl; simp at hl
    | cons x t =>
      rw [hv] at hl hd
      simp at hl hd
      rw [hl, hd]
  have hg : g.value.head? = some 0x04 := by
    obtain ⟨_, hd⟩ := c8
    cases hv : g.value with
    | nil =>
      exfalso
      rw [hv] at hd
      simp only [List.nil_append] at hd
      cases hr : g.rest with
      | nil => rw [hr] at hd; simp at hd
      | cons x t =>
        rw [hr] at hd h9
        simp only [List.head?_cons, Option.some.injEq] at hd
        subst hd
        have := asn1Next_head_tag 4 t n (by decide) h9
        rw [c9] at this
        exact absurd this (by decide)
    | cons x t => rw [hv] at hd; simpa using hd
  refine ⟨seq, ver, fid, ft, pr, cv, a, b, g, n, hh, e0, c0, e1, c1.1, hver, e2, c2, e3, c3.1,
    c3.2.1, c3.2.2, e4, c4, e5, c5, e6, c6, e7, c7, e8, c8.1, hg, e9, c9, e10, c10, ?_⟩
  have c36 := c3.2.2
  rw [List.get?_eq_getElem?] at c36
  obtain ⟨_, h6e⟩ := List.getElem?_eq_some.1 c36
  unfold cvcDetermineCurveFromECParam
  simp [h0, h1, h2, h3, h4, h5, h6, h7, h8, h9, h10, c0, c1, c2, c3, c4, c5, c6, c7, c8, c9, c10,
    h6e]

theorem elementIs_some (x : Option Asn1Elem) (good : Asn1Elem → Prop) (e : Asn1Elem)
    (hx : x = some e) (hg : good e) : elementIs x good := by
  subst hx
  exact hg

theorem elementIs_iff (x : Option Asn1Elem) (good : Asn1Elem → Prop) :
    elementIs x good ↔ ∃ e, x = some e ∧ good e := by
  cases x with
  | none => simp [elementIs]
  | some e => simp [elementIs]

/-- Claim C12: `cvcDetermineCurveFromECParam` returns -1 for every input in which
(a) the outer element is not a SEQUENCE, (b) the version is not an INTEGER of
length 1 with value 1, (c) the fieldType is not an OBJECT IDENTIFIER of length
7 whose last byte is 1, or (d) the base point is not an OCTET STRING whose
first byte is 0x04, and likewise when prime, order or cofactor is not an
INTEGER or coefficient a or b is not an OCTET STRING.  An element that cannot
be read counts as not being of the required kind. -/
theorem cvcDetermineCurveFromECParam_rejects (ecparam : List Nat)
    (h : ¬ elementIs (ecOuter ecparam) (fun e => e.tag = ASN1_SEQUENCE) ∨
      ¬ elementIs (ecVersion ecparam)
          (fun e => e.tag = ASN1_INTEGER ∧ e.value.length = 1 ∧ e.value = [0x01]) ∨
      ¬ elementIs (ecFieldType ecparam)
          (fun e => e.tag = ASN1_OBJECT_IDENTIFIER ∧ e.value.length = 7 ∧
            e.value.get? 6 = some 0x01) ∨
      ¬ elementIs (ecBase ecparam)
          (fun e => e.tag = ASN1_OCTET_STRING ∧ e.value.head? = some 0x04) ∨
      ¬ elementIs (ecPrime ecparam) (fun e => e.tag = ASN1_INTEGER) ∨
      ¬ elementIs (ecOrder ecparam) (fun e => e.tag = ASN1_INTEGER) ∨
      ¬ elementIs (ecCofactor ecparam) (fun e => e.tag = ASN1_INTEGER) ∨
      ¬ elementIs (ecCoefficientA ecparam) (fun e => e.tag = ASN1_OCTET_STRING) ∨
      ¬ elementIs (ecCoefficientB ecparam) (fun e => e.tag = ASN1_OCTET_STRING)) :
    cvcDetermineCurveFromECParam ecparam = .failure := by
  by_contra hne
  obtain ⟨seq, ver, fid, ft, pr, cv, a, b, g, n, hh, e0, c0, e1, c1, c1v, e2, c2, e3, c3, c3l, c36,
    e4, c4, e5, c5, e6, c6, e7, c7, e8, c8, c8h, e9, c9, e10, c10, _⟩ :=
    cvcDetermineCurveFromECParam_ne_failure ecparam hne
  rcases h with h | h | h | h | h | h | h | h | h
  · exact h (elementIs_some _ _ seq e0 c0)
  · exact h (elementIs_some _ _ ver e1 ⟨c1, by rw [c1v]; rfl, c1v⟩)
  · exact h (elementIs_some _ _ ft e3 ⟨c3, c3l, c36⟩)
  · exact h (elementIs_some _ _ g e8 ⟨c8, c8h⟩)
  · exact h (elementIs_some _ _ pr e4 c4)
  · exact h (elementIs_some _ _ n e9 c9)
  · exact h (elementIs_some _ _ hh e10 c10)
  · exact h (elementIs_some _ _ a e6 c6)
  · exact h (elementIs_some _ _ b e7 c7)

/-- Witness for C12: the toy parameters are accepted, and they are rejected with the
outer tag SET (0x31), with version 2, with the fieldType characteristic-two
(1.2.840.10045.1.2), and with a compressed base point (first byte 0x02). -/
theorem cvcDetermineCurveFromECParam_rejects_witness :
    cvcDetermineCurveFromECParam (sampleEcParameters 0x30 (tlv 0x02 [0x01])
        (tlv 0x06 primeFieldOid) (tlv 0x02 [0x0B]) (tlv 0x04 [0x04, 0x05, 0x06]))
      ≠ .failure ∧
    cvcDetermineCurveFromECParam (sampleEcParameters 0x31 (tlv 0x02 [0x01])
        (tlv 0x06 primeFieldOid) (tlv 0x02 [0x0B]) (tlv 0x04 [0x04, 0x05, 0x06]))
      = .failure ∧
    cvcDetermineCurveFromECParam (sampleEcParameters 0x30 (tlv 0x02 [0x02])
        (tlv 0x06 primeFieldOid) (tlv 0x02 [0x0B]) (tlv 0x04 [0x04, 0x05, 0x06]))
      = .failure ∧
    cvcDetermineCurveFromECParam (sampleEcParameters 0x30 (tlv 0x02 [0x01])
        (tlv 0x06 [0x2A, 0x86, 0x48, 0xCE, 0x3D, 0x01, 0x02]) (tlv 0x02 [0x0B])
        (tlv 0x04 [0x04, 0x05, 0x06]))
      = .failure ∧
    cvcDetermineCurveFromECParam (sampleEcParameters 0x30 (tlv 0x02 [0x01])
        (tlv 0x06 primeFieldOid) (tlv 0x02 [0x0B]) (tlv 0x04 [0x02, 0x05]))
      = .failure :=
  ⟨by decide,
    cvcDetermineCurveFromECParam_rejects _ (Or.inl (by decide)),
    cvcDetermineCurveFromECParam_rejects _ (Or.inr (Or.inl (by decide))),
    cvcDetermineCurveFromECParam_rejects _ (Or.inr (Or.inr (Or.inl (by decide)))),
    cvcDetermineCurveFromECParam_rejects _ (Or.inr (Or.inr (Or.inr (Or.inl (by decide)))))⟩

theorem dropSignByte_some (v following x : List Nat) (h : dropSignByte v following = some x) :
    x = dropLeadingZero v := by
  cases v with
  | nil =>
    simp only [dropSignByte] at h
    cases following with
    | nil => simp at h
    | cons c t =>
      simp only at h
      split_ifs at h
      simp only [Option.some.injEq] at h
      rw [← h]; rfl
  | cons b t =>
    simp only [dropSignByte] at h
    split_ifs at h with hb
    · simp only [Option.some.injEq] at h
      rw [← h, hb]; rfl
    · simp only [Option.some.injEq] at h
      rw [← h]
      cases b with
      | zero => exact absurd rfl hb
      | succ k => rfl

theorem dropLeadingZero_derUnsigned (x : List Nat) (hx : canonicalUnsigned (some x)) :
    dropLeadingZero (derUnsigned x) = x := by
  cases x with
  | nil => simp [canonicalUnsigned] at hx
  | cons b t =>
    simp only [canonicalUnsigned] at hx
    simp only [derUnsigned]
    split_ifs with hb
    · rfl
    · cases b with
      | zero => exact absurd rfl hx
      | succ k => rfl

theorem canonicalUnsigned_of_derCanonical (v : List Nat) (hv : derCanonical v) :
    canonicalUnsigned (some (dropLeadingZero v)) := by
  obtain ⟨x, hx, rfl⟩ := hv
  rw [dropLeadingZero_derUnsigned x hx]
  exact hx

/-- Claim C19, refuted at concrete inputs: `cvcDetermineCurveFromECParam` succeeds on
parameters whose base point is `04 05` (even length 2, no two coordinates), on
parameters whose prime INTEGER has the content `00 00 0B` (the prime view
`00 0B` keeps a leading zero byte), and on parameters whose prime INTEGER has
the content `00` (the prime view is empty). -/
theorem cvcDetermineCurveFromECParam_invariant_counterexample :
    (cvcDetermineCurveFromECParam (sampleEcParameters 0x30 (tlv 0x02 [0x01])
        (tlv 0x06 primeFieldOid) (tlv 0x02 [0x0B]) (tlv 0x04 [0x04, 0x05])) =
      .curve { oid := none, prime := some [0x0B], coefficientA := some [0x01],
               coefficientB := some [0x02], basePointG := some [0x04, 0x05],
               order := some [0x0D], coFactor := some [0x01] } ∧
      ¬ uncompressedPoint (some [0x04, 0x05])) ∧
    (cvcDetermineCurveFromECParam (sampleEcParameters 0x30 (tlv 0x02 [0x01])
        (tlv 0x06 primeFieldOid) (tlv 0x02 [0x00, 0x00, 0x0B])
        (tlv 0x04 [0x04, 0x05, 0x06])) =
      .curve { oid := none, prime := some [0x00, 0x0B], coefficientA := some [0x01],
               coefficientB := some [0x02], basePointG := some [0x04, 0x05, 0x06],
               order := some [0x0D], coFactor := some [0x01] } ∧
      ¬ canonicalUnsigned (some [0x00, 0x0B])) ∧
    (cvcDetermineCurveFromECParam (sampleEcParameters 0x30 (tlv 0x02 [0x01])
        (tlv 0x06 primeFieldOid) (tlv 0x02 [0x00]) (tlv 0x04 [0x04, 0x05, 0x06])) =
      .curve { oid := none, prime := some [], coefficientA := some [0x01],
               coefficientB := some [0x02], basePointG := some [0x04, 0x05, 0x06],
               order := some [0x0D], coFactor := some [0x01] } ∧
      ¬ canonicalUnsigned (some [])) := by
  decide

/-- Claim C19, amended: on every input on which `cvcDetermineCurveFromECParam`
succeeds (does not return -1) and whose prime, order and cofactor INTEGER
elements have at least one content byte, the function leaves a parameter
set in which basePointG is the content of the base OCTET STRING and begins
with the byte 0x04 (nothing is required of its length), and prime, order and
coFactor are the contents of their INTEGER elements with one leading 0x00
byte dropped; each of the three has no leading zero byte and is not empty
whenever the INTEGER content is the DER form of an unsigned number in
canonical form.  (An INTEGER without content bytes, for which line 254 reads
the byte behind the element, is left out.) -/
theorem cvcDetermineCurveFromECParam_views (ecparam : List Nat)
    (h : cvcDetermineCurveFromECParam ecparam ≠ .failure)
    (hpr : elementIs (ecPrime ecparam) (fun e => e.value ≠ []))
    (hor : elementIs (ecOrder ecparam) (fun e => e.value ≠ []))
    (hco : elementIs (ecCofactor ecparam) (fun e => e.value ≠ [])) :
    ∃ c, cvcDetermineCurveFromECParam ecparam = .curve c ∧
    (∃ t, c.basePointG = some (0x04 :: t)) ∧
    elementIs (ecBase ecparam) (fun e => c.basePointG = some e.value) ∧
    elementIs (ecPrime ecparam) (fun e => c.prime = some (dropLeadingZero e.value)) ∧
    elementIs (ecOrder ecparam) (fun e => c.order = some (dropLeadingZero e.value)) ∧
    elementIs (ecCofactor ecparam) (fun e => c.coFactor = some (dropLeadingZero e.value)) ∧
    (elementIs (ecPrime ecparam) (fun e => derCanonical e.value) → canonicalUnsigned c.prime) ∧
    (elementIs (ecOrder ecparam) (fun e => derCanonical e.value) → canonicalUnsigned c.order) ∧
    (elementIs (ecCofactor ecparam) (fun e => derCanonical e.value) →
      canonicalUnsigned c.coFactor) := by
  obtain ⟨seq, ver, fid, ft, pr, cv, a, b, g, n, hh, e0, c0, e1, c1, c1v, e2, c2, e3, c3, c3l, c36,
    e4, c4, e5, c5, e6, c6, e7, c7, e8, c8, c8h, e9, c9, e10, c10, hres⟩ :=
    cvcDetermineCurveFromECParam_ne_failure ecparam h
  have hds : ∀ v f : List Nat, v ≠ [] → dropSignByte v f = some (dropLeadingZero v) := by
    intro v f hv
    cases v with
    | nil => exact absurd rfl hv
    | cons x t =>
      cases x with
      | zero => rfl
      | succ k => rfl
  rw [e4] at hpr
  rw [e9] at hor
  rw [e10] at hco
  simp only [elementIs] at hpr hor hco
  rw [hds _ _ hpr, hds _ _ hor, hds _ _ hco] at hres
  have hgv : ∃ t, g.value = 0x04 :: t := by
    cases hgv : g.value with
    | nil => rw [hgv] at c8h; simp at c8h
    | cons x t =>
      rw [hgv] at c8h
      simp only [List.head?_cons, Option.some.injEq] at c8h
      exact ⟨t, by rw [c8h]⟩
  obtain ⟨t, ht⟩ := hgv
  refine ⟨_, hres, ⟨t, by simp [ht]⟩, ?_, ?_, ?_, ?_, ?_, ?_, ?_⟩
  · rw [e8]; simp [elementIs]
  · rw [e4]; simp [elementIs]
  · rw [e9]; simp [elementIs]
  · rw [e10]; simp [elementIs]
  · rw [e4]; intro hd; exact canonicalUnsigned_of_derCanonical _ hd
  · rw [e9]; intro hd; exact canonicalUnsigned_of_derCanonical _ hd
  · rw [e10]; intro hd; exact canonicalUnsigned_of_derCanonical _ hd

/-- Witness for the amended C19: toy parameters whose prime INTEGER has the content
`00 00 0B` and whose base point is `04 05`. -/
theorem cvcDetermineCurveFromECParam_views_witness :
    ∃ c, cvcDetermineCurveFromECParam (sampleEcParameters 0x30 (tlv 0x02 [0x01])
        (tlv 0x06 primeFieldOid) (tlv 0x02 [0x00, 0x00, 0x0B]) (tlv 0x04 [0x04, 0x05])) =
      .curve c ∧ (∃ t, c.basePointG = some (0x04 :: t)) ∧
      elementIs (ecPrime (sampleEcParameters 0x30 (tlv 0x02 [0x01])
        (tlv 0x06 primeFieldOid) (tlv 0x02 [0x00, 0x00, 0x0B]) (tlv 0x04 [0x04, 0x05])))
        (fun e => c.prime = some (dropLeadingZero e.value)) :=
  (cvcDetermineCurveFromECParam_views
    (sampleEcParameters 0x30 (tlv 0x02 [0x01])
      (tlv 0x06 primeFieldOid) (tlv 0x02 [0x00, 0x00, 0x0B]) (tlv 0x04 [0x04, 0x05]))
    (by decide) (by decide) (by decide) (by decide)).imp
    (fun _ hc => ⟨hc.1, hc.2.1, hc.2.2.2.1⟩)

/-! ## The signature encoder -/

theorem wrap_pipeline (R S : List Nat) (bufflen : Nat) :
    (if bbHasFailed (asn1EncapBuffer ASN1_SEQUENCE
          (asn1AppendUnsignedBigInteger
            (asn1AppendUnsignedBigInteger { val := [], limit := bufflen, failed := false }
              ASN1_INTEGER R) ASN1_INTEGER S) 0) then none
      else some ((asn1EncapBuffer ASN1_SEQUENCE
          (asn1AppendUnsignedBigInteger
            (asn1AppendUnsignedBigInteger { val := [], limit := bufflen, failed := false }
              ASN1_INTEGER R) ASN1_INTEGER S) 0).val,
        (asn1EncapBuffer ASN1_SEQUENCE
          (asn1AppendUnsignedBigInteger
            (asn1AppendUnsignedBigInteger { val := [], limit := bufflen, failed := false }
              ASN1_INTEGER R) ASN1_INTEGER S) 0).val.length)) =
      if bufflen < (signatureSequence R S).length then none
      else some (signatureSequence R S, (signatureSequence R S).length) := by
  simp only [asn1AppendUnsignedBigInteger, signatureSequence]
  generalize tlv ASN1_INTEGER (unsignedInteger R) = x
  generalize tlv ASN1_INTEGER (unsignedInteger S) = y
  have h0 := length_tlv ASN1_SEQUENCE (x ++ y)
  have h1 := encodeTag_length_pos ASN1_SEQUENCE
  have h2 := encodeLength_length_pos (x ++ y).length
  rw [List.length_append] at h0 h2
  simp only [asn1EncapBuffer, bbInsert, bbHasFailed]
  by_cases hc : bufflen < (tlv ASN1_SEQUENCE (x ++ y)).length
  · rw [if_pos hc]
    by_cases a1 : bufflen < x.length
    · simp [a1]
    · by_cases a2 : bufflen < x.length + y.length
      · simp [a1, a2]
      · have a3 : bufflen < x.length + y.length + ((encodeTag ASN1_SEQUENCE).length +
            (encodeLength (x.length + y.length)).length) := by omega
        simp [a1, a2, a3]
  · rw [if_neg hc]
    have a1 : ¬ bufflen < x.length := by omega
    have a2 : ¬ bufflen < x.length + y.length := by omega
    have a3 : ¬ bufflen < x.length + y.length + ((encodeTag ASN1_SEQUENCE).length +
        (encodeLength (x.length + y.length)).length) := by omega
    simp [a1, a2, a3]
    simp [tlv]

theorem cvcWrapECDSASignature_eq (signature : List Nat) (bufflen : Nat) :
    cvcWrapECDSASignature signature bufflen =
      if bufflen < (signatureSequence (signature.take (signature.length / 2))
          ((signature.drop (signature.length / 2)).take (signature.length / 2))).length
      then none
      else some (signatureSequence (signature.take (signature.length / 2))
          ((signature.drop (signature.length / 2)).take (signature.length / 2)),
        (signatureSequence (signature.take (signature.length / 2))
          ((signature.drop (signature.length / 2)).take (signature.length / 2))).length) := by
  unfold cvcWrapECDSASignature
  exact wrap_pipeline _ _ _

theorem derUnsigned_eq (x : List Nat) : derUnsigned x = if highBit x then 0 :: x else x := by
  cases x with
  | nil => simp [derUnsigned, highBit]
  | cons b t => simp [derUnsigned, highBit]

theorem stripLeadingZeros_of_head (b : Nat) (t : List Nat) (hb : b ≠ 0) :
    stripLeadingZeros (b :: t) = b :: t := by
  cases b with
  | zero => exact absurd rfl hb
  | succ k => cases t <;> rfl

theorem stripLeadingZeros_zero_cons (b : Nat) (t : List Nat) :
    stripLeadingZeros (0 :: b :: t) = stripLeadingZeros (b :: t) := rfl

/-- What is left of a number that is not empty: one byte, or bytes that begin with a
byte other than 0x00; it is not longer than the number and denotes the same
value. -/
theorem stripLeadingZeros_spec : ∀ (x : List Nat), x ≠ [] →
    (stripLeadingZeros x = [0] ∨ ∃ b t, stripLeadingZeros x = b :: t ∧ b ≠ 0) ∧
    (stripLeadingZeros x).length ≤ x.length ∧
    (x.headD 0 = 0 → 2 ≤ x.length → (stripLeadingZeros x).length < x.length) ∧
    beValue (stripLeadingZeros x) = beValue x := by
  intro x
  induction x with
  | nil => intro h; exact absurd rfl h
  | cons a t ih =>
    intro _
    by_cases ha : a = 0
    · subst ha
      cases t with
      | nil => exact ⟨Or.inl rfl, le_refl _, fun _ h => by simp at h, rfl⟩
      | cons b u =>
        obtain ⟨i1, i2, _, i4⟩ := ih (List.cons_ne_nil b u)
        rw [stripLeadingZeros_zero_cons]
        refine ⟨i1, ?_, ?_, ?_⟩
        · simp only [List.length_cons] at i2 ⊢; omega
        · intro _ _; simp only [List.length_cons] at i2 ⊢; omega
        · rw [i4]; simp [beValue]
    · rw [stripLeadingZeros_of_head a t ha]
      exact ⟨Or.inr ⟨a, t, rfl, ha⟩, le_refl _, fun h => absurd h (by simpa using ha), rfl⟩

theorem beValue_derUnsigned (x : List Nat) : beValue (derUnsigned x) = beValue x := by
  rw [derUnsigned_eq]
  split_ifs
  · simp [beValue]
  · rfl

theorem unsignedInteger_of_ne_nil (x : List Nat) (hx : x ≠ []) :
    unsignedInteger x = derUnsigned (stripLeadingZeros x) := by
  obtain ⟨h1, _, _, _⟩ := stripLeadingZeros_spec x hx
  unfold unsignedInteger
  rcases h1 with h0 | ⟨b, t, hbt, _⟩
  · rw [h0]
  · rw [hbt]

/-- The content that `asn1AppendUnsignedBigInteger` writes is a canonical unsigned
integer and denotes the same value as the number. -/
theorem unsignedInteger_canonical (x : List Nat) :
    canonicalInteger (unsignedInteger x) ∧ beValue (unsignedInteger x) = beValue x := by
  by_cases hx : x = []
  · subst hx; exact ⟨by decide, rfl⟩
  obtain ⟨h1, _, _, h4⟩ := stripLeadingZeros_spec x hx
  rw [unsignedInteger_of_ne_nil x hx]
  refine ⟨?_, by rw [beValue_derUnsigned, h4]⟩
  rcases h1 with h0 | ⟨b, t, hbt, hb⟩
  · rw [h0]; decide
  · rw [hbt]
    simp only [derUnsigned]
    by_cases h128 : 128 ≤ b
    · rw [if_pos h128]
      exact ⟨by decide, fun _ => h128⟩
    · rw [if_neg h128]
      cases t with
      | nil => exact (by omega : b < 128)
      | cons c u => exact ⟨by omega, fun h0 => absurd h0 hb⟩

/-- A byte 0x00 is put in front of the number exactly when its high bit is set;
otherwise the content is not longer than the number. -/
theorem unsignedInteger_pad (x : List Nat) (hx : x ≠ []) :
    (unsignedInteger x = 0 :: x ↔ highBit x) ∧
    (¬ highBit x → (unsignedInteger x).length ≤ x.length) ∧
    (¬ highBit x → x.headD 0 ≠ 0 → unsignedInteger x = x) := by
  cases x with
  | nil => exact absurd rfl hx
  | cons a t =>
    have hnot : ¬ highBit (a :: t) → (unsignedInteger (a :: t)).length ≤ (a :: t).length := by
      intro hh
      simp only [highBit, List.headD_cons, not_le] at hh
      by_cases ha : a = 0
      · subst ha
        cases t with
        | nil => decide
        | cons b u =>
          have h3 := (stripLeadingZeros_spec (0 :: b :: u) (List.cons_ne_nil _ _)).2.2.1 rfl
            (by simp)
          have h5 : (derUnsigned (stripLeadingZeros (0 :: b :: u))).length ≤
              (stripLeadingZeros (0 :: b :: u)).length + 1 := by
            rw [derUnsigned_eq]; split_ifs <;> simp
          rw [unsignedInteger_of_ne_nil _ (List.cons_ne_nil _ _)]
          omega
      · rw [unsignedInteger_of_ne_nil _ (List.cons_ne_nil _ _)]
        rw [stripLeadingZeros_of_head a t ha]
        simp only [derUnsigned]
        rw [if_neg (by omega)]
    refine ⟨⟨?_, ?_⟩, hnot, ?_⟩
    · intro h
      by_contra hh
      have := hnot hh
      rw [h] at this
      simp at this
    · intro hh
      have h128 : 128 ≤ a := hh
      rw [unsignedInteger_of_ne_nil _ (List.cons_ne_nil _ _)]
      rw [stripLeadingZeros_of_head a t (by omega)]
      simp only [derUnsigned]
      rw [if_pos h128]
    · intro hh ha
      simp only [highBit, List.headD_cons, not_le] at hh
      simp only [List.headD_cons] at ha
      rw [unsignedInteger_of_ne_nil _ (List.cons_ne_nil _ _)]
      rw [stripLeadingZeros_of_head a t ha]
      simp only [derUnsigned]
      rw [if_neg (by omega)]

/-- Claim C13: for a raw signature `R ++ S` of two halves of equal length n >= 1
and a capacity that holds the encoding, `cvcWrapECDSASignature` returns 0,
writes `SEQUENCE{ INTEGER(R), INTEGER(S) }` and sets `*bufflen` to the length
of that encoding.  The content of `INTEGER(x)` is a canonical unsigned
integer of the same value as `x`; it is `x` with a byte 0x00 put in front
exactly when the high bit of `x` is set (otherwise it is not longer than
`x`), and when the high bit is set, dropping that leading 0x00 gives back
`x`. -/
theorem cvcWrapECDSASignature_sequence (R S : List Nat) (bufflen : Nat)
    (hlen : R.length = S.length) (hn : 1 ≤ R.length)
    (hcap : (signatureSequence R S).length ≤ bufflen) :
    cvcWrapECDSASignature (R ++ S) bufflen =
      some (tlv ASN1_SEQUENCE (tlv ASN1_INTEGER (unsignedInteger R) ++
          tlv ASN1_INTEGER (unsignedInteger S)),
        (tlv ASN1_SEQUENCE (tlv ASN1_INTEGER (unsignedInteger R) ++
          tlv ASN1_INTEGER (unsignedInteger S))).length) ∧
    (canonicalInteger (unsignedInteger R) ∧ beValue (unsignedInteger R) = beValue R) ∧
    (canonicalInteger (unsignedInteger S) ∧ beValue (unsignedInteger S) = beValue S) ∧
    (unsignedInteger R = 0 :: R ↔ highBit R) ∧
    (unsignedInteger S = 0 :: S ↔ highBit S) ∧
    (¬ highBit R → (unsignedInteger R).length ≤ R.length) ∧
    (¬ highBit S → (unsignedInteger S).length ≤ S.length) ∧
    (highBit R → dropLeadingZero (unsignedInteger R) = R) ∧
    (highBit S → dropLeadingZero (unsignedInteger S) = S) := by
  have hR : R ≠ [] := by
    intro h; rw [h, List.length_nil] at hn; omega
  have hS : S ≠ [] := by
    intro h; rw [h, List.length_nil] at hlen; omega
  have pR := unsignedInteger_pad R hR
  have pS := unsignedInteger_pad S hS
  refine ⟨?_, unsignedInteger_canonical R, unsignedInteger_canonical S, pR.1, pS.1,
    pR.2.1, pS.2.1, fun h => by rw [pR.1.2 h]; rfl, fun h => by rw [pS.1.2 h]; rfl⟩
  have hhalf : (R ++ S).length / 2 = R.length := by
    rw [List.length_append]; omega
  rw [cvcWrapECDSASignature_eq, hhalf]
  have hS2 : List.take R.length (List.drop R.length (R ++ S)) = S := by
    rw [List.drop_left, hlen, List.take_length]
  rw [List.take_left, hS2, if_neg (by omega)]
  rfl

/-- Witness for C13: the signature `80 01 00 7F` with capacity 10; the high bit of R is
set, S has a superfluous leading zero byte. -/
theorem cvcWrapECDSASignature_sequence_witness :
    cvcWrapECDSASignature ([0x80, 0x01] ++ [0x00, 0x7F]) 10 =
      some ([0x30, 0x08, 0x02, 0x03, 0x00, 0x80, 0x01, 0x02, 0x01, 0x7F], 10) :=
  (cvcWrapECDSASignature_sequence [0x80, 0x01] [0x00, 0x7F] 10 (by decide) (by decide)
    (by decide)).1

/-- Claim C15: for a raw signature of even length >= 2 and any capacity,
`cvcWrapECDSASignature` returns -1 if and only if the capacity is smaller than
the length of the SEQUENCE encoding of the signature. -/
theorem cvcWrapECDSASignature_fails_iff (signature : List Nat) (bufflen : Nat)
    (heven : signature.length % 2 = 0) (h2 : 2 ≤ signature.length) :
    cvcWrapECDSASignature signature bufflen = none ↔
      bufflen < (signatureSequence (signature.take (signature.length / 2))
        (signature.drop (signature.length / 2))).length := by
  have hS : List.take (signature.length / 2) (List.drop (signature.length / 2) signature) =
      List.drop (signature.length / 2) signature := by
    apply List.take_of_length_le
    rw [List.length_drop]; omega
  rw [cvcWrapECDSASignature_eq, hS]
  by_cases h : bufflen < (signatureSequence (signature.take (signature.length / 2))
      (signature.drop (signature.length / 2))).length
  · rw [if_pos h]; exact ⟨fun _ => h, fun _ => rfl⟩
  · rw [if_neg h]; exact ⟨fun hc => Option.noConfusion hc, fun hc => absurd hc h⟩

/-- Witness for C15: the 64-byte sample signature (encoding of 71 bytes) fails with
capacity 70 and does not fail with capacity 71; the sample whose S begins
with 0x00 0x01 (encoding of 70 bytes) fails with capacity 69 and does not
fail with capacity 70. -/
theorem cvcWrapECDSASignature_fails_iff_witness :
    cvcWrapECDSASignature sampleRawSignature 70 = none ∧
    cvcWrapECDSASignature sampleRawSignature 71 ≠ none ∧
    cvcWrapECDSASignature sampleRawSignatureZero 69 = none ∧
    cvcWrapECDSASignature sampleRawSignatureZero 70 ≠ none :=
  ⟨(cvcWrapECDSASignature_fails_iff sampleRawSignature 70 (by decide) (by decide)).2 (by decide),
    fun hc => absurd ((cvcWrapECDSASignature_fails_iff sampleRawSignature 71 (by decide)
      (by decide)).1 hc) (by decide),
    (cvcWrapECDSASignature_fails_iff sampleRawSignatureZero 69 (by decide) (by decide)).2
      (by decide),
    fun hc => absurd ((cvcWrapECDSASignature_fails_iff sampleRawSignatureZero 70 (by decide)
      (by decide)).1 hc) (by decide)⟩

/-- Claim C14, refuted at a concrete input: for the 64-byte sample signature (R begins
with 0x80, S with 0x7F) and capacity 72 the encoding written has 71 bytes and
`*bufflen` is 71, not 70. -/
theorem cvcWrapECDSASignature_length_counterexample :
    sampleRawSignature.length = 64 ∧ highBit (sampleRawSignature.take 32) ∧
    ¬ highBit (sampleRawSignature.drop 32) ∧
    (cvcWrapECDSASignature sampleRawSignature 72).map Prod.snd = some 71 ∧
    (cvcWrapECDSASignature sampleRawSignature 72).map (fun r => r.1.length) = some 71 := by
  decide

/-- Claim C14, amended: for every 64-byte raw signature whose R has its high bit set
and whose S has its high bit clear and a first byte other than 0x00,
`cvcWrapECDSASignature` with capacity 72 succeeds and writes the SEQUENCE
`30 45 02 21 00 R 02 20 S`, whose content has 69 bytes (2 + 33 + 2 + 32) and
whose whole encoding has 71 bytes, and it reports 71 through `*bufflen`. -/
theorem cvcWrapECDSASignature_length (signature : List Nat) (hlen : signature.length = 64)
    (hR : highBit (signature.take 32)) (hS : ¬ highBit (signature.drop 32))
    (hS0 : (signature.drop 32).headD 0 ≠ 0) :
    cvcWrapECDSASignature signature 72 =
      some ([0x30, 69] ++ ([0x02, 33, 0x00] ++ signature.take 32 ++
        ([0x02, 32] ++ signature.drop 32)), 71) ∧
    ([0x30, 69] ++ ([0x02, 33, 0x00] ++ signature.take 32 ++
        ([0x02, 32] ++ signature.drop 32))).length = 71 ∧
    ([0x02, 33, 0x00] ++ signature.take 32 ++ ([0x02, 32] ++ signature.drop 32)).length = 69 := by
  have hS2 : List.take 32 (List.drop 32 signature) = List.drop 32 signature := by
    apply List.take_of_length_le
    rw [List.length_drop]; omega
  have nR : signature.take 32 ≠ [] := by
    intro h; have := congrArg List.length h; simp [hlen] at this
  have nS : signature.drop 32 ≠ [] := by
    intro h; have := congrArg List.length h; simp [hlen] at this
  have uR := (unsignedInteger_pad (signature.take 32) nR).1.2 hR
  have uS := (unsignedInteger_pad (signature.drop 32) nS).2.2 hS hS0
  have e : signatureSequence (signature.take 32) (signature.drop 32) =
      [0x30, 69] ++ ([0x02, 33, 0x00] ++ signature.take 32 ++
        ([0x02, 32] ++ signature.drop 32)) := by
    simp [signatureSequence, tlv, uR, uS, encodeTag, encodeLength,
      ASN1_SEQUENCE, ASN1_INTEGER, hlen]
  have l : ([0x30, 69] ++ ([0x02, 33, 0x00] ++ signature.take 32 ++
        ([0x02, 32] ++ signature.drop 32))).length = 71 := by
    simp [hlen]
  refine ⟨?_, l, by simp [hlen]⟩
  rw [cvcWrapECDSASignature_eq, hlen, hS2, e, l]
  rfl

/-- Witness for the amended C14: the 64-byte sample signature. -/
theorem cvcWrapECDSASignature_length_witness :
    (cvcWrapECDSASignature sampleRawSignature 72).map Prod.snd = some 71 := by
  rw [(cvcWrapECDSASignature_length sampleRawSignature (by decide) (by decide) (by decide)
    (by decide)).1]
  rfl

/-! ## The profile identifier, empty views and the optional elements -/

/-- Claim C17, the code at a failing input: the certificate whose profile identifier
is `5F29 02 00 01` (content length 2, first content byte 0) is decoded
without error, to the record of the sample certificate; with the content `01`
the decoder fails. -/
theorem cvcDecode_profile_length :
    cvcDecode (sampleProfileCertificate [0x00, 0x01]) =
      some ((sampleProfileCertificate [0x00, 0x01]).length, sampleRecord) ∧
    (sampleProfileCertificate [0x00, 0x01]).length = 51 ∧
    cvcDecode (sampleProfileCertificate [0x01]) = none := by
  decide

theorem cvcDecodeToKey_signature (cert : List Nat) (s3 : DecodeState)
    (h : cvcDecodeToKey cert = some s3) : s3.cvc.signature ≠ none := by
  unfold cvcDecodeToKey at h
  obtain ⟨s2, h2, h3⟩ := Option.bind_eq_some.1 h
  obtain ⟨s1, _, h2⟩ := Option.bind_eq_some.1 h2
  obtain ⟨e1, e2, _, _, _, _, _, hs2⟩ := cvcDecodeContainer_some s1 s2 h2
  obtain ⟨e, k, _, _, _, _, _, _, _, hc⟩ := cvcDecodeProfile_some s2 s3 h3
  rcases hc with ⟨_, _, hc⟩ | ⟨_, c, _, _, hc⟩ <;> rw [hc, hs2] <;> simp

theorem encodeElements_eq_nil (elems : List (Nat × List Nat)) :
    encodeElements elems = [] ↔ elems = [] := by
  cases elems with
  | nil => simp [encodeElements]
  | cons e r => simp [encodeElements, tlv_ne_nil]

theorem length_le_encodeElements : ∀ (elems : List (Nat × List Nat)), ∀ e ∈ elems,
    e.2.length + 2 ≤ (encodeElements elems).length := by
  intro elems
  induction elems with
  | nil => intro e he; simp at he
  | cons x r ih =>
    intro e he
    have hx := length_lt_tlv x.1 x.2
    simp only [encodeElements, List.length_append]
    rcases List.mem_cons.1 he with rfl | hr
    · omega
    · have := ih e hr
      omega

theorem skipTag_subset (T : Nat) (elems : List (Nat × List Nat)) :
    ∀ e ∈ (skipTag T elems).2, e ∈ elems := by
  cases elems with
  | nil => simp [skipTag]
  | cons x r =>
    simp only [skipTag]
    split_ifs
    · intro e he; exact List.mem_cons_of_mem _ he
    · intro e he; exact he

theorem cvcOptional_encodeElements (T : Nat) (elems : List (Nat × List Nat))
    (htag : ∀ e ∈ elems, validTag e.1) (hsz : ∀ e ∈ elems, e.2.length < 2 ^ 32) :
    cvcOptional T (encodeElements elems) =
      some ((skipTag T elems).1, encodeElements (skipTag T elems).2) := by
  cases elems with
  | nil => simp [cvcOptional, encodeElements, skipTag]
  | cons x r =>
    have ht := htag x (List.mem_cons_self _ _)
    have hs := hsz x (List.mem_cons_self _ _)
    simp only [cvcOptional, encodeElements, skipTag, asn1Tag_tlv_append x.1 ht,
      asn1Next_tlv_append x.1 ht x.2 hs]
    by_cases hx : x.1 = T
    · simp [hx, tlv_ne_nil]
    · simp [hx, encodeElements]

theorem skipTag_sublist (T : Nat) (L : List Nat) (elems : List (Nat × List Nat)) :
    (elems.map Prod.fst).Sublist (T :: L) ↔ (((skipTag T elems).2).map Prod.fst).Sublist L := by
  cases elems with
  | nil => simp [skipTag]
  | cons x r =>
    simp only [skipTag]
    by_cases hx : x.1 = T
    · rw [if_pos hx]
      simp only [List.map_cons, hx]
      exact List.cons_sublist_cons
    · rw [if_neg hx]
      simp only [List.map_cons]
      constructor
      · intro h
        cases h with
        | cons _ h => exact h
        | cons₂ _ h => exact absurd rfl hx
      · intro h
        exact List.Sublist.cons _ h

theorem lookup_eq_none_of_not_mem (T : Nat) : ∀ (elems : List (Nat × List Nat)),
    T ∉ elems.map Prod.fst → elems.lookup T = none := by
  intro elems
  induction elems with
  | nil => intro _; rfl
  | cons x r ih =>
    intro h
    simp only [List.map_cons, List.mem_cons, not_or] at h
    obtain ⟨a, b⟩ := x
    have hne : (T == a) = false := by simpa using h.1
    simp only [List.lookup_cons, hne]
    exact ih h.2

theorem skipTag_lookup (T : Nat) (L : List Nat) (hT : T ∉ L) (elems : List (Nat × List Nat))
    (h : (elems.map Prod.fst).Sublist (T :: L)) :
    elems.lookup T = (skipTag T elems).1 ∧
    ∀ U, U ≠ T → elems.lookup U = ((skipTag T elems).2).lookup U := by
  have hsub := (skipTag_sublist T L elems).1 h
  cases elems with
  | nil => simp [skipTag]
  | cons x r =>
    obtain ⟨a, b⟩ := x
    simp only [skipTag] at hsub ⊢
    by_cases hx : a = T
    · rw [if_pos hx]
      subst hx
      refine ⟨by simp [List.lookup_cons], ?_⟩
      intro U hU
      have hne : (U == a) = false := by simpa using hU
      simp [List.lookup_cons, hne]
    · rw [if_neg hx] at hsub ⊢
      refine ⟨?_, fun U _ => rfl⟩
      apply lookup_eq_none_of_not_mem
      intro hmem
      exact hT (hsub.subset hmem)

theorem sublist_singleton (T : Nat) (elems : List (Nat × List Nat)) :
    (elems.map Prod.fst).Sublist [T] ↔ elems = [] ∨ ∃ c, elems = [(T, c)] := by
  rw [skipTag_sublist T [] elems, List.sublist_nil, List.map_eq_nil_iff]
  cases elems with
  | nil => simp [skipTag]
  | cons x r =>
    obtain ⟨a, b⟩ := x
    simp only [skipTag]
    by_cases hx : a = T
    · simp [hx]
    · simp [hx]

theorem cvcDecodeToKey_certificateWith (key tail sig : List Nat)
    (hk : asn1Validate key = 0) (ht : asn1Validate tail = 0)
    (hsize : (certificateWith key tail sig).length < 2 ^ 31) :
    cvcDecodeToKey (certificateWith key tail sig) = some
      { cvc := { signature := some sig }, certlen := (certificateWith key tail sig).length,
        po := tail, children := key } := by
  have e1 := length_lt_tlv 0x7F21
    (tlv 0x7F4E (tlv 0x5F29 [0] ++ (tlv 0x7F49 key ++ tail)) ++ tlv 0x5F37 sig)
  have e2 := length_lt_tlv 0x7F4E (tlv 0x5F29 [0] ++ (tlv 0x7F49 key ++ tail))
  have e3 := length_lt_tlv 0x5F37 sig
  have e4 := length_lt_tlv 0x7F49 key
  unfold certificateWith at hsize
  simp only [List.length_append] at e1 e2 e3 e4
  have hK : key.length < 2 ^ 32 := by omega
  have hs : sig.length < 2 ^ 32 := by omega
  have hB : (tlv 0x5F29 [0] ++ (tlv 0x7F49 key ++ tail)).length < 2 ^ 32 := by
    simp only [List.length_append]; omega
  have hC : (tlv 0x7F4E (tlv 0x5F29 [0] ++ (tlv 0x7F49 key ++ tail))
      ++ tlv 0x5F37 sig).length < 2 ^ 32 := by
    simp only [List.length_append]; omega
  have vB : asn1Validate (tlv 0x5F29 [0] ++ (tlv 0x7F49 key ++ tail)) = 0 :=
    asn1Validate_append _ _ (asn1Validate_tlv_primitive _ (by decide) _ (by decide) (by decide))
      (asn1Validate_append _ _ (asn1Validate_tlv _ (by decide) _ hK (fun _ => hk)) ht)
  have vC : asn1Validate
      (tlv 0x7F4E (tlv 0x5F29 [0] ++ (tlv 0x7F49 key ++ tail)) ++ tlv 0x5F37 sig) = 0 :=
    asn1Validate_append _ _ (asn1Validate_tlv _ (by decide) _ hB (fun _ => vB))
      (asn1Validate_tlv_primitive _ (by decide) _ hs (by decide))
  have vAll : asn1Validate (certificateWith key tail sig) = 0 :=
    asn1Validate_tlv _ (by decide) _ hC (fun _ => vC)
  have s1 : cvcDecodeOuter (certificateWith key tail sig) = some
      { cvc := {}, certlen := (certificateWith key tail sig).length,
        po := tlv 0x7F4E (tlv 0x5F29 [0] ++ (tlv 0x7F49 key ++ tail)) ++ tlv 0x5F37 sig,
        children := tlv 0x7F4E (tlv 0x5F29 [0] ++ (tlv 0x7F49 key ++ tail)) ++ tlv 0x5F37 sig } := by
    unfold cvcDecodeOuter
    rw [vAll]
    unfold certificateWith
    rw [asn1Next_tlv 0x7F21 (by decide) _ hC]
    simp
  have s2 : cvcDecodeContainer
      { cvc := {}, certlen := (certificateWith key tail sig).length,
        po := tlv 0x7F4E (tlv 0x5F29 [0] ++ (tlv 0x7F49 key ++ tail)) ++ tlv 0x5F37 sig,
        children := tlv 0x7F4E (tlv 0x5F29 [0] ++ (tlv 0x7F49 key ++ tail)) ++ tlv 0x5F37 sig } =
      some
      { cvc := { signature := some sig }, certlen := (certificateWith key tail sig).length,
        po := tlv 0x5F29 [0] ++ (tlv 0x7F49 key ++ tail),
        children := tlv 0x5F29 [0] ++ (tlv 0x7F49 key ++ tail) } := by
    simp [cvcDecodeContainer, asn1Next_tlv_append 0x7F4E (by decide) _ hB,
      asn1Next_tlv 0x5F37 (by decide) _ hs]
  have s3 : cvcDecodeProfile
      { cvc := { signature := some sig }, certlen := (certificateWith key tail sig).length,
        po := tlv 0x5F29 [0] ++ (tlv 0x7F49 key ++ tail),
        children := tlv 0x5F29 [0] ++ (tlv 0x7F49 key ++ tail) } =
      some
      { cvc := { signature := some sig }, certlen := (certificateWith key tail sig).length,
        po := tail, children := key } := by
    simp [cvcDecodeProfile, asn1Next_tlv_append 0x5F29 (by decide) [0] (by decide),
      asn1Tag_tlv_append 0x7F49 (by decide), asn1Next_tlv_append 0x7F49 (by decide) _ hK]
  simp [cvcDecodeToKey, s1, s2, s3]

theorem cvcDecodeExtensions_encodeElements (r : cvc) (n : Nat) (key : List Nat)
    (elems : List (Nat × List Nat))
    (htag : ∀ e ∈ elems, validTag e.1) (hsz : ∀ e ∈ elems, e.2.length < 2 ^ 32) :
    cvcDecodeExtensions { cvc := r, certlen := n, po := encodeElements elems, children := key } =
      match elems with
      | [] => some { cvc := r, certlen := n, po := key, children := key }
      | [e] =>
        if e.1 = 0x65 then
          some { cvc := { r with extensions := some e.2 }, certlen := n, po := key,
                 children := key }
        else none
      | _ :: _ :: _ => none := by
  match elems with
  | [] => simp [cvcDecodeExtensions, encodeElements]
  | [e] =>
    have ht := htag e (List.mem_cons_self _ _)
    have hs := hsz e (List.mem_cons_self _ _)
    simp only [cvcDecodeExtensions, encodeElements, List.append_nil,
      asn1Next_tlv e.1 ht e.2 hs]
    by_cases he : e.1 = 0x65
    · simp [he, tlv_ne_nil]
    · simp [he, tlv_ne_nil]
  | e :: f :: t =>
    have ht := htag e (List.mem_cons_self _ _)
    have hs := hsz e (List.mem_cons_self _ _)
    simp only [cvcDecodeExtensions, encodeElements,
      asn1Next_tlv_append e.1 ht e.2 hs]
    by_cases he : e.1 = 0x65
    · simp [he, tlv_ne_nil]
    · simp [he, tlv_ne_nil]

theorem cvcDecodePublicKey_byReference (r : cvc) (n : Nat) (o p : List Nat)
    (ho : o.length < 2 ^ 32) (hp : p.length < 2 ^ 32) :
    cvcDecodePublicKey
        { cvc := r, certlen := n, po := tlv 0x06 o ++ tlv 0x86 p,
          children := tlv 0x06 o ++ tlv 0x86 p } =
      some { cvc := { r with pukoid := some o, publicPoint := some p }, certlen := n, po := [],
             children := tlv 0x06 o ++ tlv 0x86 p } := by
  simp [cvcDecodePublicKey, asn1NextTag_tlv_append 0x06 (by decide) _ ho,
    asn1Tag_tlv 0x86 (by decide), asn1NextTag_tlv 0x86 (by decide) _ hp, tlv_ne_nil]

theorem cvcDecode_certificateFollowedBy (o p h s : List Nat) (elems : List (Nat × List Nat))
    (htag : ∀ e ∈ elems, validTag e.1)
    (hvalid : asn1Validate (encodeElements elems) = 0)
    (hsize : (certificateFollowedBy o p h s elems).length < 2 ^ 31) :
    cvcDecode (certificateFollowedBy o p h s elems) =
      match (skipTag 0x5F24 (skipTag 0x5F25 (skipTag 0x7F4C elems).2).2).2 with
      | [] => some ((certificateFollowedBy o p h s elems).length,
          { signature := some s, chr := some h, chat := (skipTag 0x7F4C elems).1,
            ced := (skipTag 0x5F25 (skipTag 0x7F4C elems).2).1,
            cxd := (skipTag 0x5F24 (skipTag 0x5F25 (skipTag 0x7F4C elems).2).2).1,
            pukoid := some o, publicPoint := some p })
      | [e] =>
        if e.1 = 0x65 then
          some ((certificateFollowedBy o p h s elems).length,
            { signature := some s, chr := some h, chat := (skipTag 0x7F4C elems).1,
              ced := (skipTag 0x5F25 (skipTag 0x7F4C elems).2).1,
              cxd := (skipTag 0x5F24 (skipTag 0x5F25 (skipTag 0x7F4C elems).2).2).1,
              extensions := some e.2, pukoid := some o, publicPoint := some p })
        else none
      | _ :: _ :: _ => none := by
  have e1 := length_lt_tlv 0x7F21
    (tlv 0x7F4E (tlv 0x5F29 [0] ++ (tlv 0x7F49 (tlv 0x06 o ++ tlv 0x86 p) ++
      (tlv 0x5F20 h ++ encodeElements elems))) ++ tlv 0x5F37 s)
  have e2 := length_lt_tlv 0x7F4E (tlv 0x5F29 [0] ++ (tlv 0x7F49 (tlv 0x06 o ++ tlv 0x86 p) ++
      (tlv 0x5F20 h ++ encodeElements elems)))
  have e4 := length_lt_tlv 0x7F49 (tlv 0x06 o ++ tlv 0x86 p)
  have e5 := length_lt_tlv 0x5F20 h
  have e6 := length_lt_tlv 0x06 o
  have e7 := length_lt_tlv 0x86 p
  have hsize2 := hsize
  unfold certificateFollowedBy certificateWith at hsize2
  simp only [List.length_append] at e1 e2 e4 e5 e6 e7
  have ho : o.length < 2 ^ 32 := by omega
  have hp : p.length < 2 ^ 32 := by omega
  have hh : h.length < 2 ^ 32 := by omega
  have hsz : ∀ e ∈ elems, e.2.length < 2 ^ 32 := by
    intro e he
    have := length_le_encodeElements elems e he
    omega
  have vK : asn1Validate (tlv 0x06 o ++ tlv 0x86 p) = 0 :=
    asn1Validate_append _ _ (asn1Validate_tlv_primitive _ (by decide) _ ho (by decide))
      (asn1Validate_tlv_primitive _ (by decide) _ hp (by decide))
  have vT : asn1Validate (tlv 0x5F20 h ++ encodeElements elems) = 0 :=
    asn1Validate_append _ _ (asn1Validate_tlv_primitive _ (by decide) _ hh (by decide)) hvalid
  have k3 := cvcDecodeToKey_certificateWith (tlv 0x06 o ++ tlv 0x86 p)
    (tlv 0x5F20 h ++ encodeElements elems) s vK vT hsize
  have t1 := skipTag_subset 0x7F4C elems
  have t2 := skipTag_subset 0x5F25 (skipTag 0x7F4C elems).2
  have t3 := skipTag_subset 0x5F24 (skipTag 0x5F25 (skipTag 0x7F4C elems).2).2
  have o1 := cvcOptional_encodeElements 0x7F4C elems htag hsz
  have o2 := cvcOptional_encodeElements 0x5F25 (skipTag 0x7F4C elems).2
    (fun e he => htag e (t1 e he)) (fun e he => hsz e (t1 e he))
  have o3 := cvcOptional_encodeElements 0x5F24 (skipTag 0x5F25 (skipTag 0x7F4C elems).2).2
    (fun e he => htag e (t1 e (t2 e he))) (fun e he => hsz e (t1 e (t2 e he)))
  have hopt : ∀ v : bytestring_s, (if v.isSome = true then v else none) = v := by
    intro v; cases v <;> rfl
  have k4 : cvcDecodeHolder
      { cvc := { signature := some s }, certlen := (certificateFollowedBy o p h s elems).length,
        po := tlv 0x5F20 h ++ encodeElements elems, children := tlv 0x06 o ++ tlv 0x86 p } =
      some
      { cvc := { signature := some s, chr := some h, chat := (skipTag 0x7F4C elems).1,
                 ced := (skipTag 0x5F25 (skipTag 0x7F4C elems).2).1,
                 cxd := (skipTag 0x5F24 (skipTag 0x5F25 (skipTag 0x7F4C elems).2).2).1 },
        certlen := (certificateFollowedBy o p h s elems).length,
        po := encodeElements (skipTag 0x5F24 (skipTag 0x5F25 (skipTag 0x7F4C elems).2).2).2,
        children := tlv 0x06 o ++ tlv 0x86 p } := by
    simp [cvcDecodeHolder, asn1Next_tlv_append 0x5F20 (by decide) h hh, o1, o2, o3, hopt]
  have k5 := cvcDecodeExtensions_encodeElements
    { signature := some s, chr := some h, chat := (skipTag 0x7F4C elems).1,
      ced := (skipTag 0x5F25 (skipTag 0x7F4C elems).2).1,
      cxd := (skipTag 0x5F24 (skipTag 0x5F25 (skipTag 0x7F4C elems).2).2).1 }
    (certificateFollowedBy o p h s elems).length (tlv 0x06 o ++ tlv 0x86 p)
    (skipTag 0x5F24 (skipTag 0x5F25 (skipTag 0x7F4C elems).2).2).2
    (fun e he => htag e (t1 e (t2 e (t3 e he)))) (fun e he => hsz e (t1 e (t2 e (t3 e he))))
  have k3b : cvcDecodeToKey (certificateFollowedBy o p h s elems) = some
      { cvc := { signature := some s }, certlen := (certificateFollowedBy o p h s elems).length,
        po := tlv 0x5F20 h ++ encodeElements elems, children := tlv 0x06 o ++ tlv 0x86 p } := k3
  simp only [cvcDecode, cvcDecodeToPublicKey, cvcDecodeToExtensions, k3b, Option.some_bind, k4, k5]
  generalize (skipTag 0x5F24 (skipTag 0x5F25 (skipTag 0x7F4C elems).2).2).2 = e3
  match e3 with
  | [] => simp [cvcDecodePublicKey_byReference _ _ o p ho hp]
  | [e] =>
    by_cases he : e.1 = 0x65
    · simp [he, cvcDecodePublicKey_byReference _ _ o p ho hp]
    · simp [he]
  | _ :: _ :: _ => simp

theorem cvcDecode_presence (cert : List Nat) (n : Nat) (r : cvc)
    (h : cvcDecode cert = some (n, r)) :
    r.chr ≠ none ∧ r.pukoid ≠ none ∧ r.signature ≠ none := by
  obtain ⟨s5, s6, h5, h6, hr, _⟩ := cvcDecode_some_publicKey cert n r h
  obtain ⟨s3, s4, h3, h4, h5, _, _⟩ := cvcDecodeToPublicKey_some cert s5 h5
  have hsig := cvcDecodeToKey_signature cert s3 h3
  obtain ⟨hd, chat, po1, ced, po2, cxd, po3, _, _, _, _, _, hs4⟩ := cvcDecodeHolder_some s3 s4 h4
  have h4c : s4.cvc.chr ≠ none ∧ s4.cvc.signature ≠ none := by
    rw [hs4]; exact ⟨by simp, hsig⟩
  have h5c : s5.cvc.chr ≠ none ∧ s5.cvc.signature ≠ none := by
    rcases cvcDecodeExtensions_some s4 s5 h5 with ⟨_, hs5⟩ | ⟨_, x, _, _, _, hs5⟩ <;>
      rw [hs5] <;> exact h4c
  have h6c : s6.cvc.chr ≠ none ∧ s6.cvc.pukoid ≠ none ∧ s6.cvc.signature ≠ none := by
    obtain ⟨o, _, _, hk⟩ := cvcDecodePublicKey_some s5 s6 h6
    rcases hk with ⟨_, _, p, _, _, hc⟩ | ⟨_, e81, e82, _, _, _, _, hk⟩
    · rw [hc]; exact ⟨h5c.1, by simp, h5c.2⟩
    · rcases hk with ⟨_, hc⟩ | ⟨_, e83, e84, e85, e86, e87, _, _, _, _, _, _, _, _, _, _, hc⟩ <;>
        rw [hc] <;> exact ⟨h5c.1, by simp, h5c.2⟩
  rw [hr]
  exact h6c

/-! ## What stands behind the last element of the public key -/

theorem encodeLength_length_mono (n m : Nat) (h : n ≤ m) :
    (encodeLength n).length ≤ (encodeLength m).length := by
  unfold encodeLength
  split_ifs <;> simp <;> omega

theorem length_tlv_mono (t : Nat) (c d : List Nat) (h : c.length ≤ d.length) :
    (tlv t c).length ≤ (tlv t d).length := by
  have := encodeLength_length_mono _ _ h
  rw [length_tlv, length_tlv]
  omega

/-- A buffer that begins with an element is valid exactly when the content of the
element is, if its tag is constructed, and the bytes behind the element are. -/
theorem asn1Validate_tlv_append_iff (t : Nat) (ht : validTag t) (c : List Nat)
    (hc : c.length < 2 ^ 32) (r : List Nat) :
    asn1Validate (tlv t c ++ r) = 0 ↔
      ((encodeTag t).headD 0 / 32 % 2 = 1 → asn1Validate c = 0) ∧ asn1Validate r = 0 := by
  rw [asn1Validate_eq_zero, asn1Validate_eq_zero r]
  have hlen := length_lt_tlv t c
  have hl : (tlv t c ++ r).length = (tlv t c).length + r.length := List.length_append _ _
  obtain ⟨k, hk⟩ : ∃ k, (tlv t c ++ r).length = k + 1 := ⟨(tlv t c ++ r).length - 1, by omega⟩
  rw [hk]
  have hn := asn1Next_tlv_append t ht c hc r
  have hhead : (tlv t c ++ r).headD 0 = (encodeTag t).headD 0 := by
    unfold tlv encodeTag; split_ifs <;> simp
  have fc : asn1ValidateAux k c = asn1ValidateAux c.length c :=
    asn1ValidateAux_fuel k c (by omega) c.length (le_refl _)
  have fr : asn1ValidateAux k r = asn1ValidateAux r.length r :=
    asn1ValidateAux_fuel k r (by omega) r.length (le_refl _)
  cases hx : tlv t c ++ r with
  | nil => rw [hx] at hl; simp at hl; omega
  | cons x xs =>
    rw [hx] at hn hhead
    simp only [List.headD_cons] at hhead
    rw [asn1ValidateAux, hn]
    simp only [Bool.and_eq_true, fr, hhead]
    by_cases hb : (encodeTag t).headD 0 / 32 % 2 = 1
    · simp only [hb, if_true, fc, true_implies, asn1Validate_eq_zero]
    · rw [if_neg hb]
      exact ⟨fun h => ⟨fun h1 => absurd h1 hb, h.2⟩, fun h => ⟨rfl, h.2⟩⟩

theorem cvcDecodeHolder_withKey (k : List Nat) (n : Nat) (s : DecodeState) :
    cvcDecodeHolder (withKey k n s) = (cvcDecodeHolder s).map (withKey k n) := by
  unfold cvcDecodeHolder withKey
  simp only
  repeat' split
  all_goals simp_all

theorem cvcDecodeExtensions_withKey (k : List Nat) (n : Nat) (s : DecodeState) :
    cvcDecodeExtensions (withKey k n s) =
      (cvcDecodeExtensions s).map (fun t => { withKey k n t with po := k }) := by
  unfold cvcDecodeExtensions withKey
  simp only
  repeat' split
  all_goals simp_all

theorem cvcDecodeExtensions_po (s s' : DecodeState) (h : cvcDecodeExtensions s = some s') :
    s'.po = s.children ∧ s'.children = s.children ∧ s'.certlen = s.certlen := by
  rcases cvcDecodeExtensions_some s s' h with ⟨_, hs⟩ | ⟨_, x, _, _, _, hs⟩ <;> rw [hs] <;> simp

theorem cvcDecodeHolder_children (s s' : DecodeState) (h : cvcDecodeHolder s = some s') :
    s'.children = s.children ∧ s'.certlen = s.certlen := by
  obtain ⟨hd, chat, po1, ced, po2, cxd, po3, _, _, _, _, _, hs⟩ := cvcDecodeHolder_some s s' h
  rw [hs]; simp

theorem cvcDecodePublicKey_referenceKey (s : DecodeState) (o p rest : List Nat)
    (hpo : s.po = referenceKey o p rest) (ho : o.length < 2 ^ 32) (hp : p.length < 2 ^ 32) :
    cvcDecodePublicKey s =
      some { s with cvc := { s.cvc with pukoid := some o, publicPoint := some p },
                    po := rest } := by
  simp [cvcDecodePublicKey, hpo, referenceKey, asn1NextTag_tlv_append 0x06 (by decide) _ ho,
    asn1Tag_tlv_append 0x86 (by decide), asn1NextTag_tlv_append 0x86 (by decide) _ hp,
    tlv_ne_nil]

theorem cvcDecodePublicKey_explicitKey (s : DecodeState) (o m a b g n q f rest : List Nat)
    (hpo : s.po = explicitKey o m a b g n q f rest)
    (ho : o.length < 2 ^ 32) (hm : m.length < 2 ^ 32) (ha : a.length < 2 ^ 32)
    (hb : b.length < 2 ^ 32) (hg : g.length < 2 ^ 32) (hn : n.length < 2 ^ 32)
    (hq : q.length < 2 ^ 32) (hf : f.length < 2 ^ 32) :
    cvcDecodePublicKey s =
      some { s with
             cvc := { s.cvc with pukoid := some o, primeOrModulus := some m,
                                 coefficientAorExponent := some a, coefficientB := some b,
                                 basePointG := some g, order := some n,
                                 publicPoint := some q, cofactor := some f },
             po := rest } := by
  simp [cvcDecodePublicKey, hpo, explicitKey, asn1NextTag_tlv_append 0x06 (by decide) _ ho,
    asn1Tag_tlv_append 0x81 (by decide), asn1NextTag_tlv_append 0x81 (by decide) _ hm,
    asn1NextTag_tlv_append 0x82 (by decide) _ ha, asn1NextTag_tlv_append 0x83 (by decide) _ hb,
    asn1NextTag_tlv_append 0x84 (by decide) _ hg, asn1NextTag_tlv_append 0x85 (by decide) _ hn,
    asn1NextTag_tlv_append 0x86 (by decide) _ hq, asn1NextTag_tlv_append 0x87 (by decide) _ hf,
    tlv_ne_nil]

theorem asn1Validate_primitive_append_iff (t : Nat) (ht : validTag t) (c : List Nat)
    (hc : c.length < 2 ^ 32) (hp : (encodeTag t).headD 0 / 32 % 2 ≠ 1) (r : List Nat) :
    asn1Validate (tlv t c ++ r) = 0 ↔ asn1Validate r = 0 := by
  rw [asn1Validate_tlv_append_iff t ht c hc r]
  exact ⟨fun h => h.2, fun h => ⟨fun hx => absurd hx hp, h⟩⟩

theorem asn1Validate_referenceKey (o p rest : List Nat)
    (ho : o.length < 2 ^ 32) (hp : p.length < 2 ^ 32) :
    asn1Validate (referenceKey o p rest) = 0 ↔ asn1Validate rest = 0 := by
  unfold referenceKey
  rw [asn1Validate_primitive_append_iff 0x06 (by decide) o ho (by decide),
    asn1Validate_primitive_append_iff 0x86 (by decide) p hp (by decide)]

theorem asn1Validate_explicitKey (o m a b g n q f rest : List Nat)
    (ho : o.length < 2 ^ 32) (hm : m.length < 2 ^ 32) (ha : a.length < 2 ^ 32)
    (hb : b.length < 2 ^ 32) (hg : g.length < 2 ^ 32) (hn : n.length < 2 ^ 32)
    (hq : q.length < 2 ^ 32) (hf : f.length < 2 ^ 32) :
    asn1Validate (explicitKey o m a b g n q f rest) = 0 ↔ asn1Validate rest = 0 := by
  unfold explicitKey
  rw [asn1Validate_primitive_append_iff 0x06 (by decide) o ho (by decide),
    asn1Validate_primitive_append_iff 0x81 (by decide) m hm (by decide),
    asn1Validate_primitive_append_iff 0x82 (by decide) a ha (by decide),
    asn1Validate_primitive_append_iff 0x83 (by decide) b hb (by decide),
    asn1Validate_primitive_append_iff 0x84 (by decide) g hg (by decide),
    asn1Validate_primitive_append_iff 0x85 (by decide) n hn (by decide),
    asn1Validate_primitive_append_iff 0x86 (by decide) q hq (by decide),
    asn1Validate_primitive_append_iff 0x87 (by decide) f hf (by decide)]

theorem asn1Validate_carElement (car : bytestring_s) (hc : (car.getD []).length < 2 ^ 32) :
    asn1Validate (carElement car) = 0 := by
  cases car with
  | none => exact asn1Validate_nil
  | some c => exact asn1Validate_tlv_primitive 0x42 (by decide) c hc (by decide)

theorem length_carElement (car : bytestring_s) :
    (car.getD []).length ≤ (carElement car).length := by
  cases car with
  | none => simp [carElement]
  | some c =>
    have := length_lt_tlv 0x42 c
    simp only [carElement, Option.getD_some]
    omega

theorem cvcDecodeProfile_certificateOf (r : cvc) (n : Nat) (prof : List Nat) (car : bytestring_s)
    (key tail : List Nat) (hprof : prof.length < 2 ^ 32) (hcar : (car.getD []).length < 2 ^ 32)
    (hkey : key.length < 2 ^ 32) (hr : r.car = none) :
    cvcDecodeProfile
        { cvc := r, certlen := n,
          po := tlv 0x5F29 prof ++ (carElement car ++ (tlv 0x7F49 key ++ tail)),
          children := tlv 0x5F29 prof ++ (carElement car ++ (tlv 0x7F49 key ++ tail)) } =
      if prof.head? = some 0 then
        some { cvc := { r with car := car }, certlen := n, po := tail, children := key }
      else none := by
  have h7 : ∀ x : List Nat, tlv 0x7F49 key ++ x = 0x7F :: 0x49 :: (encodeLength key.length ++
      (key ++ x)) := by
    intro x; simp [tlv, encodeTag]
  have h4 : ∀ (c x : List Nat), tlv 0x42 c ++ x = 0x42 :: (encodeLength c.length ++ (c ++ x)) := by
    intro c x; simp [tlv, encodeTag]
  simp only [cvcDecodeProfile, asn1Next_tlv_append 0x5F29 (by decide) prof hprof]
  cases prof with
  | nil =>
    cases car with
    | none => simp [carElement, h7]
    | some c => simp [carElement, h4]
  | cons v ps =>
    by_cases hv : v = 0
    · subst hv
      cases car with
      | none =>
        have hrr : ({ r with car := none } : cvc) = r := by
          cases r; simp only at hr; subst hr; rfl
        simp [carElement, asn1Tag_tlv_append 0x7F49 (by decide),
          asn1Next_tlv_append 0x7F49 (by decide) _ hkey, hrr]
      | some c =>
        simp only [Option.getD_some] at hcar
        simp [carElement, asn1Tag_tlv_append 0x42 (by decide),
          asn1Next_tlv_append 0x42 (by decide) _ hcar,
          asn1Next_tlv_append 0x7F49 (by decide) _ hkey]
    · simp [hv]

theorem cvcDecodeToKey_certificateOf (prof : List Nat) (car : bytestring_s)
    (key tail sig : List Nat)
    (hk : asn1Validate key = 0) (ht : asn1Validate tail = 0)
    (hsize : (certificateOf prof car key tail sig).length < 2 ^ 31) :
    cvcDecodeToKey (certificateOf prof car key tail sig) =
      if prof.head? = some 0 then
        some { cvc := { signature := some sig, car := car },
               certlen := (certificateOf prof car key tail sig).length,
               po := tail, children := key }
      else none := by
  have e1 := length_lt_tlv 0x7F21
    (tlv 0x7F4E (tlv 0x5F29 prof ++ (carElement car ++ (tlv 0x7F49 key ++ tail)))
      ++ tlv 0x5F37 sig)
  have e2 := length_lt_tlv 0x7F4E
    (tlv 0x5F29 prof ++ (carElement car ++ (tlv 0x7F49 key ++ tail)))
  have e3 := length_lt_tlv 0x5F37 sig
  have e4 := length_lt_tlv 0x7F49 key
  have e5 := length_lt_tlv 0x5F29 prof
  have e6 := length_carElement car
  unfold certificateOf at hsize
  simp only [List.length_append] at e1 e2 e3 e4 e5 hsize
  have hK : key.length < 2 ^ 32 := by omega
  have hs : sig.length < 2 ^ 32 := by omega
  have hP : prof.length < 2 ^ 32 := by omega
  have hc : (car.getD []).length < 2 ^ 32 := by omega
  have hB : (tlv 0x5F29 prof ++ (carElement car ++ (tlv 0x7F49 key ++ tail))).length
      < 2 ^ 32 := by
    simp only [List.length_append]; omega
  have hC : (tlv 0x7F4E (tlv 0x5F29 prof ++ (carElement car ++ (tlv 0x7F49 key ++ tail)))
      ++ tlv 0x5F37 sig).length < 2 ^ 32 := by
    simp only [List.length_append]; omega
  have vB : asn1Validate
      (tlv 0x5F29 prof ++ (carElement car ++ (tlv 0x7F49 key ++ tail))) = 0 :=
    asn1Validate_append _ _ (asn1Validate_tlv_primitive _ (by decide) _ hP (by decide))
      (asn1Validate_append _ _ (asn1Validate_carElement car hc)
        (asn1Validate_append _ _ (asn1Validate_tlv _ (by decide) _ hK (fun _ => hk)) ht))
  have vC : asn1Validate
      (tlv 0x7F4E (tlv 0x5F29 prof ++ (carElement car ++ (tlv 0x7F49 key ++ tail)))
        ++ tlv 0x5F37 sig) = 0 :=
    asn1Validate_append _ _ (asn1Validate_tlv _ (by decide) _ hB (fun _ => vB))
      (asn1Validate_tlv_primitive _ (by decide) _ hs (by decide))
  have vAll : asn1Validate (certificateOf prof car key tail sig) = 0 :=
    asn1Validate_tlv _ (by decide) _ hC (fun _ => vC)
  have s1 : cvcDecodeOuter (certificateOf prof car key tail sig) = some
      { cvc := {}, certlen := (certificateOf prof car key tail sig).length,
        po := tlv 0x7F4E (tlv 0x5F29 prof ++ (carElement car ++ (tlv 0x7F49 key ++ tail)))
          ++ tlv 0x5F37 sig,
        children := tlv 0x7F4E (tlv 0x5F29 prof ++ (carElement car ++ (tlv 0x7F49 key ++ tail)))
          ++ tlv 0x5F37 sig } := by
    unfold cvcDecodeOuter
    rw [vAll]
    unfold certificateOf
    rw [asn1Next_tlv 0x7F21 (by decide) _ hC]
    simp
  have s2 : cvcDecodeContainer
      { cvc := {}, certlen := (certificateOf prof car key tail sig).length,
        po := tlv 0x7F4E (tlv 0x5F29 prof ++ (carElement car ++ (tlv 0x7F49 key ++ tail)))
          ++ tlv 0x5F37 sig,
        children := tlv 0x7F4E (tlv 0x5F29 prof ++ (carElement car ++ (tlv 0x7F49 key ++ tail)))
          ++ tlv 0x5F37 sig } =
      some
      { cvc := { signature := some sig },
        certlen := (certificateOf prof car key tail sig).length,
        po := tlv 0x5F29 prof ++ (carElement car ++ (tlv 0x7F49 key ++ tail)),
        children := tlv 0x5F29 prof ++ (carElement car ++ (tlv 0x7F49 key ++ tail)) } := by
    simp [cvcDecodeContainer, asn1Next_tlv_append 0x7F4E (by decide) _ hB,
      asn1Next_tlv 0x5F37 (by decide) _ hs]
  have s3 := cvcDecodeProfile_certificateOf { signature := some sig }
    (certificateOf prof car key tail sig).length prof car key tail hP hc hK rfl
  simp only [cvcDecodeToKey, s1, s2, Option.some_bind, s3]

theorem length_certificateOf_mono (prof : List Nat) (car : bytestring_s)
    (key key2 tail sig : List Nat) (h : key.length ≤ key2.length) :
    (certificateOf prof car key tail sig).length ≤
      (certificateOf prof car key2 tail sig).length := by
  unfold certificateOf
  apply length_tlv_mono
  simp only [List.length_append, Nat.add_le_add_iff_right]
  apply length_tlv_mono
  simp only [List.length_append, Nat.add_le_add_iff_left, Nat.add_le_add_iff_right]
  exact length_tlv_mono _ _ _ h

theorem asn1Validate_certificateOf (prof : List Nat) (car : bytestring_s)
    (key tail sig : List Nat)
    (hsize : (certificateOf prof car key tail sig).length < 2 ^ 31)
    (hv : asn1Validate (certificateOf prof car key tail sig) = 0) :
    asn1Validate key = 0 ∧ asn1Validate tail = 0 := by
  have e1 := length_lt_tlv 0x7F21
    (tlv 0x7F4E (tlv 0x5F29 prof ++ (carElement car ++ (tlv 0x7F49 key ++ tail)))
      ++ tlv 0x5F37 sig)
  have e2 := length_lt_tlv 0x7F4E
    (tlv 0x5F29 prof ++ (carElement car ++ (tlv 0x7F49 key ++ tail)))
  have e4 := length_lt_tlv 0x7F49 key
  have e5 := length_lt_tlv 0x5F29 prof
  have e6 := length_carElement car
  unfold certificateOf at hsize hv
  simp only [List.length_append] at e1 e2 e4 e5 hsize
  have hK : key.length < 2 ^ 32 := by omega
  have hP : prof.length < 2 ^ 32 := by omega
  have hc : (car.getD []).length < 2 ^ 32 := by omega
  have hB : (tlv 0x5F29 prof ++ (carElement car ++ (tlv 0x7F49 key ++ tail))).length
      < 2 ^ 32 := by
    simp only [List.length_append]; omega
  have hC : (tlv 0x7F4E (tlv 0x5F29 prof ++ (carElement car ++ (tlv 0x7F49 key ++ tail)))
      ++ tlv 0x5F37 sig).length < 2 ^ 32 := by
    simp only [List.length_append]; omega
  have v1 := ((asn1Validate_tlv_append_iff 0x7F21 (by decide) _ hC []).1
    (by rw [List.append_nil]; exact hv)).1 (by decide)
  have v2 := ((asn1Validate_tlv_append_iff 0x7F4E (by decide) _ hB _).1 v1).1 (by decide)
  have v3 := ((asn1Validate_tlv_append_iff 0x5F29 (by decide) _ hP _).1 v2).2
  have v4 : asn1Validate (tlv 0x7F49 key ++ tail) = 0 := by
    cases car with
    | none => simpa [carElement] using v3
    | some c =>
      simp only [Option.getD_some] at hc
      simp only [carElement] at v3
      exact ((asn1Validate_tlv_append_iff 0x42 (by decide) _ hc _).1 v3).2
  have v5 := (asn1Validate_tlv_append_iff 0x7F49 (by decide) _ hK _).1 v4
  exact ⟨v5.1 (by decide), v5.2⟩

theorem cvcDecode_valid (cert : List Nat) (n : Nat) (r : cvc)
    (h : cvcDecode cert = some (n, r)) : asn1Validate cert = 0 := by
  by_contra hne
  have : cvcDecodeOuter cert = none := by simp [cvcDecodeOuter, hne]
  rw [cvcDecode_eq, this] at h
  simp at h

/-- The stages of `cvcDecode` behind line 459 do not look at the content of the public
key container before line 495, and `cvcDecodePublicKey` does not look behind
the last element of the key: two states that differ in `certlen` and in what
stands behind the key elements give the same record. -/
theorem cvcDecode_from_key (s3 : DecodeState) (k2 : List Nat) (n2 : Nat)
    (f : DecodeState → cvc)
    (hpk : ∀ s : DecodeState, s.po = s3.children →
      ∃ po, cvcDecodePublicKey s = some { s with cvc := f s, po := po })
    (hpk2 : ∀ s : DecodeState, s.po = k2 →
      ∃ po, cvcDecodePublicKey s = some { s with cvc := f s, po := po })
    (hf : ∀ s t : DecodeState, s.cvc = t.cvc → f s = f t)
    (n : Nat) (r : cvc)
    (h : ((((cvcDecodeHolder s3).bind cvcDecodeExtensions).bind cvcDecodePublicKey).map
      fun s => (s.certlen, s.cvc)) = some (n, r)) :
    ((((cvcDecodeHolder (withKey k2 n2 s3)).bind cvcDecodeExtensions).bind
      cvcDecodePublicKey).map fun s => (s.certlen, s.cvc)) = some (n2, r) := by
  rw [cvcDecodeHolder_withKey]
  cases h4 : cvcDecodeHolder s3 with
  | none => rw [h4] at h; simp at h
  | some s4 =>
    rw [h4] at h
    simp only [Option.some_bind, Option.map_some'] at h ⊢
    rw [cvcDecodeExtensions_withKey]
    cases h5 : cvcDecodeExtensions s4 with
    | none => rw [h5] at h; simp at h
    | some s5 =>
      rw [h5] at h
      simp only [Option.some_bind, Option.map_some'] at h ⊢
      have c4 := cvcDecodeHolder_children s3 s4 h4
      have c5 := cvcDecodeExtensions_po s4 s5 h5
      obtain ⟨po, e⟩ := hpk s5 (by rw [c5.1, c4.1])
      obtain ⟨po2, e2⟩ := hpk2 { withKey k2 n2 s5 with po := k2 } rfl
      rw [e] at h
      rw [e2]
      simp only [Option.map_some', Option.some.injEq, Prod.mk.injEq] at h ⊢
      refine ⟨rfl, ?_⟩
      rw [← h.2]
      exact hf _ _ rfl

theorem length_key_le_certificateOf (prof : List Nat) (car : bytestring_s)
    (key tail sig : List Nat) :
    key.length + 6 ≤ (certificateOf prof car key tail sig).length := by
  have e1 := length_lt_tlv 0x7F21
    (tlv 0x7F4E (tlv 0x5F29 prof ++ (carElement car ++ (tlv 0x7F49 key ++ tail)))
      ++ tlv 0x5F37 sig)
  have e2 := length_lt_tlv 0x7F4E
    (tlv 0x5F29 prof ++ (carElement car ++ (tlv 0x7F49 key ++ tail)))
  have e4 := length_lt_tlv 0x7F49 key
  unfold certificateOf
  simp only [List.length_append] at e1 e2 e4 ⊢
  omega

/-- Claim C21: `cvcDecode` does not require the public key container 0x7F49 to be
exactly consumed.  For every accepted certificate
`7F21{ 7F4E{ 5F29 prof, [42 car], 7F49{ key, more }, tail }, 5F37 sig }` whose `key` is
by reference (`06 o, 86 p`) or has explicit parameters (`06 o, 81 .. 87 f`),
the certificate with the well-formed bytes `extra` inserted behind the last
key element (behind 0x86, or behind 0x87), enclosing lengths adjusted, is
accepted too and gives the same record; the return is the length of the
longer certificate. -/
theorem cvcDecode_key_container_rest (prof : List Nat) (car : bytestring_s)
    (key : List Nat → List Nat) (more extra tail sig : List Nat) (n : Nat) (r : cvc)
    (hkey : (∃ o p, key = referenceKey o p) ∨
      (∃ o m a b g nn q f, key = explicitKey o m a b g nn q f))
    (hacc : cvcDecode (certificateOf prof car (key more) tail sig) = some (n, r))
    (hextra : asn1Validate extra = 0)
    (hsize : (certificateOf prof car (key (extra ++ more)) tail sig).length < 2 ^ 31) :
    cvcDecode (certificateOf prof car (key (extra ++ more)) tail sig) =
      some ((certificateOf prof car (key (extra ++ more)) tail sig).length, r) := by
  have hlen : (key more).length ≤ (key (extra ++ more)).length := by
    rcases hkey with ⟨o, p, rfl⟩ | ⟨o, m, a, b, g, nn, q, f, rfl⟩
    · simp only [referenceKey, List.length_append]; omega
    · simp only [explicitKey, List.length_append]; omega
  have hsize0 := lt_of_le_of_lt
    (length_certificateOf_mono prof car (key more) (key (extra ++ more)) tail sig hlen) hsize
  have hv := asn1Validate_certificateOf prof car (key more) tail sig hsize0
    (cvcDecode_valid _ n r hacc)
  have hk2 := length_key_le_certificateOf prof car (key (extra ++ more)) tail sig
  have hkl : (key (extra ++ more)).length < 2 ^ 31 := by omega
  -- the key elements are read alike in front of `more` and of `extra ++ more`
  obtain ⟨f, hpk, hpk2, hf, hv2⟩ : ∃ f : DecodeState → cvc,
      (∀ s : DecodeState, s.po = key more →
        ∃ po, cvcDecodePublicKey s = some { s with cvc := f s, po := po }) ∧
      (∀ s : DecodeState, s.po = key (extra ++ more) →
        ∃ po, cvcDecodePublicKey s = some { s with cvc := f s, po := po }) ∧
      (∀ s t : DecodeState, s.cvc = t.cvc → f s = f t) ∧
      asn1Validate (key (extra ++ more)) = 0 := by
    rcases hkey with ⟨o, p, rfl⟩ | ⟨o, m, a, b, g, nn, q, f, rfl⟩
    · have e6 := length_lt_tlv 0x06 o
      have e7 := length_lt_tlv 0x86 p
      simp only [referenceKey, List.length_append] at hkl
      have ho : o.length < 2 ^ 32 := by omega
      have hp : p.length < 2 ^ 32 := by omega
      have vm := (asn1Validate_referenceKey o p more ho hp).1 hv.1
      refine ⟨fun s => { s.cvc with pukoid := some o, publicPoint := some p },
        fun s hs => ⟨_, cvcDecodePublicKey_referenceKey s o p _ hs ho hp⟩,
        fun s hs => ⟨_, cvcDecodePublicKey_referenceKey s o p _ hs ho hp⟩,
        fun s t hst => by simp only [hst],
        (asn1Validate_referenceKey o p _ ho hp).2 (asn1Validate_append _ _ hextra vm)⟩
    · have e1 := length_lt_tlv 0x06 o
      have e2 := length_lt_tlv 0x81 m
      have e3 := length_lt_tlv 0x82 a
      have e4 := length_lt_tlv 0x83 b
      have e5 := length_lt_tlv 0x84 g
      have e6 := length_lt_tlv 0x85 nn
      have e7 := length_lt_tlv 0x86 q
      have e8 := length_lt_tlv 0x87 f
      simp only [explicitKey, List.length_append] at hkl
      have ho : o.length < 2 ^ 32 := by omega
      have hm : m.length < 2 ^ 32 := by omega
      have ha : a.length < 2 ^ 32 := by omega
      have hb : b.length < 2 ^ 32 := by omega
      have hg : g.length < 2 ^ 32 := by omega
      have hn : nn.length < 2 ^ 32 := by omega
      have hq : q.length < 2 ^ 32 := by omega
      have hff : f.length < 2 ^ 32 := by omega
      have vm := (asn1Validate_explicitKey o m a b g nn q f more ho hm ha hb hg hn hq hff).1 hv.1
      refine ⟨fun s => { s.cvc with pukoid := some o, primeOrModulus := some m,
                                     coefficientAorExponent := some a, coefficientB := some b,
                                     basePointG := some g, order := some nn,
                                     publicPoint := some q, cofactor := some f },
        fun s hs => ⟨_, cvcDecodePublicKey_explicitKey s o m a b g nn q f _ hs
          ho hm ha hb hg hn hq hff⟩,
        fun s hs => ⟨_, cvcDecodePublicKey_explicitKey s o m a b g nn q f _ hs
          ho hm ha hb hg hn hq hff⟩,
        fun s t hst => by simp only [hst],
        (asn1Validate_explicitKey o m a b g nn q f _ ho hm ha hb hg hn hq hff).2
          (asn1Validate_append _ _ hextra vm)⟩
  have k3 := cvcDecodeToKey_certificateOf prof car (key more) tail sig hv.1 hv.2 hsize0
  have k3b := cvcDecodeToKey_certificateOf prof car (key (extra ++ more)) tail sig hv2 hv.2 hsize
  by_cases hprof : prof.head? = some 0
  · rw [if_pos hprof] at k3 k3b
    simp only [cvcDecode, cvcDecodeToPublicKey, cvcDecodeToExtensions, k3, k3b,
      Option.some_bind] at hacc ⊢
    exact cvcDecode_from_key
      { cvc := { signature := some sig, car := car },
        certlen := (certificateOf prof car (key more) tail sig).length,
        po := tail, children := key more }
      (key (extra ++ more)) (certificateOf prof car (key (extra ++ more)) tail sig).length
      f hpk hpk2 hf n r hacc
  · rw [if_neg hprof] at k3
    simp [cvcDecode, cvcDecodeToPublicKey, cvcDecodeToExtensions, k3] at hacc

/-- Witness for C21: the element `5F24 01 09` behind the public point of a certificate by
reference, and behind the cofactor of a certificate with explicit
parameters. -/
theorem cvcDecode_key_container_rest_witness :
    cvcDecode (sampleReferenceCertificate (tlv 0x5F24 [0x09] ++ [])) =
      some ((sampleReferenceCertificate (tlv 0x5F24 [0x09] ++ [])).length,
        { sampleRecord with car := some [0x43, 0x41] }) ∧
    cvcDecode (sampleParameterCertificate (tlv 0x5F24 [0x09] ++ [])) =
      some ((sampleParameterCertificate (tlv 0x5F24 [0x09] ++ [])).length,
        { sampleRecord with primeOrModulus := some [0x0B],
                            coefficientAorExponent := some [0x01], coefficientB := some [0x02],
                            basePointG := some [0x04, 0x05, 0x06], order := some [0x0D],
                            cofactor := some [0x01] }) :=
  ⟨cvcDecode_key_container_rest [0x00] (some [0x43, 0x41]) (referenceKey sampleOid samplePoint)
      [] (tlv 0x5F24 [0x09]) (tlv 0x5F20 holder01) sampleSignature
      (sampleReferenceCertificate []).length { sampleRecord with car := some [0x43, 0x41] }
      (Or.inl ⟨_, _, rfl⟩) (by decide) (by decide) (by decide),
    cvcDecode_key_container_rest [0x00] none
      (explicitKey sampleOid [0x0B] [0x01] [0x02] [0x04, 0x05, 0x06] [0x0D] samplePoint [0x01])
      [] (tlv 0x5F24 [0x09]) (tlv 0x5F20 holder01) sampleSignature
      (sampleParameterCertificate []).length
      { sampleRecord with primeOrModulus := some [0x0B],
                          coefficientAorExponent := some [0x01], coefficientB := some [0x02],
                          basePointG := some [0x04, 0x05, 0x06], order := some [0x0D],
                          cofactor := some [0x01] }
      (Or.inr ⟨_, _, _, _, _, _, _, _, rfl⟩) (by decide) (by decide) (by decide)⟩

/-! ## Elements behind the holder reference, for every certificate and request -/

theorem cvcDecodePublicKey_withOptional (a b c d : bytestring_s) (n : Nat) (s : DecodeState) :
    cvcDecodePublicKey (withOptional a b c d n s) =
      (cvcDecodePublicKey s).map (withOptional a b c d n) := by
  unfold cvcDecodePublicKey withOptional
  simp only
  repeat' split
  all_goals simp_all

/-- A request around a certificate `7F21{ X }` is decoded like the certificate, with
the outer fields and the length of the request in addition. -/
theorem cvcDecode_requestOf_tlv (X c s : List Nat)
    (hsize : (requestOf (tlv 0x7F21 X) c s).length < 2 ^ 31) :
    cvcDecode (requestOf (tlv 0x7F21 X) c s) =
      (cvcDecode (tlv 0x7F21 X)).map fun x =>
        ((requestOf (tlv 0x7F21 X) c s).length,
          { x.2 with outer_car := some c, outerSignature := some s }) := by
  have e1 := length_lt_tlv 0x67 (tlv 0x7F21 X ++ (tlv 0x42 c ++ tlv 0x5F37 s))
  have e2 := length_lt_tlv 0x42 c
  have e3 := length_lt_tlv 0x5F37 s
  have e4 := length_lt_tlv 0x7F21 X
  have hsize2 := hsize
  unfold requestOf at hsize2
  simp only [List.length_append] at e1
  have hc : c.length < 2 ^ 32 := by omega
  have hs : s.length < 2 ^ 32 := by omega
  have hXl : X.length < 2 ^ 32 := by omega
  have hX : (tlv 0x7F21 X ++ (tlv 0x42 c ++ tlv 0x5F37 s)).length < 2 ^ 32 := by
    simp only [List.length_append]; omega
  have hB := asn1Next_tlv 0x7F21 (by decide) X hXl
  have vrest : asn1Validate (tlv 0x42 c ++ tlv 0x5F37 s) = 0 :=
    asn1Validate_append _ _ (asn1Validate_tlv_primitive _ (by decide) _ hc (by decide))
      (asn1Validate_tlv_primitive _ (by decide) _ hs (by decide))
  have viff : asn1Validate (requestOf (tlv 0x7F21 X) c s) = 0 ↔
      asn1Validate (tlv 0x7F21 X) = 0 := by
    unfold requestOf
    have h1 := asn1Validate_tlv_append_iff 0x67 (by decide) _ hX []
    rw [List.append_nil] at h1
    have h2 := asn1Validate_tlv_append_iff 0x7F21 (by decide) X hXl (tlv 0x42 c ++ tlv 0x5F37 s)
    have h3 := asn1Validate_tlv_append_iff 0x7F21 (by decide) X hXl []
    rw [List.append_nil] at h3
    have d67 : (encodeTag 0x67).headD 0 / 32 % 2 = 1 := by decide
    rw [h1, h2, h3]
    exact ⟨fun h => ⟨(h.1 d67).1, h.2⟩, fun h => ⟨fun _ => ⟨h.1, vrest⟩, h.2⟩⟩
  by_cases hval : asn1Validate (tlv 0x7F21 X) = 0
  · have hOutB : cvcDecodeOuter (tlv 0x7F21 X) = some ⟨{}, (tlv 0x7F21 X).length, X, X⟩ := by
      simp [cvcDecodeOuter, hval, hB]
    have hOutR : cvcDecodeOuter (requestOf (tlv 0x7F21 X) c s) =
        some (withOuter (some c) (some s) (requestOf (tlv 0x7F21 X) c s).length
          ⟨{}, (tlv 0x7F21 X).length, X, X⟩) := by
      unfold cvcDecodeOuter
      rw [viff.2 hval]
      unfold requestOf
      simp [asn1Next_tlv 0x67 (by decide) _ hX,
        asn1Next_tlv_append 0x7F21 (by decide) X hXl,
        asn1Next_tlv_append 0x42 (by decide) _ hc,
        asn1Next_tlv 0x5F37 (by decide) _ hs, withOuter]
    rw [cvcDecode_of_outer _ _ hOutR, cvcDecode_withOuter, cvcDecode_of_outer _ _ hOutB]
    cases ((((cvcDecodeContainer ⟨{}, (tlv 0x7F21 X).length, X, X⟩).bind cvcDecodeProfile).bind
        cvcDecodeHolder).bind cvcDecodeExtensions).bind cvcDecodePublicKey <;> rfl
  · have h1 : cvcDecodeOuter (tlv 0x7F21 X) = none := by simp [cvcDecodeOuter, hval]
    have h2 : cvcDecodeOuter (requestOf (tlv 0x7F21 X) c s) = none := by
      have : asn1Validate (requestOf (tlv 0x7F21 X) c s) ≠ 0 := fun h => hval (viff.1 h)
      simp [cvcDecodeOuter, this]
    rw [cvcDecode_none_of_outer _ h1, cvcDecode_none_of_outer _ h2]
    rfl

theorem length_certificateOf_mono_tail (prof : List Nat) (car : bytestring_s)
    (key tail tail2 sig : List Nat) (h : tail.length ≤ tail2.length) :
    (certificateOf prof car key tail sig).length ≤
      (certificateOf prof car key tail2 sig).length := by
  unfold certificateOf
  apply length_tlv_mono
  simp only [List.length_append, Nat.add_le_add_iff_right]
  apply length_tlv_mono
  simp only [List.length_append, Nat.add_le_add_iff_left]
  exact h

theorem length_tail_le_certificateOf (prof : List Nat) (car : bytestring_s)
    (key tail sig : List Nat) :
    tail.length + 4 ≤ (certificateOf prof car key tail sig).length := by
  have e1 := length_lt_tlv 0x7F21
    (tlv 0x7F4E (tlv 0x5F29 prof ++ (carElement car ++ (tlv 0x7F49 key ++ tail)))
      ++ tlv 0x5F37 sig)
  have e2 := length_lt_tlv 0x7F4E
    (tlv 0x5F29 prof ++ (carElement car ++ (tlv 0x7F49 key ++ tail)))
  unfold certificateOf
  simp only [List.length_append] at e1 e2 ⊢
  omega

/-- The run of `cvcDecode` on a certificate with elements behind the holder reference,
given the record of the certificate without them. -/
theorem cvcDecode_certificateElements (prof : List Nat) (car : bytestring_s)
    (key h sig : List Nat) (elems : List (Nat × List Nat)) (n0 : Nat) (r0 : cvc)
    (hbase : cvcDecode (certificateElements prof car key h [] sig) = some (n0, r0))
    (htag : ∀ e ∈ elems, validTag e.1)
    (hvalid : asn1Validate (encodeElements elems) = 0)
    (hsize : (certificateElements prof car key h elems sig).length < 2 ^ 31) :
    cvcDecode (certificateElements prof car key h elems sig) =
      (extensionsBehind (skipTag 0x5F24 (skipTag 0x5F25 (skipTag 0x7F4C elems).2).2).2).map
        fun x => ((certificateElements prof car key h elems sig).length,
          { r0 with chat := (skipTag 0x7F4C elems).1,
                    ced := (skipTag 0x5F25 (skipTag 0x7F4C elems).2).1,
                    cxd := (skipTag 0x5F24 (skipTag 0x5F25 (skipTag 0x7F4C elems).2).2).1,
                    extensions := x }) := by
  have hmono : (certificateElements prof car key h [] sig).length ≤
      (certificateElements prof car key h elems sig).length := by
    unfold certificateElements
    apply length_certificateOf_mono_tail
    simp [encodeElements]
  have hsize0 := lt_of_le_of_lt hmono hsize
  have hv := asn1Validate_certificateOf prof car key _ sig hsize0 (cvcDecode_valid _ n0 r0 hbase)
  have ht := length_tail_le_certificateOf prof car key (tlv 0x5F20 h ++ encodeElements elems) sig
  have e5 := length_lt_tlv 0x5F20 h
  have hsize2 := hsize
  unfold certificateElements at hsize2
  simp only [List.length_append] at ht
  have hh : h.length < 2 ^ 32 := by omega
  have hsz : ∀ e ∈ elems, e.2.length < 2 ^ 32 := by
    intro e he
    have := length_le_encodeElements elems e he
    omega
  have vT : asn1Validate (tlv 0x5F20 h ++ encodeElements elems) = 0 :=
    asn1Validate_append _ _ (asn1Validate_tlv_primitive _ (by decide) _ hh (by decide)) hvalid
  have k3 := cvcDecodeToKey_certificateOf prof car key (tlv 0x5F20 h ++ encodeElements [])
    sig hv.1 hv.2 hsize0
  have k3e := cvcDecodeToKey_certificateOf prof car key (tlv 0x5F20 h ++ encodeElements elems)
    sig hv.1 vT hsize
  by_cases hprof : prof.head? = some 0
  swap
  · rw [if_neg hprof] at k3
    have k3' : cvcDecodeToKey (certificateElements prof car key h [] sig) = none := k3
    simp [cvcDecode, cvcDecodeToPublicKey, cvcDecodeToExtensions, k3'] at hbase
  rw [if_pos hprof] at k3 k3e
  have k3' : cvcDecodeToKey (certificateElements prof car key h [] sig) = some
      { cvc := { signature := some sig, car := car },
        certlen := (certificateElements prof car key h [] sig).length,
        po := tlv 0x5F20 h ++ encodeElements [], children := key } := k3
  have k3e' : cvcDecodeToKey (certificateElements prof car key h elems sig) = some
      { cvc := { signature := some sig, car := car },
        certlen := (certificateElements prof car key h elems sig).length,
        po := tlv 0x5F20 h ++ encodeElements elems, children := key } := k3e
  have t1 := skipTag_subset 0x7F4C elems
  have t2 := skipTag_subset 0x5F25 (skipTag 0x7F4C elems).2
  have t3 := skipTag_subset 0x5F24 (skipTag 0x5F25 (skipTag 0x7F4C elems).2).2
  have o1 := cvcOptional_encodeElements 0x7F4C elems htag hsz
  have o2 := cvcOptional_encodeElements 0x5F25 (skipTag 0x7F4C elems).2
    (fun e he => htag e (t1 e he)) (fun e he => hsz e (t1 e he))
  have o3 := cvcOptional_encodeElements 0x5F24 (skipTag 0x5F25 (skipTag 0x7F4C elems).2).2
    (fun e he => htag e (t1 e (t2 e he))) (fun e he => hsz e (t1 e (t2 e he)))
  have hopt : ∀ v : bytestring_s, (if v.isSome = true then v else none) = v := by
    intro v; cases v <;> rfl
  -- the run without the elements
  have b4 : cvcDecodeHolder
      { cvc := { signature := some sig, car := car },
        certlen := (certificateElements prof car key h [] sig).length,
        po := tlv 0x5F20 h ++ encodeElements [], children := key } =
      some
      { cvc := { signature := some sig, car := car, chr := some h },
        certlen := (certificateElements prof car key h [] sig).length,
        po := [], children := key } := by
    simp [cvcDecodeHolder, encodeElements, asn1Next_tlv 0x5F20 (by decide) h hh, cvcOptional]
  have b5 : cvcDecodeExtensions
      { cvc := { signature := some sig, car := car, chr := some h },
        certlen := (certificateElements prof car key h [] sig).length,
        po := [], children := key } =
      some
      { cvc := { signature := some sig, car := car, chr := some h },
        certlen := (certificateElements prof car key h [] sig).length,
        po := key, children := key } := by
    simp [cvcDecodeExtensions]
  simp only [cvcDecode, cvcDecodeToPublicKey, cvcDecodeToExtensions, k3', Option.some_bind,
    b4, b5] at hbase
  -- the run with the elements
  have k4 : cvcDecodeHolder
      { cvc := { signature := some sig, car := car },
        certlen := (certificateElements prof car key h elems sig).length,
        po := tlv 0x5F20 h ++ encodeElements elems, children := key } =
      some
      { cvc := { signature := some sig, car := car, chr := some h,
                 chat := (skipTag 0x7F4C elems).1,
                 ced := (skipTag 0x5F25 (skipTag 0x7F4C elems).2).1,
                 cxd := (skipTag 0x5F24 (skipTag 0x5F25 (skipTag 0x7F4C elems).2).2).1 },
        certlen := (certificateElements prof car key h elems sig).length,
        po := encodeElements (skipTag 0x5F24 (skipTag 0x5F25 (skipTag 0x7F4C elems).2).2).2,
        children := key } := by
    simp [cvcDecodeHolder, asn1Next_tlv_append 0x5F20 (by decide) h hh, o1, o2, o3, hopt]
  have k5 := cvcDecodeExtensions_encodeElements
    { signature := some sig, car := car, chr := some h, chat := (skipTag 0x7F4C elems).1,
      ced := (skipTag 0x5F25 (skipTag 0x7F4C elems).2).1,
      cxd := (skipTag 0x5F24 (skipTag 0x5F25 (skipTag 0x7F4C elems).2).2).1 }
    (certificateElements prof car key h elems sig).length key
    (skipTag 0x5F24 (skipTag 0x5F25 (skipTag 0x7F4C elems).2).2).2
    (fun e he => htag e (t1 e (t2 e (t3 e he)))) (fun e he => hsz e (t1 e (t2 e (t3 e he))))
  simp only [cvcDecode, cvcDecodeToPublicKey, cvcDecodeToExtensions, k3e', Option.some_bind, k4,
    k5]
  have hpk := fun (x : bytestring_s) => cvcDecodePublicKey_withOptional
    (skipTag 0x7F4C elems).1 (skipTag 0x5F25 (skipTag 0x7F4C elems).2).1
    (skipTag 0x5F24 (skipTag 0x5F25 (skipTag 0x7F4C elems).2).2).1 x
    (certificateElements prof car key h elems sig).length
    { cvc := { signature := some sig, car := car, chr := some h },
      certlen := (certificateElements prof car key h [] sig).length,
      po := key, children := key }
  cases h6 : cvcDecodePublicKey
      { cvc := { signature := some sig, car := car, chr := some h },
        certlen := (certificateElements prof car key h [] sig).length,
        po := key, children := key } with
  | none => rw [h6] at hbase; simp at hbase
  | some s6 =>
    rw [h6] at hbase hpk
    simp only [Option.map_some', Option.some.injEq, Prod.mk.injEq] at hbase
    obtain ⟨_, hr0⟩ := hbase
    subst hr0
    generalize (skipTag 0x5F24 (skipTag 0x5F25 (skipTag 0x7F4C elems).2).2).2 = e3
    match e3 with
    | [] =>
      have := hpk none
      simp only [withOptional] at this
      simp only [Option.some_bind, this, Option.map_some', withOptional, extensionsBehind]
    | [e] =>
      by_cases he : e.1 = 0x65
      · have := hpk (some e.2)
        simp only [withOptional] at this
        simp only [he, if_true, Option.some_bind, this, Option.map_some', withOptional,
          extensionsBehind]
      · simp [he, extensionsBehind]
    | _ :: _ :: _ => simp [extensionsBehind]

/-- The three look-aheads and lines 486-493 accept the elements exactly when their
tags are a sublist of `optionalTags`, and what they read is then what
`lookup` finds. -/
theorem extensionsBehind_spec (elems : List (Nat × List Nat)) :
    ((extensionsBehind (skipTag 0x5F24 (skipTag 0x5F25 (skipTag 0x7F4C elems).2).2).2).isSome
        = true ↔ (elems.map Prod.fst).Sublist optionalTags) ∧
    ∀ x, extensionsBehind (skipTag 0x5F24 (skipTag 0x5F25 (skipTag 0x7F4C elems).2).2).2
        = some x →
      (skipTag 0x7F4C elems).1 = elems.lookup 0x7F4C ∧
      (skipTag 0x5F25 (skipTag 0x7F4C elems).2).1 = elems.lookup 0x5F25 ∧
      (skipTag 0x5F24 (skipTag 0x5F25 (skipTag 0x7F4C elems).2).2).1 = elems.lookup 0x5F24 ∧
      x = elems.lookup 0x65 := by
  have hsub : (elems.map Prod.fst).Sublist optionalTags ↔
      (skipTag 0x5F24 (skipTag 0x5F25 (skipTag 0x7F4C elems).2).2).2 = [] ∨
      ∃ c, (skipTag 0x5F24 (skipTag 0x5F25 (skipTag 0x7F4C elems).2).2).2 = [(0x65, c)] := by
    unfold optionalTags
    rw [skipTag_sublist 0x7F4C, skipTag_sublist 0x5F25, skipTag_sublist 0x5F24]
    exact sublist_singleton 0x65 _
  have hiff : (extensionsBehind
      (skipTag 0x5F24 (skipTag 0x5F25 (skipTag 0x7F4C elems).2).2).2).isSome = true ↔
      (elems.map Prod.fst).Sublist optionalTags := by
    rw [hsub]
    match (skipTag 0x5F24 (skipTag 0x5F25 (skipTag 0x7F4C elems).2).2).2 with
    | [] => simp [extensionsBehind]
    | [e] =>
      obtain ⟨a, b⟩ := e
      by_cases he : a = 0x65
      · simp [he, extensionsBehind]
      · simp [he, extensionsBehind]
    | _ :: _ :: _ => simp [extensionsBehind]
  refine ⟨hiff, ?_⟩
  intro x hx
  have hs0 : (elems.map Prod.fst).Sublist optionalTags := hiff.1 (by rw [hx]; rfl)
  unfold optionalTags at hs0
  have l1 := skipTag_lookup 0x7F4C [0x5F25, 0x5F24, 0x65] (by decide) elems hs0
  have hs1 := (skipTag_sublist 0x7F4C _ elems).1 hs0
  have l2 := skipTag_lookup 0x5F25 [0x5F24, 0x65] (by decide) _ hs1
  have hs2 := (skipTag_sublist 0x5F25 _ _).1 hs1
  have l3 := skipTag_lookup 0x5F24 [0x65] (by decide) _ hs2
  have lced : elems.lookup 0x5F25 = (skipTag 0x5F25 (skipTag 0x7F4C elems).2).1 := by
    rw [l1.2 0x5F25 (by decide)]; exact l2.1
  have lcxd : elems.lookup 0x5F24 =
      (skipTag 0x5F24 (skipTag 0x5F25 (skipTag 0x7F4C elems).2).2).1 := by
    rw [l1.2 0x5F24 (by decide), l2.2 0x5F24 (by decide)]; exact l3.1
  have lext : elems.lookup 0x65 =
      ((skipTag 0x5F24 (skipTag 0x5F25 (skipTag 0x7F4C elems).2).2).2).lookup 0x65 := by
    rw [l1.2 0x65 (by decide), l2.2 0x65 (by decide), l3.2 0x65 (by decide)]
  refine ⟨l1.1.symm, lced.symm, lcxd.symm, ?_⟩
  rw [lext]
  revert hx
  match (skipTag 0x5F24 (skipTag 0x5F25 (skipTag 0x7F4C elems).2).2).2 with
  | [] =>
    intro hx
    simp only [extensionsBehind, Option.some.injEq] at hx
    rw [← hx]; rfl
  | [e] =>
    obtain ⟨a, b⟩ := e
    by_cases he : a = 0x65
    · intro hx
      simp only [extensionsBehind, he, if_true, Option.some.injEq] at hx
      rw [← hx]
      simp [he, List.lookup_cons]
    · intro hx
      simp [extensionsBehind, he] at hx
  | _ :: _ :: _ => intro hx; simp [extensionsBehind] at hx

theorem length_requestOf_mono (B B2 c s : List Nat) (h : B.length ≤ B2.length) :
    (requestOf B c s).length ≤ (requestOf B2 c s).length := by
  unfold requestOf
  apply length_tlv_mono
  simp only [List.length_append]
  omega

theorem length_le_requestOf (B c s : List Nat) : B.length ≤ (requestOf B c s).length := by
  have := length_lt_tlv 0x67 (B ++ (tlv 0x42 c ++ tlv 0x5F37 s))
  unfold requestOf
  simp only [List.length_append] at this
  omega

/-- Claim C16: take a certificate
`7F21{ 7F4E{ 5F29 prof, [42 car], 7F49{ key }, 5F20 h, elems }, 5F37 sig }`, bare or inside
a request, that is otherwise valid: without the elements `elems` behind the
holder reference it is accepted, and each of the elements is well formed.
Then `cvcDecode` succeeds if and only if the tags of `elems` form a sublist
of [0x7F4C, 0x5F25, 0x5F24, 0x65]; on success chat, ced, cxd and extensions
hold the content of the element with tag 0x7F4C, 0x5F25, 0x5F24 and 0x65
when that element is there and are absent otherwise, and every other field
is as in the certificate without the elements. -/
theorem cvcDecode_optional_order (outer : Option (List Nat × List Nat)) (prof : List Nat)
    (car : bytestring_s) (key h sig : List Nat) (elems : List (Nat × List Nat))
    (n0 : Nat) (r0 : cvc)
    (hbase : cvcDecode (wrapRequest outer (certificateElements prof car key h [] sig)) =
      some (n0, r0))
    (htag : ∀ e ∈ elems, validTag e.1)
    (hvalid : asn1Validate (encodeElements elems) = 0)
    (hsize : (wrapRequest outer (certificateElements prof car key h elems sig)).length
      < 2 ^ 31) :
    ((cvcDecode (wrapRequest outer (certificateElements prof car key h elems sig))).isSome
        = true ↔ (elems.map Prod.fst).Sublist optionalTags) ∧
    ∀ n r, cvcDecode (wrapRequest outer (certificateElements prof car key h elems sig)) =
        some (n, r) →
      n = (wrapRequest outer (certificateElements prof car key h elems sig)).length ∧
      r = { r0 with chat := elems.lookup 0x7F4C, ced := elems.lookup 0x5F25,
                    cxd := elems.lookup 0x5F24, extensions := elems.lookup 0x65 } := by
  obtain ⟨hiff, hfields⟩ := extensionsBehind_spec elems
  -- the closed form of the run, for the certificate and for the request
  have hform : cvcDecode (wrapRequest outer (certificateElements prof car key h elems sig)) =
      (extensionsBehind (skipTag 0x5F24 (skipTag 0x5F25 (skipTag 0x7F4C elems).2).2).2).map
        fun x => ((wrapRequest outer (certificateElements prof car key h elems sig)).length,
          { r0 with chat := (skipTag 0x7F4C elems).1,
                    ced := (skipTag 0x5F25 (skipTag 0x7F4C elems).2).1,
                    cxd := (skipTag 0x5F24 (skipTag 0x5F25 (skipTag 0x7F4C elems).2).2).1,
                    extensions := x }) := by
    cases outer with
    | none =>
      exact cvcDecode_certificateElements prof car key h sig elems n0 r0 hbase htag hvalid
        hsize
    | some cs =>
      obtain ⟨c, s⟩ := cs
      simp only [wrapRequest] at hbase hsize ⊢
      have hmono : (certificateElements prof car key h [] sig).length ≤
          (certificateElements prof car key h elems sig).length := by
        unfold certificateElements
        apply length_certificateOf_mono_tail
        simp [encodeElements]
      have hsize0 := lt_of_le_of_lt (length_requestOf_mono _ _ c s hmono) hsize
      have hsizeB := lt_of_le_of_lt (length_le_requestOf _ c s) hsize
      have q0 := cvcDecode_requestOf_tlv _ c s hsize0
      have q1 := cvcDecode_requestOf_tlv _ c s hsize
      have q0' : cvcDecode (requestOf (certificateElements prof car key h [] sig) c s) = _ := q0
      have q1' : cvcDecode (requestOf (certificateElements prof car key h elems sig) c s) = _ :=
        q1
      rw [q0'] at hbase
      rw [q1']
      cases hb : cvcDecode (certificateElements prof car key h [] sig) with
      | none =>
        have hb' : cvcDecode (tlv 0x7F21 _) = none := hb
        rw [hb'] at hbase; simp at hbase
      | some x0 =>
        obtain ⟨m0, p0⟩ := x0
        have hb' : cvcDecode (tlv 0x7F21 _) = some (m0, p0) := hb
        rw [hb'] at hbase
        simp only [Option.map_some', Option.some.injEq, Prod.mk.injEq] at hbase
        have hbare := cvcDecode_certificateElements prof car key h sig elems m0 p0 hb htag
          hvalid hsizeB
        have hbare' : cvcDecode (tlv 0x7F21 _) = _ := hbare
        rw [hbare', ← hbase.2]
        cases extensionsBehind (skipTag 0x5F24 (skipTag 0x5F25 (skipTag 0x7F4C elems).2).2).2
          <;> rfl
  rw [hform]
  refine ⟨by rw [Option.isSome_map']; exact hiff, ?_⟩
  intro n r hr
  cases hx : extensionsBehind (skipTag 0x5F24 (skipTag 0x5F25 (skipTag 0x7F4C elems).2).2).2 with
  | none => rw [hx] at hr; simp at hr
  | some x =>
    rw [hx] at hr
    simp only [Option.map_some', Option.some.injEq, Prod.mk.injEq] at hr
    obtain ⟨f1, f2, f3, f4⟩ := hfields x hx
    rw [← hr.1, ← hr.2, f1, f2, f3, f4]
    exact ⟨rfl, rfl⟩

/-! ## The views of the record with `val` and `len` apart -/

theorem bytesOf_viewOf (e : Asn1Elem) : bytesOf (viewOf e) = some e.value := by
  simp [bytesOf, viewOf]

theorem bytesOf_null : bytesOf { val := none, len := 0 } = none := rfl

theorem cvcViewsContainer_stateOf (s : ViewState) :
    (cvcViewsContainer s).map stateOf = cvcDecodeContainer (stateOf s) := by
  unfold cvcViewsContainer cvcDecodeContainer
  simp only [stateOf]
  cases asn1Next s.po with
  | none => rfl
  | some e1 =>
    simp only
    by_cases h1 : e1.tag ≠ 0x7F4E
    · simp [h1]
    · cases asn1Next e1.rest with
      | none => simp [h1]
      | some e2 =>
        by_cases h2 : e2.tag ≠ 0x5F37
        · simp [h1, h2]
        · by_cases h3 : e2.rest ≠ []
          · simp [h1, h2, h3]
          · simp [h1, h2, h3, stateOf, recordOf, bytesOf_viewOf]

theorem cvcViewsExtensions_stateOf (s : ViewState) :
    (cvcViewsExtensions s).map stateOf = cvcDecodeExtensions (stateOf s) := by
  unfold cvcViewsExtensions cvcDecodeExtensions
  simp only [stateOf]
  by_cases h0 : s.po ≠ []
  · rw [if_pos h0, if_pos h0]
    cases asn1Next s.po with
    | none => rfl
    | some x =>
      by_cases h1 : x.tag ≠ 0x65
      · simp [h1]
      · by_cases h2 : x.rest ≠ []
        · simp [h1, h2]
        · simp [h1, h2, stateOf, recordOf, bytesOf_viewOf]
  · rw [if_neg h0, if_neg h0]
    rfl

theorem cvcViewsOptional_cases (T : Nat) (po : List Nat) :
    (cvcViewsOptional T po = none ∧ cvcOptional T po = none) ∨
    (cvcViewsOptional T po = some (none, po) ∧ cvcOptional T po = some (none, po)) ∨
    (∃ e, cvcViewsOptional T po = some (some (viewOf e), e.rest) ∧
      cvcOptional T po = some (some e.value, e.rest)) := by
  unfold cvcViewsOptional cvcOptional
  by_cases h : po ≠ [] ∧ (asn1Tag po).1 = T
  · rw [if_pos h, if_pos h]
    cases asn1Next po with
    | none => exact Or.inl ⟨rfl, rfl⟩
    | some e => exact Or.inr (Or.inr ⟨e, rfl, rfl⟩)
  · rw [if_neg h, if_neg h]
    exact Or.inr (Or.inl ⟨rfl, rfl⟩)

theorem cvcViewsHolder_stateOf (s : ViewState) :
    (cvcViewsHolder s).map stateOf = cvcDecodeHolder (stateOf s) := by
  unfold cvcViewsHolder cvcDecodeHolder
  simp only [stateOf]
  cases asn1Next s.po with
  | none => rfl
  | some h =>
    simp only
    by_cases h1 : h.tag ≠ 0x5F20
    · simp [h1]
    · rw [if_neg h1, if_neg h1]
      rcases cvcViewsOptional_cases 0x7F4C h.rest with ⟨a1, b1⟩ | ⟨a1, b1⟩ | ⟨e1, a1, b1⟩
      · rw [a1, b1]; rfl
      · rw [a1, b1]
        simp only
        rcases cvcViewsOptional_cases 0x5F25 h.rest with ⟨a2, b2⟩ | ⟨a2, b2⟩ | ⟨e2, a2, b2⟩
        · rw [a2, b2]; rfl
        · rw [a2, b2]
          simp only
          rcases cvcViewsOptional_cases 0x5F24 h.rest with ⟨a3, b3⟩ | ⟨a3, b3⟩ | ⟨e3, a3, b3⟩
          · rw [a3, b3]; rfl
          · rw [a3, b3]
            simp [stateOf, recordOf, bytesOf_viewOf]
          · rw [a3, b3]
            simp [stateOf, recordOf, bytesOf_viewOf]
        · rw [a2, b2]
          simp only
          rcases cvcViewsOptional_cases 0x5F24 e2.rest with ⟨a3, b3⟩ | ⟨a3, b3⟩ | ⟨e3, a3, b3⟩
          · rw [a3, b3]; rfl
          · rw [a3, b3]
            simp [stateOf, recordOf, bytesOf_viewOf]
          · rw [a3, b3]
            simp [stateOf, recordOf, bytesOf_viewOf]
      · rw [a1, b1]
        simp only
        rcases cvcViewsOptional_cases 0x5F25 e1.rest with ⟨a2, b2⟩ | ⟨a2, b2⟩ | ⟨e2, a2, b2⟩
        · rw [a2, b2]; rfl
        · rw [a2, b2]
          simp only
          rcases cvcViewsOptional_cases 0x5F24 e1.rest with ⟨a3, b3⟩ | ⟨a3, b3⟩ | ⟨e3, a3, b3⟩
          · rw [a3, b3]; rfl
          · rw [a3, b3]
            simp [stateOf, recordOf, bytesOf_viewOf]
          · rw [a3, b3]
            simp [stateOf, recordOf, bytesOf_viewOf]
        · rw [a2, b2]
          simp only
          rcases cvcViewsOptional_cases 0x5F24 e2.rest with ⟨a3, b3⟩ | ⟨a3, b3⟩ | ⟨e3, a3, b3⟩
          · rw [a3, b3]; rfl
          · rw [a3, b3]
            simp [stateOf, recordOf, bytesOf_viewOf]
          · rw [a3, b3]
            simp [stateOf, recordOf, bytesOf_viewOf]

theorem cvcViewsProfile_stateOf (s : ViewState) :
    (cvcViewsProfile s).map stateOf = cvcDecodeProfile (stateOf s) := by
  simp only [cvcViewsProfile, cvcDecodeProfile, stateOf]
  cases h1 : asn1Next s.po with
  | none => rfl
  | some e =>
    simp only
    by_cases ht : e.tag ≠ 0x5F29
    · simp [ht]
    · cases hv : e.value ++ e.rest with
      | nil => simp [ht]
      | cons v vs =>
        by_cases hv0 : v ≠ 0
        · simp [ht, hv0]
        · by_cases hp : (asn1Tag e.rest).1 = 0x42
          · cases hc : asn1Next e.rest with
            | none => simp [ht, hv0, hp]
            | some c =>
              cases hk : asn1Next c.rest with
              | none => simp [ht, hv0, hp, hk]
              | some k =>
                by_cases hkt : k.tag ≠ 0x7F49
                · simp [ht, hv0, hp, hk, hkt]
                · simp [ht, hv0, hp, hk, hkt, stateOf, recordOf, bytesOf_viewOf]
          · cases hk : asn1Next e.rest with
            | none => simp [ht, hv0, hp, hk]
            | some k =>
              by_cases hkt : k.tag ≠ 0x7F49
              · simp [ht, hv0, hp, hk, hkt]
              · simp [ht, hv0, hp, hk, hkt, stateOf, recordOf]

theorem cvcViewsPublicKey_stateOf (s : ViewState) :
    (cvcViewsPublicKey s).map stateOf = cvcDecodePublicKey (stateOf s) := by
  unfold cvcViewsPublicKey cvcDecodePublicKey
  simp only [stateOf]
  cases asn1NextTag 0x06 s.po with
  | none => rfl
  | some o =>
    simp only
    by_cases hc : o.rest ≠ [] ∧ (asn1Tag o.rest).1 = 0x86
    · rw [if_pos hc, if_pos hc]
      cases asn1NextTag 0x86 o.rest with
      | none => rfl
      | some p => simp [stateOf, recordOf, bytesOf_viewOf]
    · rw [if_neg hc, if_neg hc]
      cases asn1NextTag 0x81 o.rest with
      | none => rfl
      | some e81 =>
        simp only
        cases asn1NextTag 0x82 e81.rest with
        | none => rfl
        | some e82 =>
          simp only
          by_cases hr : e82.rest ≠ []
          · rw [if_pos hr, if_pos hr]
            cases asn1NextTag 0x83 e82.rest with
            | none => rfl
            | some e83 =>
              simp only
              cases asn1NextTag 0x84 e83.rest with
              | none => rfl
              | some e84 =>
                simp only
                cases asn1NextTag 0x85 e84.rest with
                | none => rfl
                | some e85 =>
                  simp only
                  cases asn1NextTag 0x86 e85.rest with
                  | none => rfl
                  | some e86 =>
                    simp only
                    cases asn1NextTag 0x87 e86.rest with
                    | none => rfl
                    | some e87 => simp [stateOf, recordOf, bytesOf_viewOf]
          · rw [if_neg hr, if_neg hr]
            simp [stateOf, recordOf, bytesOf_viewOf]

theorem cvcViewsOuter_stateOf (cert : List Nat) :
    (cvcViewsOuter cert).map stateOf = cvcDecodeOuter cert := by
  unfold cvcViewsOuter cvcDecodeOuter
  by_cases hv : asn1Validate cert ≠ 0
  · rw [if_pos hv, if_pos hv]; rfl
  · rw [if_neg hv, if_neg hv]
    cases asn1Next cert with
    | none => rfl
    | some e0 =>
      simp only
      by_cases h0 : e0.tag = 0x67
      · rw [if_pos h0, if_pos h0]
        cases asn1Next e0.value with
        | none => rfl
        | some e1 =>
          simp only
          cases asn1Next e1.rest with
          | none => rfl
          | some e2 =>
            simp only
            by_cases h2 : e2.tag ≠ 0x42
            · rw [if_pos h2, if_pos h2]; rfl
            · rw [if_neg h2, if_neg h2]
              cases asn1Next e2.rest with
              | none => rfl
              | some e3 =>
                simp only
                by_cases h3 : e3.tag ≠ 0x5F37
                · rw [if_pos h3, if_pos h3]; rfl
                · rw [if_neg h3, if_neg h3]
                  by_cases h4 : e3.rest ≠ []
                  · rw [if_pos h4, if_pos h4]; rfl
                  · rw [if_neg h4, if_neg h4]
                    by_cases h5 : e1.tag ≠ 0x7F21
                    · rw [if_pos h5, if_pos h5]; rfl
                    · rw [if_neg h5, if_neg h5]
                      simp [stateOf, recordOf, bytesOf_viewOf, bytesOf_null]
      · rw [if_neg h0, if_neg h0]
        by_cases h1 : e0.tag ≠ 0x7F21
        · rw [if_pos h1, if_pos h1]; rfl
        · rw [if_neg h1, if_neg h1]
          simp [stateOf, recordOf, bytesOf_null]

/-- The decoder with `val` and `len` apart gives the record of `cvcDecode`. -/
theorem cvcDecodeViews_recordOf (cert : List Nat) :
    (cvcDecodeViews cert).map (fun x => (x.1, recordOf x.2)) = cvcDecode cert := by
  rw [cvcDecode_eq, ← cvcViewsOuter_stateOf]
  unfold cvcDecodeViews
  cases cvcViewsOuter cert with
  | none => rfl
  | some s0 =>
    simp only [Option.map_some', Option.some_bind]
    rw [← cvcViewsContainer_stateOf]
    cases cvcViewsContainer s0 with
    | none => rfl
    | some s1 =>
      simp only [Option.map_some', Option.some_bind]
      rw [← cvcViewsProfile_stateOf]
      cases cvcViewsProfile s1 with
      | none => rfl
      | some s2 =>
        simp only [Option.map_some', Option.some_bind]
        rw [← cvcViewsHolder_stateOf]
        cases cvcViewsHolder s2 with
        | none => rfl
        | some s3 =>
          simp only [Option.map_some', Option.some_bind]
          rw [← cvcViewsExtensions_stateOf]
          cases cvcViewsExtensions s3 with
          | none => rfl
          | some s4 =>
            simp only [Option.map_some', Option.some_bind]
            rw [← cvcViewsPublicKey_stateOf]
            cases cvcViewsPublicKey s4 with
            | none => rfl
            | some s5 => rfl

theorem cvcViewsPublicKey_all (P : ByteView → Prop) (hP : ∀ e, P (viewOf e))
    (s s' : ViewState) (h : cvcViewsPublicKey s = some s')
    (hs : ∀ v ∈ viewFields s.cvc, P v) : ∀ v ∈ viewFields s'.cvc, P v := by
  unfold cvcViewsPublicKey at h
  simp only [viewFields, List.mem_cons, List.mem_singleton, forall_eq_or_imp,
    forall_eq, List.not_mem_nil, false_implies, implies_true, and_true] at hs ⊢
  repeat' split at h
  all_goals first
    | exact Option.noConfusion h
    | (simp only [Option.some.injEq] at h
       subst h
       simp_all)

theorem cvcViewsOuter_all (P : ByteView → Prop) (h0 : P {}) (hP : ∀ e, P (viewOf e))
    (cert : List Nat) (s' : ViewState)
    (h : cvcViewsOuter cert = some s') : ∀ v ∈ viewFields s'.cvc, P v := by
  unfold cvcViewsOuter at h
  simp only [viewFields, List.mem_cons, List.mem_singleton, forall_eq_or_imp,
    forall_eq, List.not_mem_nil, false_implies, implies_true, and_true]
  repeat' split at h
  all_goals first
    | exact Option.noConfusion h
    | (simp only [Option.some.injEq] at h
       subst h
       simp_all)

theorem cvcViewsContainer_all (P : ByteView → Prop) (hP : ∀ e, P (viewOf e))
    (s s' : ViewState) (h : cvcViewsContainer s = some s')
    (hs : ∀ v ∈ viewFields s.cvc, P v) : ∀ v ∈ viewFields s'.cvc, P v := by
  unfold cvcViewsContainer at h
  simp only [viewFields, List.mem_cons, List.mem_singleton, forall_eq_or_imp,
    forall_eq, List.not_mem_nil, false_implies, implies_true, and_true] at hs ⊢
  repeat' split at h
  all_goals first
    | exact Option.noConfusion h
    | (simp only [Option.some.injEq] at h
       subst h
       simp_all)

theorem cvcViewsProfile_all (P : ByteView → Prop) (hP : ∀ e, P (viewOf e))
    (s s' : ViewState) (h : cvcViewsProfile s = some s')
    (hs : ∀ v ∈ viewFields s.cvc, P v) : ∀ v ∈ viewFields s'.cvc, P v := by
  simp only [cvcViewsProfile] at h
  simp only [viewFields, List.mem_cons, List.mem_singleton, forall_eq_or_imp,
    forall_eq, List.not_mem_nil, false_implies, implies_true, and_true] at hs ⊢
  cases h1 : asn1Next s.po with
  | none => simp [h1] at h
  | some e =>
    by_cases ht : e.tag ≠ 0x5F29
    · simp [h1, ht] at h
    · cases hv : e.value ++ e.rest with
      | nil => simp [h1, ht, hv] at h
      | cons v vs =>
        by_cases hv0 : v ≠ 0
        · simp [h1, ht, hv, hv0] at h
        · by_cases hp : (asn1Tag e.rest).1 = 0x42
          · cases hc : asn1Next e.rest with
            | none => simp [h1, ht, hv, hv0, hp, hc] at h
            | some c =>
              cases hk : asn1Next c.rest with
              | none => simp [h1, ht, hv, hv0, hp, hc, hk] at h
              | some k =>
                by_cases hkt : k.tag ≠ 0x7F49
                · simp [h1, ht, hv, hv0, hp, hc, hk, hkt] at h
                · simp [h1, ht, hv, hv0, hp, hc, hk, hkt] at h
                  subst h
                  exact ⟨hP c, hs.2⟩
          · cases hk : asn1Next e.rest with
            | none => simp [h1, ht, hv, hv0, hp, hk] at h
            | some k =>
              by_cases hkt : k.tag ≠ 0x7F49
              · simp [h1, ht, hv, hv0, hp, hk, hkt] at h
              · simp [h1, ht, hv, hv0, hp, hk, hkt] at h
                subst h
                exact hs

theorem cvcViewsOptional_all (P : ByteView → Prop) (hP : ∀ e, P (viewOf e))
    (T : Nat) (po po2 : List Nat) (v : Option ByteView)
    (h : cvcViewsOptional T po = some (v, po2)) (w : ByteView) (hw : P w) :
    P (v.getD w) := by
  rcases cvcViewsOptional_cases T po with ⟨a, _⟩ | ⟨a, _⟩ | ⟨e, a, _⟩
  · rw [a] at h; exact Option.noConfusion h
  · rw [a] at h
    simp only [Option.some.injEq, Prod.mk.injEq] at h
    rw [← h.1]; exact hw
  · rw [a] at h
    simp only [Option.some.injEq, Prod.mk.injEq] at h
    rw [← h.1]
    exact hP e

theorem cvcViewsHolder_all (P : ByteView → Prop) (hP : ∀ e, P (viewOf e))
    (s s' : ViewState) (h : cvcViewsHolder s = some s')
    (hs : ∀ v ∈ viewFields s.cvc, P v) : ∀ v ∈ viewFields s'.cvc, P v := by
  simp only [cvcViewsHolder] at h
  simp only [viewFields, List.mem_cons, List.mem_singleton, forall_eq_or_imp,
    forall_eq, List.not_mem_nil, false_implies, implies_true, and_true] at hs ⊢
  cases h0 : asn1Next s.po with
  | none => simp [h0] at h
  | some hd =>
    by_cases ht : hd.tag ≠ 0x5F20
    · simp [h0, ht] at h
    · cases o1 : cvcViewsOptional 0x7F4C hd.rest with
      | none => simp [h0, ht, o1] at h
      | some p1 =>
        obtain ⟨chat, po1⟩ := p1
        cases o2 : cvcViewsOptional 0x5F25 po1 with
        | none => simp [h0, ht, o1, o2] at h
        | some p2 =>
          obtain ⟨ced, po2⟩ := p2
          cases o3 : cvcViewsOptional 0x5F24 po2 with
          | none => simp [h0, ht, o1, o2, o3] at h
          | some p3 =>
            obtain ⟨cxd, po3⟩ := p3
            have q1 := cvcViewsOptional_all P hP _ _ _ _ o1 s.cvc.chat hs.2.2.1
            have q2 := cvcViewsOptional_all P hP _ _ _ _ o2 s.cvc.ced hs.2.2.2.1
            have q3 := cvcViewsOptional_all P hP _ _ _ _ o3 s.cvc.cxd hs.2.2.2.2.1
            simp [h0, ht, o1, o2, o3] at h
            subst h
            exact ⟨hs.1, hP hd, q1, q2, q3, hs.2.2.2.2.2⟩

theorem cvcViewsExtensions_all (P : ByteView → Prop) (hP : ∀ e, P (viewOf e))
    (s s' : ViewState) (h : cvcViewsExtensions s = some s')
    (hs : ∀ v ∈ viewFields s.cvc, P v) : ∀ v ∈ viewFields s'.cvc, P v := by
  unfold cvcViewsExtensions at h
  simp only [viewFields, List.mem_cons, List.mem_singleton, forall_eq_or_imp,
    forall_eq, List.not_mem_nil, false_implies, implies_true, and_true] at hs ⊢
  repeat' split at h
  all_goals first
    | exact Option.noConfusion h
    | (simp only [Option.some.injEq] at h
       subst h
       simp_all)

/-- A property of the zeroed view and of every view that `asn1Next` stores holds of
every view of the record on success: the record starts zeroed and `val` and
`len` of a view are only written together, by a successful `asn1Next`. -/
theorem cvcDecodeViews_all (P : ByteView → Prop) (h0 : P {}) (hP : ∀ e, P (viewOf e))
    (cert : List Nat) (n : Nat) (r : cvcViews)
    (h : cvcDecodeViews cert = some (n, r)) : ∀ v ∈ viewFields r, P v := by
  unfold cvcDecodeViews at h
  obtain ⟨s5, h5, hr⟩ := Option.map_eq_some'.1 h
  obtain ⟨s4, h4, h5⟩ := Option.bind_eq_some.1 h5
  obtain ⟨s3, h3, h4⟩ := Option.bind_eq_some.1 h4
  obtain ⟨s2, h2, h3⟩ := Option.bind_eq_some.1 h3
  obtain ⟨s1, h1, h2⟩ := Option.bind_eq_some.1 h2
  obtain ⟨s0, hh0, h1⟩ := Option.bind_eq_some.1 h1
  simp only [Prod.mk.injEq] at hr
  rw [← hr.2]
  exact cvcViewsPublicKey_all P hP _ _ h5 (cvcViewsExtensions_all P hP _ _ h4
    (cvcViewsHolder_all P hP _ _ h3 (cvcViewsProfile_all P hP _ _ h2
      (cvcViewsContainer_all P hP _ _ h1 (cvcViewsOuter_all P h0 hP _ _ hh0)))))

theorem cvcDecodeViews_sound (cert : List Nat) (n : Nat) (r : cvcViews)
    (h : cvcDecodeViews cert = some (n, r)) : absentIsEmpty r :=
  cvcDecodeViews_all (fun v => v.val = none → v.len = 0) (fun _ => rfl)
    (fun e hc => by simp [viewOf] at hc) cert n r h

theorem cvcDecodeViews_within (cert : List Nat) (n : Nat) (r : cvcViews)
    (h : cvcDecodeViews cert = some (n, r)) :
    ∀ v ∈ viewFields r, ∀ p, v.val = some p → v.len ≤ p.length :=
  cvcDecodeViews_all (fun v => ∀ p, v.val = some p → v.len ≤ p.length)
    (fun p hc => by simp at hc)
    (fun e p hc => by
      simp only [viewOf, Option.some.injEq] at hc
      rw [← hc]
      simp [viewOf]) cert n r h

/-! ## Claims C16 and C18 -/

/-- Witness for C16: in a request around a certificate with an authority reference and
a key with explicit parameters, the elements 0x7F4C, 0x5F25, 0x5F24 and 0x65
in this order are accepted; in the bare sample certificate, 0x5F24 before
0x5F25 is rejected. -/
theorem cvcDecode_optional_order_witness :
    (cvcDecode (wrapRequest (some ([0x43, 0x41], [0x01, 0x02]))
      (certificateElements [0x00] (some [0x43, 0x41])
        (explicitKey sampleOid [0x0B] [0x01] [0x02] [0x04, 0x05, 0x06] [0x0D] samplePoint
          [0x01] [])
        holder01 [(0x7F4C, []), (0x5F25, [0x02, 0x06]), (0x5F24, [0x02, 0x07]), (0x65, [])]
        sampleSignature))).isSome = true ∧
    (cvcDecode (wrapRequest none
      (certificateElements [0x00] none (referenceKey sampleOid samplePoint []) holder01
        [(0x5F24, [0x02, 0x07]), (0x5F25, [0x02, 0x06])] sampleSignature))).isSome ≠ true :=
  ⟨(cvcDecode_optional_order (some ([0x43, 0x41], [0x01, 0x02])) [0x00] (some [0x43, 0x41])
      (explicitKey sampleOid [0x0B] [0x01] [0x02] [0x04, 0x05, 0x06] [0x0D] samplePoint
        [0x01] [])
      holder01 sampleSignature
      [(0x7F4C, []), (0x5F25, [0x02, 0x06]), (0x5F24, [0x02, 0x07]), (0x65, [])]
      (wrapRequest (some ([0x43, 0x41], [0x01, 0x02]))
        (certificateElements [0x00] (some [0x43, 0x41])
          (explicitKey sampleOid [0x0B] [0x01] [0x02] [0x04, 0x05, 0x06] [0x0D] samplePoint
            [0x01] [])
          holder01 [] sampleSignature)).length
      { sampleRecord with car := some [0x43, 0x41], primeOrModulus := some [0x0B],
                          coefficientAorExponent := some [0x01], coefficientB := some [0x02],
                          basePointG := some [0x04, 0x05, 0x06], order := some [0x0D],
                          cofactor := some [0x01], outer_car := some [0x43, 0x41],
                          outerSignature := some [0x01, 0x02] }
      (by decide) (by decide) (by decide) (by decide)).1.2 (by decide),
    fun hc => absurd ((cvcDecode_optional_order none [0x00] none
      (referenceKey sampleOid samplePoint []) holder01 sampleSignature
      [(0x5F24, [0x02, 0x07]), (0x5F25, [0x02, 0x06])]
      (certificateElements [0x00] none (referenceKey sampleOid samplePoint []) holder01 []
        sampleSignature).length sampleRecord
      (by decide) (by decide) (by decide) (by decide)).1.1 hc) (by decide)⟩

/-- Claim C18, refuted at concrete inputs: the bare certificate with an empty holder
reference `5F20 00` is decoded to a record whose `chr` has a `val` other than
NULL and `len` 0, and a certificate with empty extensions `65 00` to a record
whose `extensions` has a `val` other than NULL and `len` 0: two views that are
present and empty. -/
theorem cvcDecode_empty_view_counterexample :
    (cvcDecodeViews (bareCertificate sampleOid samplePoint [] sampleSignature)).map
        (fun x => x.2.chr) = some { val := some [], len := 0 } ∧
    (cvcDecode (bareCertificate sampleOid samplePoint [] sampleSignature)).map
        (fun x => x.2.chr) = some (some []) ∧
    (cvcDecodeViews (certificateFollowedBy sampleOid samplePoint holder01 sampleSignature
        [(0x65, [])])).map (fun x => x.2.extensions) = some { val := some [], len := 0 } ∧
    (cvcDecode (certificateFollowedBy sampleOid samplePoint holder01 sampleSignature
        [(0x65, [])])).map (fun x => x.2.extensions) = some (some []) := by
  decide

/-- Claim C18, amended: on every buffer on which `cvcDecode` succeeds, every view of
the record whose `val` is NULL has `len` 0; every view whose bytes are those
of an element of content length 0 (`bytesOf` gives `some []`, so its `val` is
not NULL) has `len` 0, so that `len` 0 does not tell that the view is absent;
and the views `chr`, `pukoid` and `signature` have a `val` other than NULL,
whatever the content length of their elements.  The record `r` is the one of
the decoder that writes `val` and `len` apart; the record of `cvcDecode` is
its `recordOf`. -/
theorem cvcDecode_views (cert : List Nat) (n : Nat) (r0 : cvc)
    (h : cvcDecode cert = some (n, r0)) :
    ∃ r, cvcDecodeViews cert = some (n, r) ∧ recordOf r = r0 ∧ absentIsEmpty r ∧
      (∀ v ∈ viewFields r, bytesOf v = some [] → v.len = 0) ∧
      r.chr.val ≠ none ∧ r.pukoid.val ≠ none ∧ r.signature.val ≠ none := by
  rw [← cvcDecodeViews_recordOf] at h
  obtain ⟨x, hx, hxe⟩ := Option.map_eq_some'.1 h
  obtain ⟨m, r⟩ := x
  simp only [Prod.mk.injEq] at hxe
  obtain ⟨hm, hr⟩ := hxe
  subst hm
  have hdec : cvcDecode cert = some (m, r0) := by
    rw [← cvcDecodeViews_recordOf, hx, ← hr]; rfl
  obtain ⟨p1, p2, p3⟩ := cvcDecode_presence cert m r0 hdec
  rw [← hr] at p1 p2 p3
  refine ⟨r, hx, hr, cvcDecodeViews_sound cert m r hx, ?_, ?_, ?_, ?_⟩
  · intro v hv hb
    have hw := cvcDecodeViews_within cert m r hx v hv
    cases hval : v.val with
    | none => simp [bytesOf, hval] at hb
    | some p =>
      have hl := hw p hval
      simp only [bytesOf, hval, Option.map_some', Option.some.injEq,
        List.take_eq_nil_iff] at hb
      rcases hb with hb | hb
      · exact hb
      · rw [hb, List.length_nil] at hl
        omega
  · intro hc; apply p1; simp [recordOf, bytesOf, hc]
  · intro hc; apply p2; simp [recordOf, bytesOf, hc]
  · intro hc; apply p3; simp [recordOf, bytesOf, hc]

/-- Witness for the amended C18: the bare certificate with an empty holder reference. -/
theorem cvcDecode_views_witness :
    ∃ r, cvcDecodeViews (bareCertificate sampleOid samplePoint [] sampleSignature) =
        some ((bareCertificate sampleOid samplePoint [] sampleSignature).length, r) ∧
      recordOf r = { sampleRecord with chr := some [] } ∧ absentIsEmpty r ∧
      (∀ v ∈ viewFields r, bytesOf v = some [] → v.len = 0) ∧
      r.chr.val ≠ none ∧ r.pukoid.val ≠ none ∧ r.signature.val ≠ none :=
  cvcDecode_views (bareCertificate sampleOid samplePoint [] sampleSignature)
    (bareCertificate sampleOid samplePoint [] sampleSignature).length
    { sampleRecord with chr := some [] } (by decide)

end CVC
